import Mathlib

/-!
# imgui-sw: software renderer for Dear ImGui draw data

A shallow embedding of `src/sw_imgui.cpp` (pixel codec, alpha blending, triangle
rasterizer, dirty-rectangle pipeline) together with theorems about it.

Modelling conventions:
* `int` values are mathematical integers (`Int`); C++ signed overflow is undefined
  behaviour and is not modelled.  `/` on `int` is `Int.tdiv` (truncation toward zero).
* `float` values are rationals (`ℚ`).  In the texture sampler and in the triangle rasterizer
  every `float` operation rounds its exact result to binary32 (`f32`: round to nearest, ties
  to even), one operation at a time in the order of the C++ expression: no fused
  multiply-add, no extended precision.  Overflow to infinity and NaN are not modelled.  In
  `BlendPixel` and in the clip-rectangle arithmetic of the frame driver the `float`
  expressions are taken exactly.
* `(int)f` is truncation toward zero; a value outside the range of `int` is undefined
  behaviour and is not modelled.
* The target buffer is byte memory addressed relative to `G->Pixels`.
* `std::sort` is a parameter: any function returning a permutation of its input that is
  ordered by the comparator.  `stdSort` is one executable instance.
-/

namespace ImGuiSW

/-! ## Pixel formats and byte memory -/

/-- The enum `PixelFormat` of `sw_imgui.h`. -/
inductive PixelFormat where
  | RGBA32
  | BGRA32
  | RGB565
  deriving DecidableEq, Repr

/-- Byte memory, addressed by the offset from the base pointer `G->Pixels`. -/
abbrev Mem := Int → Nat

/-- The cast `(uint8_t)v` of an `int`. -/
def castU8 (v : Int) : Nat := (v % 256).toNat

/-- The cast `(uint16_t)v` of an `int`. -/
def castU16 (v : Int) : Nat := (v % 65536).toNat

/-- The cast `(int)f` of a `float`: truncation toward zero. -/
def castInt (q : ℚ) : Int := if 0 ≤ q then ⌊q⌋ else ⌈q⌉

/-! ## Binary32 arithmetic -/

/-- Rounding of a rational to the nearest integer, a tie going to the even neighbour. -/
def roundEven (q : ℚ) : Int :=
  if q - ⌊q⌋ < 1 / 2 then ⌊q⌋
  else if 1 / 2 < q - ⌊q⌋ then ⌊q⌋ + 1
  else if ⌊q⌋ % 2 = 0 then ⌊q⌋ else ⌊q⌋ + 1

/-- The exponent of the unit in the last place of the binary32 format at `q`: 24 significant
bits, and the spacing `2 ^ (-149)` below the least normal binade `2 ^ (-126)`. -/
def ulpExp (q : ℚ) : Int := max (Int.log 2 |q|) (-126) - 23

/-- The value a `float` operation stores when its exact result is `q`: IEEE-754 binary32, round
to nearest, ties to even.  Overflow to infinity is not modelled. -/
def f32 (q : ℚ) : ℚ := (roundEven (q / 2 ^ ulpExp q) : ℚ) * 2 ^ ulpExp q

/-- The `float` sum `a + b`. -/
def fadd (a b : ℚ) : ℚ := f32 (a + b)

/-- The `float` difference `a - b`. -/
def fsub (a b : ℚ) : ℚ := f32 (a - b)

/-- The `float` product `a * b`. -/
def fmul (a b : ℚ) : ℚ := f32 (a * b)

/-- The `float` quotient `a / b`. -/
def fdiv (a b : ℚ) : ℚ := f32 (a / b)

/-- The conversion of an `int` to `float`. -/
def i2f (n : Int) : ℚ := f32 (n : ℚ)

/-- The assignment `p[0] = b` on byte memory. -/
def poke (m : Mem) (p : Int) (b : Nat) : Mem := fun q => if q = p then b else m q

/-- Bytes per pixel of a format: `(G->Format == RGB565) ? 2 : 4`. -/
def bytesPerPixel (fmt : PixelFormat) : Int :=
  if fmt = PixelFormat.RGB565 then 2 else 4

/-- A logical pixel `(r, g, b, a)` as produced by `ReadDestPixel`. -/
structure RGBA where
  r : Int
  g : Int
  b : Int
  a : Int
  deriving DecidableEq, Repr

/-! ## Pixel codec -/

/-- Embedding of `WriteDestPixel(dst, fmt, r, g, b, a)`. -/
def WriteDestPixel (m : Mem) (dst : Int) (fmt : PixelFormat) (r g b a : Int) : Mem :=
  match fmt with
  | PixelFormat.RGBA32 =>
    poke (poke (poke (poke m dst (castU8 r)) (dst + 1) (castU8 g)) (dst + 2) (castU8 b))
      (dst + 3) (castU8 a)
  | PixelFormat.BGRA32 =>
    poke (poke (poke (poke m dst (castU8 b)) (dst + 1) (castU8 g)) (dst + 2) (castU8 r))
      (dst + 3) (castU8 a)
  | PixelFormat.RGB565 =>
    let R5 : Nat := castU16 ((r * 31 + 127).tdiv 255)
    let G6 : Nat := castU16 ((g * 63 + 127).tdiv 255)
    let B5 : Nat := castU16 ((b * 31 + 127).tdiv 255)
    let v : Nat := castU16 (((R5 <<< 11) ||| (G6 <<< 5) ||| B5 : Nat) : Int)
    poke (poke m dst (castU8 ((v &&& 0xFF : Nat) : Int))) (dst + 1) (castU8 ((v >>> 8 : Nat) : Int))

/-- Embedding of `ReadDestPixel(dst, fmt, r, g, b, a)`; the four out-parameters are returned. -/
def ReadDestPixel (m : Mem) (dst : Int) (fmt : PixelFormat) : RGBA :=
  match fmt with
  | PixelFormat.RGBA32 => ⟨m dst, m (dst + 1), m (dst + 2), m (dst + 3)⟩
  | PixelFormat.BGRA32 => ⟨m (dst + 2), m (dst + 1), m dst, m (dst + 3)⟩
  | PixelFormat.RGB565 =>
    let v : Nat := castU16 ((m dst ||| (m (dst + 1) <<< 8) : Nat) : Int)
    ⟨(((v >>> 11) &&& 31) * 255 / 31 : Nat), (((v >>> 5) &&& 63) * 255 / 63 : Nat),
      ((v &&& 31) * 255 / 31 : Nat), 255⟩

/-! ## Alpha blending -/

/-- Embedding of `BlendPixel(dst, fmt, sr, sg, sb, sa)`. -/
def BlendPixel (m : Mem) (dst : Int) (fmt : PixelFormat) (sr sg sb sa : Int) : Mem :=
  let d := ReadDestPixel m dst fmt
  let fa : ℚ := (sa : ℚ) / 255
  let inv : ℚ := 1 - fa
  let or_ : Int := castInt ((sr : ℚ) * fa + (d.r : ℚ) * inv + 1 / 2)
  let og_ : Int := castInt ((sg : ℚ) * fa + (d.g : ℚ) * inv + 1 / 2)
  let ob_ : Int := castInt ((sb : ℚ) * fa + (d.b : ℚ) * inv + 1 / 2)
  let oa_ : Int :=
    if fmt = PixelFormat.RGB565 then 255 else castInt ((sa : ℚ) + (d.a : ℚ) * inv + 1 / 2)
  WriteDestPixel m dst fmt or_ og_ ob_ oa_

/-! ## Vertices, textures and the render context -/

/-- The type `ImVec2` of Dear ImGui: two floats. -/
structure ImVec2 where
  x : ℚ
  y : ℚ
  deriving DecidableEq

/-- The type `ImVec4` of Dear ImGui: four floats; as a clip rectangle `(x, y)` is the min
corner and `(z, w)` the max corner. -/
structure ImVec4 where
  x : ℚ
  y : ℚ
  z : ℚ
  w : ℚ
  deriving DecidableEq

/-- The type `ImDrawVert` of Dear ImGui: position, texture coordinate, packed colour. -/
structure ImDrawVert where
  pos : ImVec2
  uv : ImVec2
  col : Nat
  deriving DecidableEq

/-- The bit positions `IM_COL32_R_SHIFT`, `IM_COL32_G_SHIFT`, `IM_COL32_B_SHIFT`,
`IM_COL32_A_SHIFT`; they are macros of `imgui.h` and are taken as a parameter. -/
structure ColShifts where
  R : Nat
  G : Nat
  B : Nat
  A : Nat
  deriving DecidableEq, Repr

/-- The values the four shift macros have in `imgui.h` without `IMGUI_USE_BGRA_PACKED_COLOR`. -/
def defaultShifts : ColShifts := ⟨0, 8, 16, 24⟩

/-- Half-open integer rectangle `[x1,x2) x [y1,y2)`: `struct Rect` of `sw_imgui.h`. -/
structure Rect where
  x1 : Int
  y1 : Int
  x2 : Int
  y2 : Int
  deriving DecidableEq, Repr

/-- The struct `DirtyRectsConfig` of `sw_imgui.h`, with its default member values. -/
structure DirtyRectsConfig where
  max_rects : Int := 12
  inflate_px : Int := 1
  merge_dist : Int := 2
  align_px : Int := 1
  deriving DecidableEq, Repr

/-- The struct `Context::Entry`: a user texture; `pixels = none` is the null pointer. -/
structure Entry where
  id : Nat
  pixels : Option Mem
  w : Int
  h : Int
  bpp : Int

/-- The struct `Context` (the global `G`).  `Pixels` is the content of the memory that
`G->Pixels` points to.  The flush callback, its user pointer and the auto-flush flag have no
effect on pixels or rectangles and are left out. -/
structure Context where
  Pixels : Mem
  Width : Int
  Height : Int
  Pitch : Int
  Format : PixelFormat
  FontPixels : Option Mem
  FontW : Int
  FontH : Int
  FontBpp : Int
  UserTextures : List Entry
  FontTextureID : Nat
  DirtyCfg : DirtyRectsConfig
  DirtyRects : List Rect

/-- Embedding of `UnpackColor(c, r, g, b, a)`; both preprocessor branches compute the same
four values. -/
def UnpackColor (sh : ColShifts) (c : Nat) : RGBA :=
  ⟨((c >>> sh.R) &&& 0xFF : Nat), ((c >>> sh.G) &&& 0xFF : Nat), ((c >>> sh.B) &&& 0xFF : Nat),
    ((c >>> sh.A) &&& 0xFF : Nat)⟩

/-! ## Texture sampling -/

/-- The function `std::clamp(v, lo, hi)`. -/
def clampInt (v lo hi : Int) : Int := if v < lo then lo else if hi < v then hi else v

/-- The body shared by the two lookups of `SampleTextureAlpha`: nearest texel, alpha byte
divided by `255.0f`.  The products `u * w` and `v * h` are `float` products (the `int`
dimension is converted to `float`), `(int)std::floor(.)` of a `float` is its floor, and the
division is a `float` division. -/
def sampleTexel (pixels : Mem) (w h bpp : Int) (u v : ℚ) : ℚ :=
  let x : Int := clampInt ⌊fmul u (i2f w)⌋ 0 (w - 1)
  let y : Int := clampInt ⌊fmul v (i2f h)⌋ 0 (h - 1)
  if bpp = 1 then fdiv (i2f (pixels (y * w + x) : Nat)) 255
  else fdiv (i2f (pixels ((y * w + x) * 4 + 3) : Nat)) 255

/-- The loop over `G->UserTextures` of `SampleTextureAlpha`, with the final `return 1.0f`. -/
def sampleUserTextures : List Entry → Nat → ℚ → ℚ → ℚ
  | [], _, _, _ => 1
  | e :: es, tex_id, u, v =>
    match e.pixels with
    | some px => if e.id = tex_id then sampleTexel px e.w e.h e.bpp u v
                 else sampleUserTextures es tex_id u v
    | none => sampleUserTextures es tex_id u v

/-- Embedding of `SampleTextureAlpha(tex_id, u, v)`. -/
def SampleTextureAlpha (G : Context) (tex_id : Nat) (u v : ℚ) : ℚ :=
  match G.FontPixels with
  | some px =>
    if tex_id = G.FontTextureID then sampleTexel px G.FontW G.FontH G.FontBpp u v
    else sampleUserTextures G.UserTextures tex_id u v
  | none => sampleUserTextures G.UserTextures tex_id u v

/-! ## Triangle rasterizer -/

/-- The struct `EdgeEq`. -/
structure EdgeEq where
  A : ℚ
  B : ℚ
  C : ℚ
  deriving DecidableEq

/-- Embedding of `MakeEdge(a, b)`, in `float` arithmetic. -/
def MakeEdge (a b : ImVec2) : EdgeEq :=
  ⟨fsub a.y b.y, fsub b.x a.x, fsub (fmul a.x b.y) (fmul a.y b.x)⟩

/-- Embedding of `EvalEdge(e, x, y)`: `e.A * x + e.B * y + e.C` in `float` arithmetic. -/
def EvalEdge (e : EdgeEq) (x y : ℚ) : ℚ := fadd (fadd (fmul e.A x) (fmul e.B y)) e.C

/-- The values `lo, lo+1, ..., hi-1` taken by the counter of `for (int i = lo; i < hi; ++i)`. -/
def intRange (lo hi : Int) : List Int :=
  (List.range (hi - lo).toNat).map (fun (i : Nat) => lo + (i : Int))

/-- The body of the inner loop of `RasterizeTriangle` for the pixel `(x, y)`: inside test,
interpolation, texture alpha, blend into `row + x * bpp`.  All of it is `float` arithmetic;
the `int` operands `x`, `y` and the colour channels are converted to `float`. -/
def RasterizePixel (G : Context) (v0 v1 v2 : ImDrawVert) (tex_id : Nat) (e0 e1 e2 : EdgeEq)
    (inv_area : ℚ) (c0 c1 c2 : RGBA) (bpp : Int) (m : Mem) (y x : Int) : Mem :=
  let px : ℚ := fadd (i2f x) (1 / 2)
  let py : ℚ := fadd (i2f y) (1 / 2)
  let w0 := EvalEdge e0 px py
  let w1 := EvalEdge e1 px py
  let w2 := EvalEdge e2 px py
  if w0 < 0 ∨ w1 < 0 ∨ w2 < 0 then m
  else
    let w0 := fmul w0 inv_area
    let w1 := fmul w1 inv_area
    let w2 := fmul w2 inv_area
    let u := fadd (fadd (fmul v0.uv.x w0) (fmul v1.uv.x w1)) (fmul v2.uv.x w2)
    let v := fadd (fadd (fmul v0.uv.y w0) (fmul v1.uv.y w1)) (fmul v2.uv.y w2)
    let rf := fadd (fadd (fmul (i2f c0.r) w0) (fmul (i2f c1.r) w1)) (fmul (i2f c2.r) w2)
    let gf := fadd (fadd (fmul (i2f c0.g) w0) (fmul (i2f c1.g) w1)) (fmul (i2f c2.g) w2)
    let bf := fadd (fadd (fmul (i2f c0.b) w0) (fmul (i2f c1.b) w1)) (fmul (i2f c2.b) w2)
    let af := fadd (fadd (fmul (i2f c0.a) w0) (fmul (i2f c1.a) w1)) (fmul (i2f c2.a) w2)
    let ta := SampleTextureAlpha G tex_id u v
    BlendPixel m (y * G.Pitch + x * bpp) G.Format (castInt (fadd rf (1 / 2)))
      (castInt (fadd gf (1 / 2))) (castInt (fadd bf (1 / 2)))
      (castInt (fadd (fmul af ta) (1 / 2)))

/-- The vertex position moved by the display offset: `ImVec2 p(v.pos.x - ox, v.pos.y - oy)`,
two `float` subtractions. -/
def vertexPos (v : ImDrawVert) (ox oy : ℚ) : ImVec2 := ⟨fsub v.pos.x ox, fsub v.pos.y oy⟩

/-- The bounding box of the three points, `floor`/`ceil`ed and intersected with the clip
rectangle: `(minx, miny, maxx, maxy)` as they stand before the emptiness test. -/
def clippedBox (p0 p1 p2 : ImVec2) (clip : ImVec4) : ImVec4 :=
  ⟨max (⌊min p0.x (min p1.x p2.x)⌋ : ℚ) clip.x, max (⌊min p0.y (min p1.y p2.y)⌋ : ℚ) clip.y,
    min (⌈max p0.x (max p1.x p2.x)⌉ : ℚ) clip.z, min (⌈max p0.y (max p1.y p2.y)⌉ : ℚ) clip.w⟩

/-- The value `area` of `RasterizeTriangle`: `e2.A * p2.x + e2.B * p2.y + e2.C` for the edge
`e2 = MakeEdge(p0, p1)`, in `float` arithmetic. -/
def signedArea (p0 p1 p2 : ImVec2) : ℚ :=
  fadd (fadd (fmul (MakeEdge p0 p1).A p2.x) (fmul (MakeEdge p0 p1).B p2.y)) (MakeEdge p0 p1).C

/-- Embedding of `RasterizeTriangle(v0, v1, v2, tex_id, clip, ox, oy)`: the context after the
call; only the buffer memory `Pixels` can differ. -/
def RasterizeTriangle (G : Context) (sh : ColShifts) (v0 v1 v2 : ImDrawVert) (tex_id : Nat)
    (clip : ImVec4) (ox oy : ℚ) : Context :=
  let p0 := vertexPos v0 ox oy
  let p1 := vertexPos v1 ox oy
  let p2 := vertexPos v2 ox oy
  let bb := clippedBox p0 p1 p2 clip
  if bb.z ≤ bb.x ∨ bb.w ≤ bb.y then G
  else
    let e0 := MakeEdge p1 p2
    let e1 := MakeEdge p2 p0
    let e2 := MakeEdge p0 p1
    let area : ℚ := signedArea p0 p1 p2
    if area = 0 then G
    else
      let inv_area : ℚ := fdiv 1 area
      let c0 := UnpackColor sh v0.col
      let c1 := UnpackColor sh v1.col
      let c2 := UnpackColor sh v2.col
      let xmin := castInt bb.x
      let xmax := castInt bb.z
      let ymin := castInt bb.y
      let ymax := castInt bb.w
      let bpp : Int := bytesPerPixel G.Format
      { G with
        Pixels := (intRange ymin ymax).foldl
          (fun m y => (intRange xmin xmax).foldl
            (fun m x => RasterizePixel G v0 v1 v2 tex_id e0 e1 e2 inv_area c0 c1 c2 bpp m y x) m)
          G.Pixels }

/-! ## Dirty-rectangle pipeline -/

/-- Stage 1, the loop body "Inflate": grow by `inflate_px`, clamped to `[0,W] x [0,H]`. -/
def inflateRect (W H inflate_px : Int) (r : Rect) : Rect :=
  ⟨max 0 (r.x1 - inflate_px), max 0 (r.y1 - inflate_px), min W (r.x2 + inflate_px),
    min H (r.y2 + inflate_px)⟩

/-- The area `(x2 - x1) * (y2 - y1)` computed inside the sort comparator. -/
def rectArea (r : Rect) : Int := (r.x2 - r.x1) * (r.y2 - r.y1)

/-- The comparator lambda passed to `std::sort`: `aa > bb` (area descending). -/
def areaGreater (a b : Rect) : Bool := decide (rectArea a > rectArea b)

/-- What `std::sort(first, last, comp)` guarantees for the comparator `areaGreater`: the result
is a permutation of the input in which no later element compares before an earlier one.  The
order of rectangles of equal area is unspecified. -/
def IsStdSort (sort : List Rect → List Rect) : Prop :=
  ∀ l, (sort l).Perm l ∧ (sort l).Pairwise (fun a b => areaGreater b a = false)

/-- One executable instance of `std::sort` with the comparator `areaGreater`. -/
def stdSort (l : List Rect) : List Rect :=
  l.insertionSort (fun a b => rectArea b ≤ rectArea a)

/-- The lambdas `overlap_or_close` and `overlap_or_close2`. -/
def overlap_or_close (a b : Rect) (dist : Int) : Bool :=
  !(decide (a.x2 + dist ≤ b.x1) || decide (b.x2 + dist ≤ a.x1) || decide (a.y2 + dist ≤ b.y1)
    || decide (b.y2 + dist ≤ a.y1))

/-- The four `min`/`max` assignments that absorb `r` into the merged rectangle `mr`. -/
def unionRect (mr r : Rect) : Rect :=
  ⟨min mr.x1 r.x1, min mr.y1 r.y1, max mr.x2 r.x2, max mr.y2 r.y2⟩

/-- The inner loop over `merged`: the first rectangle close to `r` absorbs it (`some`, the
updated vector, `m = true`); `none` when the loop ends with `m = false`. -/
def absorbFirst (dist : Int) (r : Rect) : List Rect → Option (List Rect)
  | [] => none
  | mr :: rest =>
    if overlap_or_close mr r dist then some (unionRect mr r :: rest)
    else (absorbFirst dist r rest).map (fun t => mr :: t)

/-- The outer loop of the greedy merge, from the current `merged` vector over the remaining
sorted rectangles, with the cap: once `merged.Size > max_rects` the vector is replaced by the
full-buffer rectangle and the loop is left. -/
def mergeLoop (W H dist max_rects : Int) : List Rect → List Rect → List Rect
  | merged, [] => merged
  | merged, r :: rest =>
    match absorbFirst dist r merged with
    | some merged' => mergeLoop W H dist max_rects merged' rest
    | none =>
      if ((merged ++ [r]).length : Int) > max_rects then [⟨0, 0, W, H⟩]
      else mergeLoop W H dist max_rects (merged ++ [r]) rest

/-- Stage 3, the loop body "Align" for the grid `ap`. -/
def alignRect (W H ap : Int) (r : Rect) : Rect :=
  ⟨(r.x1.tdiv ap) * ap, (r.y1.tdiv ap) * ap, min W (((r.x2 + ap - 1).tdiv ap) * ap),
    min H (((r.y2 + ap - 1).tdiv ap) * ap)⟩

/-- Stage 3, the loop "Align" over the merged rectangles, with `ap = std::max(1, align_px)`. -/
def alignStage (W H align_px : Int) (merged : List Rect) : List Rect :=
  let ap := max 1 align_px
  merged.map (alignRect W H ap)

/-- The block `if (G->DirtyRects.Size > 0) { ... }` of `RenderDrawData` up to the `swap`:
from the rectangles collected in `G->DirtyRects` to the final content of `G->DirtyRects`,
for the frame buffer size `W = fb_width`, `H = fb_height`. -/
def RenderDrawData_dirty (sort : List Rect → List Rect) (G : Context) (W H : Int) : List Rect :=
  if G.DirtyRects.length > 0 then
    let v := G.DirtyRects.map (inflateRect W H G.DirtyCfg.inflate_px)
    let v := sort v
    let merged := mergeLoop W H G.DirtyCfg.merge_dist G.DirtyCfg.max_rects [] v
    alignStage W H G.DirtyCfg.align_px merged
  else G.DirtyRects

/-- The part of `ComputeDirtyRects` after the rectangles have been collected in `out`
(from `if (out.Size == 0) return;` to `out.swap(merged)`). -/
def ComputeDirtyRects_stages (sort : List Rect → List Rect) (out : List Rect)
    (screen_w screen_h inflate_px merge_dist max_rects align_px : Int) : List Rect :=
  if out.length = 0 then out
  else
    let out := out.map (inflateRect screen_w screen_h inflate_px)
    let out := sort out
    let merged := mergeLoop screen_w screen_h merge_dist max_rects [] out
    alignStage screen_w screen_h align_px merged

/-! ## Predicates used to state properties -/

/-- The rectangle `inner` is contained in the rectangle `outer`. -/
def rectContains (outer inner : Rect) : Prop :=
  outer.x1 ≤ inner.x1 ∧ outer.y1 ≤ inner.y1 ∧ inner.x2 ≤ outer.x2 ∧ inner.y2 ≤ outer.y2

/-- A non-empty rectangle inside `[0,W] x [0,H]`. -/
def validRect (W H : Int) (r : Rect) : Prop :=
  0 ≤ r.x1 ∧ r.x1 < r.x2 ∧ r.x2 ≤ W ∧ 0 ≤ r.y1 ∧ r.y1 < r.y2 ∧ r.y2 ≤ H

/-- The value `m` is the largest multiple of `ap` that is not above `x`. -/
def IsFloorMultiple (ap x m : Int) : Prop :=
  ap ∣ m ∧ m ≤ x ∧ ∀ k : Int, ap ∣ k → k ≤ x → k ≤ m

/-- The value `m` is the smallest multiple of `ap` that is not below `x`. -/
def IsCeilMultiple (ap x m : Int) : Prop :=
  ap ∣ m ∧ x ≤ m ∧ ∀ k : Int, ap ∣ k → x ≤ k → m ≤ k

/-- The byte address `a` belongs to the pixel `(x, y)` of the buffer of `G`: it is one of the
`bpp` bytes at `G->Pixels + y * G->Pitch + x * bpp`. -/
def inPixel (G : Context) (x y a : Int) : Prop :=
  y * G.Pitch + x * bytesPerPixel G.Format ≤ a ∧
    a < y * G.Pitch + x * bytesPerPixel G.Format + bytesPerPixel G.Format

/-- The edge value of the directed line from `a` to `b` at the centre of the pixel `(x, y)`
as the loop body of `RasterizeTriangle` computes it: `EvalEdge(MakeEdge(a, b), x + 0.5f,
y + 0.5f)` in `float` arithmetic. -/
def edgeAt (a b : ImVec2) (x y : Int) : ℚ :=
  EvalEdge (MakeEdge a b) (fadd (i2f x) (1 / 2)) (fadd (i2f y) (1 / 2))

/-- Modelled from the spec: the edge function of the directed line from `a` to `b` at the
centre `(x + 1/2, y + 1/2)` of the pixel `(x, y)`, in exact arithmetic. -/
def edgeExact (a b : ImVec2) (x y : Int) : ℚ :=
  (a.y - b.y) * ((x : ℚ) + 1 / 2) + (b.x - a.x) * ((y : ℚ) + 1 / 2) + (a.x * b.y - a.y * b.x)

/-- Modelled from the spec: the signed area of the triangle `p0 p1 p2` (twice the area, with
the sign of the winding), in exact arithmetic. -/
def areaExact (p0 p1 p2 : ImVec2) : ℚ :=
  (p0.y - p1.y) * p2.x + (p1.x - p0.x) * p2.y + (p0.x * p1.y - p0.y * p1.x)

/-- The handle `tex_id` is not registered: it is not the font handle with font pixels bound,
and not the id of a user texture with non-null pixels. -/
def Unregistered (G : Context) (tex_id : Nat) : Prop :=
  ¬ (tex_id = G.FontTextureID ∧ G.FontPixels.isSome = true) ∧
    ∀ e ∈ G.UserTextures, ¬ (e.id = tex_id ∧ e.pixels.isSome = true)

/-- The pixel-aligned bounding box of the three points (floor of the minima, ceiling of the
maxima) has no interior point in common with the clip rectangle. -/
def boxMissesClip (p0 p1 p2 : ImVec2) (clip : ImVec4) : Prop :=
  (⌈max p0.x (max p1.x p2.x)⌉ : ℚ) ≤ clip.x ∨ clip.z ≤ (⌊min p0.x (min p1.x p2.x)⌋ : ℚ) ∨
  (⌈max p0.y (max p1.y p2.y)⌉ : ℚ) ≤ clip.y ∨ clip.w ≤ (⌊min p0.y (min p1.y p2.y)⌋ : ℚ)

/-- A vertex at `(x, y)` with texture coordinate `(0, 0)` and the packed colour `0xFFFFFFFF`
(all four channels 255). -/
def whiteVertex (x y : ℚ) : ImDrawVert := ⟨⟨x, y⟩, ⟨0, 0⟩, 0xFFFFFFFF⟩

/-- A context with an all-zero RGBA32 buffer of the given size and no textures, carrying the
dirty-rectangle configuration `cfg` and the recorded rectangles `rects`. -/
def blankContext (W H : Int) (cfg : DirtyRectsConfig) (rects : List Rect) : Context :=
  { Pixels := fun _ => 0, Width := W, Height := H, Pitch := W * 4,
    Format := PixelFormat.RGBA32, FontPixels := none, FontW := 0, FontH := 0, FontBpp := 1,
    UserTextures := [], FontTextureID := 1, DirtyCfg := cfg, DirtyRects := rects }

/-- The loop over `G->UserTextures` as a lookup: the first entry with the given id and
non-null pixels, as `(pixels, w, h, bpp)`. -/
def findUserTexture : List Entry → Nat → Option (Mem × Int × Int × Int)
  | [], _ => none
  | e :: es, tex_id =>
    match e.pixels with
    | some px => if e.id = tex_id then some (px, e.w, e.h, e.bpp) else findUserTexture es tex_id
    | none => findUserTexture es tex_id

/-- The texture a handle stands for in `SampleTextureAlpha`: the font atlas when the handle is
the font handle and font pixels are bound, else the first user entry with that id and non-null
pixels; `none` for a handle that is not registered. -/
def findTexture (G : Context) (tex_id : Nat) : Option (Mem × Int × Int × Int) :=
  match G.FontPixels with
  | some px =>
    if tex_id = G.FontTextureID then some (px, G.FontW, G.FontH, G.FontBpp)
    else findUserTexture G.UserTextures tex_id
  | none => findUserTexture G.UserTextures tex_id

/-- A context with a 2 x 2 one-byte font atlas (handle 1, every texel 128), a 2 x 2 four-byte
user texture with handle 7 (every byte 200) and an entry with handle 9 and null pixels. -/
def texturedContext : Context :=
  { Pixels := fun _ => 0, Width := 4, Height := 4, Pitch := 16,
    Format := PixelFormat.RGBA32, FontPixels := some (fun _ => 128), FontW := 2, FontH := 2,
    FontBpp := 1,
    UserTextures := [⟨7, some (fun _ => 200), 2, 2, 4⟩, ⟨9, none, 1, 1, 1⟩],
    FontTextureID := 1, DirtyCfg := ⟨12, 1, 2, 1⟩, DirtyRects := [] }

/-- The inside test of the loop body of `RasterizeTriangle`: `false` when the `continue` is
taken, that is when some edge function is negative at the centre of the pixel `(x, y)`. -/
def insideTest (e0 e1 e2 : EdgeEq) (y x : Int) : Bool :=
  let px : ℚ := fadd (i2f x) (1 / 2)
  let py : ℚ := fadd (i2f y) (1 / 2)
  !(decide (EvalEdge e0 px py < 0) || decide (EvalEdge e1 px py < 0)
    || decide (EvalEdge e2 px py < 0))

/-- The values `(sr, sg, sb, sa)` that the loop body of `RasterizeTriangle` passes to
`BlendPixel` for the pixel `(x, y)`. -/
def shadeArgs (G : Context) (v0 v1 v2 : ImDrawVert) (tex_id : Nat) (e0 e1 e2 : EdgeEq)
    (inv_area : ℚ) (c0 c1 c2 : RGBA) (y x : Int) : RGBA :=
  let px : ℚ := fadd (i2f x) (1 / 2)
  let py : ℚ := fadd (i2f y) (1 / 2)
  let w0 := fmul (EvalEdge e0 px py) inv_area
  let w1 := fmul (EvalEdge e1 px py) inv_area
  let w2 := fmul (EvalEdge e2 px py) inv_area
  let u := fadd (fadd (fmul v0.uv.x w0) (fmul v1.uv.x w1)) (fmul v2.uv.x w2)
  let v := fadd (fadd (fmul v0.uv.y w0) (fmul v1.uv.y w1)) (fmul v2.uv.y w2)
  let rf := fadd (fadd (fmul (i2f c0.r) w0) (fmul (i2f c1.r) w1)) (fmul (i2f c2.r) w2)
  let gf := fadd (fadd (fmul (i2f c0.g) w0) (fmul (i2f c1.g) w1)) (fmul (i2f c2.g) w2)
  let bf := fadd (fadd (fmul (i2f c0.b) w0) (fmul (i2f c1.b) w1)) (fmul (i2f c2.b) w2)
  let af := fadd (fadd (fmul (i2f c0.a) w0) (fmul (i2f c1.a) w1)) (fmul (i2f c2.a) w2)
  let ta := SampleTextureAlpha G tex_id u v
  ⟨castInt (fadd rf (1 / 2)), castInt (fadd gf (1 / 2)), castInt (fadd bf (1 / 2)),
    castInt (fadd (fmul af ta) (1 / 2))⟩

/-- The pixels `(y, x)` for which a call of `RasterizeTriangle` reaches `BlendPixel`, in the
order of the two loops. -/
def shadedPixels (v0 v1 v2 : ImDrawVert) (clip : ImVec4) (ox oy : ℚ) : List (Int × Int) :=
  let p0 := vertexPos v0 ox oy
  let p1 := vertexPos v1 ox oy
  let p2 := vertexPos v2 ox oy
  let bb := clippedBox p0 p1 p2 clip
  if bb.z ≤ bb.x ∨ bb.w ≤ bb.y then []
  else if signedArea p0 p1 p2 = 0 then []
  else
    ((intRange (castInt bb.y) (castInt bb.w)) ×ˢ (intRange (castInt bb.x) (castInt bb.z))).filter
      (fun p => insideTest (MakeEdge p1 p2) (MakeEdge p2 p0) (MakeEdge p0 p1) p.1 p.2)

/-- The values `(sr, sg, sb, sa)` that a call of `RasterizeTriangle` passes to `BlendPixel`
when it shades the pixel `(x, y)`. -/
def blendArgs (G : Context) (sh : ColShifts) (v0 v1 v2 : ImDrawVert) (tex_id : Nat)
    (ox oy : ℚ) (y x : Int) : RGBA :=
  shadeArgs G v0 v1 v2 tex_id
    (MakeEdge (vertexPos v1 ox oy) (vertexPos v2 ox oy))
    (MakeEdge (vertexPos v2 ox oy) (vertexPos v0 ox oy))
    (MakeEdge (vertexPos v0 ox oy) (vertexPos v1 ox oy))
    (fdiv 1 (signedArea (vertexPos v0 ox oy) (vertexPos v1 ox oy) (vertexPos v2 ox oy)))
    (UnpackColor sh v0.col) (UnpackColor sh v1.col) (UnpackColor sh v2.col) y x

/-- Every texture memory of the context holds bytes (values below 256). -/
def TexturesAreBytes (G : Context) : Prop :=
  (∀ px, G.FontPixels = some px → ∀ a, px a < 256) ∧
    ∀ e ∈ G.UserTextures, ∀ px, e.pixels = some px → ∀ a, px a < 256

/-! ## Frame driver -/

/-- The fields of `ImDrawCmd` (Dear ImGui) that the renderer reads: the clip rectangle, the
texture handle returned by `GetTexID()`, the element count, and whether `UserCallback` is
set. -/
structure ImDrawCmd where
  ClipRect : ImVec4
  TexID : Nat
  ElemCount : Nat
  UserCallback : Bool

/-- The fields of `ImDrawList` that the renderer reads: `VtxBuffer.Data` and `IdxBuffer.Data`
as memory indexed from the start of the buffer, and the command vector. -/
structure ImDrawList where
  VtxBuffer : Nat → ImDrawVert
  IdxBuffer : Nat → Nat
  CmdBuffer : List ImDrawCmd

/-- The fields of `ImDrawData` that the renderer reads. -/
structure ImDrawData where
  DisplayPos : ImVec2
  DisplaySize : ImVec2
  FramebufferScale : ImVec2
  CmdLists : List ImDrawList

/-- The arguments of one call `RasterizeTriangle(v0, v1, v2, tex_id, clip, ox, oy)`. -/
structure RasterCall where
  v0 : ImDrawVert
  v1 : ImDrawVert
  v2 : ImDrawVert
  tex_id : Nat
  clip : ImVec4
  ox : ℚ
  oy : ℚ
  deriving DecidableEq

/-- The state of the loops of `RenderDrawData`: the context, the position of the pointer
`idx_buf` as an offset into `IdxBuffer.Data`, and the log of the `RasterizeTriangle` calls made
so far. -/
structure FrameState where
  G : Context
  idx_buf : Nat
  calls : List RasterCall

/-- The clip rectangle `cr` of `RenderDrawData` for one command: moved by the display offset,
scaled, `x`, `y` raised to 0 and `z`, `w` lowered to the frame buffer size. -/
def clampedClip (cmd : ImDrawCmd) (clip_off clip_scale : ImVec2) (fb_width fb_height : Int) :
    ImVec4 :=
  let x := (cmd.ClipRect.x - clip_off.x) * clip_scale.x
  let y := (cmd.ClipRect.y - clip_off.y) * clip_scale.y
  let z := (cmd.ClipRect.z - clip_off.x) * clip_scale.x
  let w := (cmd.ClipRect.w - clip_off.y) * clip_scale.y
  ⟨if x < 0 then 0 else x, if y < 0 then 0 else y,
    if z > (fb_width : ℚ) then (fb_width : ℚ) else z,
    if w > (fb_height : ℚ) then (fb_height : ℚ) else w⟩

/-- The loop `for (; idx_buf < idx_end; idx_buf += 3)` of `RenderDrawData`, for the number of
iterations left: read three indices at `idx_buf`, rasterize, advance by 3. -/
def drawTriangles (sh : ColShifts) (cl : ImDrawList) (tex_id : Nat) (cr : ImVec4)
    (ox oy : ℚ) : Nat → FrameState → FrameState
  | 0, s => s
  | n + 1, s =>
    let v0 := cl.VtxBuffer (cl.IdxBuffer s.idx_buf)
    let v1 := cl.VtxBuffer (cl.IdxBuffer (s.idx_buf + 1))
    let v2 := cl.VtxBuffer (cl.IdxBuffer (s.idx_buf + 2))
    drawTriangles sh cl tex_id cr ox oy n
      { G := RasterizeTriangle s.G sh v0 v1 v2 tex_id cr ox oy,
        idx_buf := s.idx_buf + 3,
        calls := s.calls ++ [⟨v0, v1, v2, tex_id, cr, ox, oy⟩] }

/-- The body of the loop over `cmd_list->CmdBuffer` of `RenderDrawData` for one command.  A
user callback is taken to leave the context alone.  The triangle loop runs while
`idx_buf < idx_buf + ElemCount`, that is `(ElemCount + 2) / 3` times. -/
def RenderCmd (sh : ColShifts) (clip_off clip_scale : ImVec2) (fb_width fb_height : Int)
    (cl : ImDrawList) (s : FrameState) (pcmd : ImDrawCmd) : FrameState :=
  if pcmd.UserCallback then s
  else
    let cr := clampedClip pcmd clip_off clip_scale fb_width fb_height
    if cr.x ≥ cr.z ∨ cr.y ≥ cr.w then s
    else
      let r : Rect := ⟨⌊cr.x⌋, ⌊cr.y⌋, ⌈cr.z⌉, ⌈cr.w⌉⟩
      let s1 : FrameState :=
        { s with G := { s.G with DirtyRects := s.G.DirtyRects ++ [r] } }
      drawTriangles sh cl pcmd.TexID cr clip_off.x clip_off.y ((pcmd.ElemCount + 2) / 3) s1

/-- Embedding of `RenderDrawData(draw_data)` for a live context with a bound buffer and a
non-null `draw_data`, with dirty rectangles compiled in: the context after the call and the
log of the `RasterizeTriangle` calls.  The flush callback is outside the model. -/
def RenderDrawData (sort : List Rect → List Rect) (sh : ColShifts) (G : Context)
    (draw_data : ImDrawData) : FrameState :=
  let clip_off := draw_data.DisplayPos
  let clip_scale := draw_data.FramebufferScale
  let fb_width := castInt (draw_data.DisplaySize.x * clip_scale.x)
  let fb_height := castInt (draw_data.DisplaySize.y * clip_scale.y)
  if fb_width ≤ 0 ∨ fb_height ≤ 0 then ⟨G, 0, []⟩
  else
    let s0 : FrameState := ⟨{ G with DirtyRects := [] }, 0, []⟩
    let s1 := draw_data.CmdLists.foldl
      (fun s cmd_list =>
        cmd_list.CmdBuffer.foldl
          (RenderCmd sh clip_off clip_scale fb_width fb_height cmd_list) { s with idx_buf := 0 })
      s0
    { s1 with G := { s1.G with DirtyRects := RenderDrawData_dirty sort s1.G fb_width fb_height } }

/-- The rectangle `r` that `ComputeDirtyRects` builds for one command: rounded outward, then
each coordinate clamped to `[0, screen_w]` or `[0, screen_h]`. -/
def computeRect (pcmd : ImDrawCmd) (clip_off clip_scale : ImVec2) (screen_w screen_h : Int) :
    Rect :=
  ⟨max 0 (min ⌊(pcmd.ClipRect.x - clip_off.x) * clip_scale.x⌋ screen_w),
    max 0 (min ⌊(pcmd.ClipRect.y - clip_off.y) * clip_scale.y⌋ screen_h),
    max 0 (min ⌈(pcmd.ClipRect.z - clip_off.x) * clip_scale.x⌉ screen_w),
    max 0 (min ⌈(pcmd.ClipRect.w - clip_off.y) * clip_scale.y⌉ screen_h)⟩

/-- The body of the loop over `dl->CmdBuffer` of `ComputeDirtyRects` for one command. -/
def ComputeCmd (clip_off clip_scale : ImVec2) (screen_w screen_h : Int) (out : List Rect)
    (pcmd : ImDrawCmd) : List Rect :=
  if pcmd.ElemCount = 0 then out
  else
    let r := computeRect pcmd clip_off clip_scale screen_w screen_h
    if r.x2 ≤ r.x1 ∨ r.y2 ≤ r.y1 then out else out ++ [r]

/-- Embedding of `ComputeDirtyRects(dd, out, screen_w, screen_h, inflate_px, merge_dist,
max_rects, align_px)` for a non-null `dd`: the final content of `out`. -/
def ComputeDirtyRects (sort : List Rect → List Rect) (dd : ImDrawData)
    (screen_w screen_h inflate_px merge_dist max_rects align_px : Int) : List Rect :=
  let out := dd.CmdLists.foldl
    (fun out dl => dl.CmdBuffer.foldl (ComputeCmd dd.DisplayPos dd.FramebufferScale screen_w screen_h) out)
    []
  ComputeDirtyRects_stages sort out screen_w screen_h inflate_px merge_dist max_rects align_px

/-- A command list whose vertex `i` is the white vertex at `(i, 0)` and whose index `i` is
`i`, with the given commands. -/
def plainList (cmds : List ImDrawCmd) : ImDrawList :=
  { VtxBuffer := fun i => whiteVertex (i : ℚ) 0, IdxBuffer := fun i => i, CmdBuffer := cmds }

/-- A frame of 16 x 16 display units at offset 0 and scale 1 with one command list. -/
def plainFrame (cmds : List ImDrawCmd) : ImDrawData :=
  { DisplayPos := ⟨0, 0⟩, DisplaySize := ⟨16, 16⟩, FramebufferScale := ⟨1, 1⟩,
    CmdLists := [plainList cmds] }

/-- What `RenderCmd` does to `G->DirtyRects`: nothing for a callback command or an empty
clamped clip rectangle, else the clamped clip rectangle rounded outward is appended. -/
def renderRecord (clip_off clip_scale : ImVec2) (fb_width fb_height : Int) (out : List Rect)
    (pcmd : ImDrawCmd) : List Rect :=
  if pcmd.UserCallback = true ∨
      (clampedClip pcmd clip_off clip_scale fb_width fb_height).x ≥
        (clampedClip pcmd clip_off clip_scale fb_width fb_height).z ∨
      (clampedClip pcmd clip_off clip_scale fb_width fb_height).y ≥
        (clampedClip pcmd clip_off clip_scale fb_width fb_height).w
  then out
  else out ++ [⟨⌊(clampedClip pcmd clip_off clip_scale fb_width fb_height).x⌋,
    ⌊(clampedClip pcmd clip_off clip_scale fb_width fb_height).y⌋,
    ⌈(clampedClip pcmd clip_off clip_scale fb_width fb_height).z⌉,
    ⌈(clampedClip pcmd clip_off clip_scale fb_width fb_height).w⌉⟩]

/-- A command on which the two collectors of candidate rectangles agree: it carries a callback
exactly when its element count is 0, and its clamped clip rectangle is not empty unless the
outward-rounded rectangle of `ComputeDirtyRects` is empty too. -/
def CollectorsAgree (pcmd : ImDrawCmd) (clip_off clip_scale : ImVec2) (W H : Int) : Prop :=
  (pcmd.UserCallback = true ↔ pcmd.ElemCount = 0) ∧
  (¬ ((clampedClip pcmd clip_off clip_scale W H).x ≥ (clampedClip pcmd clip_off clip_scale W H).z ∨
      (clampedClip pcmd clip_off clip_scale W H).y ≥ (clampedClip pcmd clip_off clip_scale W H).w) ∨
    ((computeRect pcmd clip_off clip_scale W H).x2 ≤ (computeRect pcmd clip_off clip_scale W H).x1 ∨
      (computeRect pcmd clip_off clip_scale W H).y2 ≤
        (computeRect pcmd clip_off clip_scale W H).y1))

/-! ## Values blended by `BlendPixel` -/

/-- The four values `(or_, og_, ob_, oa_)` that `BlendPixel(dst, fmt, sr, sg, sb, sa)` computes
and passes to `WriteDestPixel`. -/
def blendOut (m : Mem) (dst : Int) (fmt : PixelFormat) (sr sg sb sa : Int) : RGBA :=
  let d := ReadDestPixel m dst fmt
  let fa : ℚ := (sa : ℚ) / 255
  let inv : ℚ := 1 - fa
  ⟨castInt ((sr : ℚ) * fa + (d.r : ℚ) * inv + 1 / 2),
    castInt ((sg : ℚ) * fa + (d.g : ℚ) * inv + 1 / 2),
    castInt ((sb : ℚ) * fa + (d.b : ℚ) * inv + 1 / 2),
    if fmt = PixelFormat.RGB565 then 255 else castInt ((sa : ℚ) + (d.a : ℚ) * inv + 1 / 2)⟩

/-- A context without font atlas whose user texture with handle 7 is a strip of 10 x 1
one-byte texels, alpha 255 at the texel 7 and alpha 0 at the others. -/
def stripContext : Context :=
  { Pixels := fun _ => 0, Width := 4, Height := 4, Pitch := 16,
    Format := PixelFormat.RGBA32, FontPixels := none, FontW := 0, FontH := 0, FontBpp := 1,
    UserTextures := [⟨7, some (fun a => if a = 7 then 255 else 0), 10, 1, 1⟩],
    FontTextureID := 1, DirtyCfg := ⟨12, 1, 2, 1⟩, DirtyRects := [] }

/-! ## Basic facts about casts and byte memory -/

theorem castU8_of_range {v : Int} (h0 : 0 ≤ v) (h1 : v ≤ 255) : (castU8 v : Int) = v := by
  unfold castU8
  omega

theorem castU8_natCast {n : Nat} (h : n < 256) : castU8 (n : Int) = n := by
  unfold castU8
  omega

theorem castU16_natCast {n : Nat} (h : n < 65536) : castU16 (n : Int) = n := by
  unfold castU16
  omega

theorem castU8_lt (v : Int) : castU8 v < 256 := by
  unfold castU8
  omega

theorem castInt_of_nonneg {q : ℚ} (h : 0 ≤ q) : castInt q = ⌊q⌋ := by
  simp [castInt, h]

theorem castInt_intCast_add_half {n : Int} (h : 0 ≤ n) : castInt ((n : ℚ) + 1 / 2) = n := by
  have hq : (0 : ℚ) ≤ (n : ℚ) := by exact_mod_cast h
  rw [castInt_of_nonneg (by linarith), Int.floor_eq_iff]
  constructor <;> norm_num

theorem poke_same (m : Mem) (p : Int) : poke m p (m p) = m := by
  funext q
  unfold poke
  split
  · next h => rw [h]
  · rfl

theorem and_31 (x : Nat) : x &&& 31 = x % 32 := Nat.and_pow_two_sub_one_eq_mod x 5

theorem and_63 (x : Nat) : x &&& 63 = x % 64 := Nat.and_pow_two_sub_one_eq_mod x 6

theorem and_255 (x : Nat) : x &&& 255 = x % 256 := Nat.and_pow_two_sub_one_eq_mod x 8

theorem or_bytes (d0 d1 : Nat) (h0 : d0 < 256) : d0 ||| (d1 <<< 8) = d1 * 256 + d0 := by
  rw [Nat.or_comm, Nat.shiftLeft_eq]
  have := Nat.mul_add_lt_is_or (i := 8) (b := d0) (by simpa using h0) d1
  simp only [Nat.reducePow] at this
  rw [Nat.mul_comm d1, ← this]

theorem or_pack565 (a b c : Nat) (hb : b < 64) (hc : c < 32) :
    (a <<< 11) ||| (b <<< 5) ||| c = a * 2048 + b * 32 + c := by
  simp only [Nat.shiftLeft_eq, Nat.reducePow]
  have h1 := Nat.mul_add_lt_is_or (i := 11) (b := b * 32) (by simp; omega) a
  have h2 := Nat.mul_add_lt_is_or (i := 5) (b := c) (by simpa using hc) (a * 64 + b)
  simp only [Nat.reducePow] at h1 h2
  rw [Nat.mul_comm a 2048, ← h1, show 2048 * a + b * 32 = 32 * (a * 64 + b) by ring, ← h2]

/-! ## Pixel codec and blending: round trips -/

theorem tdiv_round5 {r : Int} (h0 : 0 ≤ r) (h1 : r ≤ 255) :
    castU16 ((r * 31 + 127).tdiv 255) = ((r * 31 + 127) / 255).toNat := by
  rw [Int.tdiv_eq_ediv (by omega) (by omega)]
  unfold castU16
  have h2 : 0 ≤ (r * 31 + 127) / 255 ∧ (r * 31 + 127) / 255 < 32 := by omega
  rw [Int.emod_eq_of_lt h2.1 (by omega)]

theorem tdiv_round6 {g : Int} (h0 : 0 ≤ g) (h1 : g ≤ 255) :
    castU16 ((g * 63 + 127).tdiv 255) = ((g * 63 + 127) / 255).toNat := by
  rw [Int.tdiv_eq_ediv (by omega) (by omega)]
  unfold castU16
  have h2 : 0 ≤ (g * 63 + 127) / 255 ∧ (g * 63 + 127) / 255 < 64 := by omega
  rw [Int.emod_eq_of_lt h2.1 (by omega)]

/-- The 16-bit word written by `WriteDestPixel` for in-range channels, read back by
`ReadDestPixel`: the three bit fields are the rounded quantisations. -/
theorem read_write_565 (m : Mem) (dst : Int) {r g b : Int} (a : Int)
    (hr : 0 ≤ r ∧ r ≤ 255) (hg : 0 ≤ g ∧ g ≤ 255) (hb : 0 ≤ b ∧ b ≤ 255) :
    ReadDestPixel (WriteDestPixel m dst PixelFormat.RGB565 r g b a) dst PixelFormat.RGB565 =
      ⟨(((r * 31 + 127) / 255).toNat * 255 / 31 : Nat),
       (((g * 63 + 127) / 255).toNat * 255 / 63 : Nat),
       (((b * 31 + 127) / 255).toNat * 255 / 31 : Nat), 255⟩ := by
  obtain ⟨hr0, hr1⟩ := hr
  obtain ⟨hg0, hg1⟩ := hg
  obtain ⟨hb0, hb1⟩ := hb
  simp only [ReadDestPixel, WriteDestPixel, tdiv_round5 hr0 hr1, tdiv_round6 hg0 hg1,
    tdiv_round5 hb0 hb1]
  generalize hR : ((r * 31 + 127) / 255).toNat = R5
  generalize hG : ((g * 63 + 127) / 255).toNat = G6
  generalize hB : ((b * 31 + 127) / 255).toNat = B5
  have hR5 : R5 < 32 := by omega
  have hG6 : G6 < 64 := by omega
  have hB5 : B5 < 32 := by omega
  have hv : castU16 ((R5 <<< 11 ||| G6 <<< 5 ||| B5 : Nat) : Int) = R5 * 2048 + G6 * 32 + B5 := by
    rw [or_pack565 R5 G6 B5 hG6 hB5, castU16_natCast (by omega)]
  rw [hv]
  generalize hV : R5 * 2048 + G6 * 32 + B5 = V
  have h1 : poke (poke m dst (castU8 ((V &&& 255 : Nat) : Int))) (dst + 1)
      (castU8 ((V >>> 8 : Nat) : Int)) dst = V % 256 := by
    have : ¬ (dst = dst + 1) := by omega
    simp only [poke, this, if_true, if_false, and_255]
    exact castU8_natCast (by omega)
  have h2 : poke (poke m dst (castU8 ((V &&& 255 : Nat) : Int))) (dst + 1)
      (castU8 ((V >>> 8 : Nat) : Int)) (dst + 1) = V / 256 := by
    simp only [poke, if_true, Nat.shiftRight_eq_div_pow, Nat.reducePow]
    exact castU8_natCast (by omega)
  rw [h1, h2, or_bytes _ _ (by omega), castU16_natCast (by omega)]
  have hV' : V / 256 * 256 + V % 256 = V := by omega
  rw [hV']
  simp only [Nat.shiftRight_eq_div_pow, Nat.reducePow, and_31, and_63]
  have e1 : V / 2048 % 32 = R5 := by omega
  have e2 : V / 32 % 64 = G6 := by omega
  have e3 : V % 32 = B5 := by omega
  rw [e1, e2, e3]

/-- C6. Pixel codec round trip for the 32-bit formats: for RGBA32 and BGRA32 and all channel
values in 0..255, `ReadDestPixel` applied to the bytes produced by `WriteDestPixel` returns
exactly `(r, g, b, a)`. -/
theorem C6_roundtrip_32bit (m : Mem) (dst : Int) (fmt : PixelFormat) (r g b a : Int)
    (hfmt : fmt = PixelFormat.RGBA32 ∨ fmt = PixelFormat.BGRA32)
    (hr : 0 ≤ r ∧ r ≤ 255) (hg : 0 ≤ g ∧ g ≤ 255) (hb : 0 ≤ b ∧ b ≤ 255)
    (ha : 0 ≤ a ∧ a ≤ 255) :
    ReadDestPixel (WriteDestPixel m dst fmt r g b a) dst fmt = ⟨r, g, b, a⟩ := by
  have n1 : ¬ (dst = dst + 1) := by omega
  have n2 : ¬ (dst = dst + 2) := by omega
  have n3 : ¬ (dst = dst + 3) := by omega
  have n4 : ¬ (dst + 1 = dst + 2) := by omega
  have n5 : ¬ (dst + 1 = dst + 3) := by omega
  have n6 : ¬ (dst + 2 = dst + 3) := by omega
  rcases hfmt with h | h <;> subst h <;>
    simp only [ReadDestPixel, WriteDestPixel, poke, n1, n2, n3, n4, n5, n6, if_true, if_false,
      castU8_of_range hr.1 hr.2, castU8_of_range hg.1 hg.2, castU8_of_range hb.1 hb.2,
      castU8_of_range ha.1 ha.2]

/-- Witness of C6: the pixel (10, 20, 30, 40) written as BGRA32 at offset 8 reads back. -/
theorem C6_roundtrip_32bit_witness :
    ReadDestPixel (WriteDestPixel (fun _ => 0) 8 PixelFormat.BGRA32 10 20 30 40) 8
      PixelFormat.BGRA32 = ⟨10, 20, 30, 40⟩ :=
  C6_roundtrip_32bit (fun _ => 0) 8 PixelFormat.BGRA32 10 20 30 40 (Or.inr rfl)
    (by decide) (by decide) (by decide) (by decide)

/-- C7. Pixel codec round trip for RGB565: for all colour channels in 0..255 and every alpha
passed to the write (0..255 included), reading back the two bytes written by `WriteDestPixel`
gives alpha 255 and a colour that does not depend on that alpha and is within one quantisation
step of the input: at most 8 away for the 5-bit red and blue fields and at most 4 away for the
6-bit green field. -/
theorem C7_roundtrip_rgb565 (m : Mem) (dst : Int) (r g b a : Int)
    (hr : 0 ≤ r ∧ r ≤ 255) (hg : 0 ≤ g ∧ g ≤ 255) (hb : 0 ≤ b ∧ b ≤ 255) :
    (ReadDestPixel (WriteDestPixel m dst PixelFormat.RGB565 r g b a) dst PixelFormat.RGB565).a
        = 255 ∧
    (∀ a2 : Int,
      ReadDestPixel (WriteDestPixel m dst PixelFormat.RGB565 r g b a2) dst PixelFormat.RGB565 =
      ReadDestPixel (WriteDestPixel m dst PixelFormat.RGB565 r g b a) dst PixelFormat.RGB565) ∧
    |(ReadDestPixel (WriteDestPixel m dst PixelFormat.RGB565 r g b a) dst PixelFormat.RGB565).r
        - r| ≤ 8 ∧
    |(ReadDestPixel (WriteDestPixel m dst PixelFormat.RGB565 r g b a) dst PixelFormat.RGB565).g
        - g| ≤ 4 ∧
    |(ReadDestPixel (WriteDestPixel m dst PixelFormat.RGB565 r g b a) dst PixelFormat.RGB565).b
        - b| ≤ 8 := by
  refine ⟨?_, ?_, ?_, ?_, ?_⟩
  · rw [read_write_565 m dst a hr hg hb]
  · intro a2
    rw [read_write_565 m dst a hr hg hb, read_write_565 m dst a2 hr hg hb]
  · rw [read_write_565 m dst a hr hg hb]
    simp only [abs_le]
    omega
  · rw [read_write_565 m dst a hr hg hb]
    simp only [abs_le]
    omega
  · rw [read_write_565 m dst a hr hg hb]
    simp only [abs_le]
    omega

/-- Witness of C7 at the colour (200, 100, 50) with alpha 7. -/
theorem C7_roundtrip_rgb565_witness :
    (ReadDestPixel (WriteDestPixel (fun _ => 0) 0 PixelFormat.RGB565 200 100 50 7) 0
        PixelFormat.RGB565).a = 255 ∧
    |(ReadDestPixel (WriteDestPixel (fun _ => 0) 0 PixelFormat.RGB565 200 100 50 7) 0
        PixelFormat.RGB565).r - 200| ≤ 8 :=
  have h := C7_roundtrip_rgb565 (fun _ => 0) 0 200 100 50 7 (by decide) (by decide) (by decide)
  ⟨h.1, h.2.2.1⟩

/-- Writing back the channels that `ReadDestPixel` returned restores an RGB565 pixel. -/
theorem write_read_565 (m : Mem) (dst : Int) (a : Int) (h0 : m dst < 256)
    (h1 : m (dst + 1) < 256) :
    WriteDestPixel m dst PixelFormat.RGB565 (ReadDestPixel m dst PixelFormat.RGB565).r
      (ReadDestPixel m dst PixelFormat.RGB565).g (ReadDestPixel m dst PixelFormat.RGB565).b a
      = m := by
  simp only [ReadDestPixel]
  rw [or_bytes _ _ h0, castU16_natCast (by omega)]
  generalize hV : m (dst + 1) * 256 + m dst = V
  have hVlt : V < 65536 := by omega
  simp only [Nat.shiftRight_eq_div_pow, Nat.reducePow, and_31, and_63]
  generalize hR : V / 2048 % 32 = R5
  generalize hG : V / 32 % 64 = G6
  generalize hB : V % 32 = B5
  have hR5 : R5 < 32 := by omega
  have hG6 : G6 < 64 := by omega
  have hB5 : B5 < 32 := by omega
  have r1 : castU16 ((((R5 * 255 / 31 : Nat) : Int) * 31 + 127).tdiv 255) = R5 := by
    rw [tdiv_round5 (by omega) (by omega)]
    omega
  have r2 : castU16 ((((G6 * 255 / 63 : Nat) : Int) * 63 + 127).tdiv 255) = G6 := by
    rw [tdiv_round6 (by omega) (by omega)]
    omega
  have r3 : castU16 ((((B5 * 255 / 31 : Nat) : Int) * 31 + 127).tdiv 255) = B5 := by
    rw [tdiv_round5 (by omega) (by omega)]
    omega
  simp only [WriteDestPixel, r1, r2, r3]
  rw [or_pack565 R5 G6 B5 hG6 hB5, castU16_natCast (by omega)]
  have hV2 : R5 * 2048 + G6 * 32 + B5 = V := by omega
  rw [hV2, and_255, Nat.shiftRight_eq_div_pow, castU8_natCast (by omega),
    castU8_natCast (by simp only [Nat.reducePow]; omega)]
  have e0 : V % 256 = m dst := by omega
  have e1 : V / 2 ^ 8 = m (dst + 1) := by simp only [Nat.reducePow]; omega
  rw [e0, e1, poke_same, poke_same]

/-- With source alpha 0 the blend factors are 0 and 1: each blended channel is the channel
that was read. -/
theorem blend_zero_channel (s : Int) (d : Nat) :
    castInt ((s : ℚ) * (((0 : Int) : ℚ) / 255) + ((d : Int) : ℚ) * (1 - ((0 : Int) : ℚ) / 255)
      + 1 / 2) = (d : Int) := by
  have h : (s : ℚ) * (((0 : Int) : ℚ) / 255) + ((d : Int) : ℚ) * (1 - ((0 : Int) : ℚ) / 255)
      + 1 / 2 = (((d : Int)) : ℚ) + 1 / 2 := by
    push_cast
    ring
  rw [h]
  exact castInt_intCast_add_half (Int.natCast_nonneg d)

theorem blend_zero_alpha (d : Nat) :
    castInt ((((0 : Int)) : ℚ) + ((d : Int) : ℚ) * (1 - ((0 : Int) : ℚ) / 255) + 1 / 2)
      = (d : Int) := by
  have h : (((0 : Int)) : ℚ) + ((d : Int) : ℚ) * (1 - ((0 : Int) : ℚ) / 255) + 1 / 2
      = (((d : Int)) : ℚ) + 1 / 2 := by
    push_cast
    ring
  rw [h]
  exact castInt_intCast_add_half (Int.natCast_nonneg d)

/-- C4. `BlendPixel` with source alpha 0 leaves the destination unchanged: for each of the
three pixel formats, every memory whose bytes at the destination pixel are bytes (below 256)
and every source colour, the memory after `BlendPixel(dst, fmt, sr, sg, sb, 0)` is equal to the
memory before (the bytes of the pixel included). -/
theorem C4_blend_alpha_zero (m : Mem) (dst : Int) (fmt : PixelFormat) (sr sg sb : Int)
    (hpix : ∀ k : Int, 0 ≤ k → k < bytesPerPixel fmt → m (dst + k) < 256) :
    BlendPixel m dst fmt sr sg sb 0 = m := by
  cases fmt
  · have b0 := hpix 0 (by decide) (by decide)
    have b1 := hpix 1 (by decide) (by decide)
    have b2 := hpix 2 (by decide) (by decide)
    have b3 := hpix 3 (by decide) (by decide)
    simp only [add_zero] at b0
    simp only [BlendPixel, ReadDestPixel, blend_zero_channel, blend_zero_alpha, WriteDestPixel,
      castU8_natCast b0, castU8_natCast b1, castU8_natCast b2, castU8_natCast b3, poke_same,
      if_false, reduceCtorEq]
  · have b0 := hpix 0 (by decide) (by decide)
    have b1 := hpix 1 (by decide) (by decide)
    have b2 := hpix 2 (by decide) (by decide)
    have b3 := hpix 3 (by decide) (by decide)
    simp only [add_zero] at b0
    simp only [BlendPixel, ReadDestPixel, blend_zero_channel, blend_zero_alpha, WriteDestPixel,
      castU8_natCast b0, castU8_natCast b1, castU8_natCast b2, castU8_natCast b3, poke_same,
      if_false, reduceCtorEq]
  · have b0 := hpix 0 (by decide) (by decide)
    have b1 := hpix 1 (by decide) (by decide)
    simp only [add_zero] at b0
    have hw := write_read_565 m dst 255 b0 b1
    simp only [ReadDestPixel] at hw
    simp only [BlendPixel, ReadDestPixel, blend_zero_channel, if_true]
    exact hw

/-- Witness of C4: an RGB565 pixel holding the bytes 0x34, 0x12 at offset 6. -/
theorem C4_blend_alpha_zero_witness :
    BlendPixel (fun p => if p = 6 then 52 else 18) 6 PixelFormat.RGB565 255 0 9 0
      = (fun p => if p = 6 then 52 else 18) :=
  C4_blend_alpha_zero (fun p => if p = 6 then 52 else 18) 6 PixelFormat.RGB565 255 0 9
    (fun k _ _ => by
      show (if 6 + k = 6 then 52 else 18) < 256
      split <;> decide)

/-- With source alpha 255 the blend factors are 1 and 0: each blended channel is the source
channel. -/
theorem blend_full_channel {s : Int} (hs : 0 ≤ s) (d : ℚ) :
    castInt ((s : ℚ) * (((255 : Int) : ℚ) / 255) + d * (1 - ((255 : Int) : ℚ) / 255) + 1 / 2)
      = s := by
  have h : (s : ℚ) * (((255 : Int) : ℚ) / 255) + d * (1 - ((255 : Int) : ℚ) / 255) + 1 / 2
      = (s : ℚ) + 1 / 2 := by
    push_cast
    ring
  rw [h]
  exact castInt_intCast_add_half hs

theorem blend_full_alpha (d : ℚ) :
    castInt ((((255 : Int)) : ℚ) + d * (1 - ((255 : Int) : ℚ) / 255) + 1 / 2) = 255 := by
  have h : (((255 : Int)) : ℚ) + d * (1 - ((255 : Int) : ℚ) / 255) + 1 / 2
      = (((255 : Int)) : ℚ) + 1 / 2 := by
    push_cast
    ring
  rw [h]
  exact castInt_intCast_add_half (by decide)

/-- `BlendPixel` with source alpha 255 and non-negative source channels is `WriteDestPixel`. -/
theorem BlendPixel_alpha255 (m : Mem) (dst : Int) (fmt : PixelFormat) {sr sg sb : Int}
    (hr : 0 ≤ sr) (hg : 0 ≤ sg) (hb : 0 ≤ sb) :
    BlendPixel m dst fmt sr sg sb 255 = WriteDestPixel m dst fmt sr sg sb 255 := by
  cases fmt <;>
    simp only [BlendPixel, blend_full_channel hr, blend_full_channel hg, blend_full_channel hb,
      blend_full_alpha, if_false, if_true, reduceCtorEq]

/-- The bytes of the destination pixel after `WriteDestPixel` do not depend on the memory
written into. -/
theorem WriteDestPixel_pixel_indep (m1 m2 : Mem) (dst : Int) (fmt : PixelFormat)
    (r g b a : Int) (k : Int) (hk0 : 0 ≤ k) (hk1 : k < bytesPerPixel fmt) :
    WriteDestPixel m1 dst fmt r g b a (dst + k) = WriteDestPixel m2 dst fmt r g b a (dst + k) := by
  cases fmt
  · have hk : k = 0 ∨ k = 1 ∨ k = 2 ∨ k = 3 := by
      simp only [bytesPerPixel, if_false, reduceCtorEq] at hk1
      omega
    rcases hk with h | h | h | h <;> subst h <;> simp [WriteDestPixel, poke]
  · have hk : k = 0 ∨ k = 1 ∨ k = 2 ∨ k = 3 := by
      simp only [bytesPerPixel, if_false, reduceCtorEq] at hk1
      omega
    rcases hk with h | h | h | h <;> subst h <;> simp [WriteDestPixel, poke]
  · have hk : k = 0 ∨ k = 1 := by
      simp only [bytesPerPixel, if_true] at hk1
      omega
    rcases hk with h | h <;> subst h <;> simp [WriteDestPixel, poke]

/-- C5. `BlendPixel` with source alpha 255 fully replaces the destination: for each pixel
format, every prior memory and every source colour in 0..255, the memory after
`BlendPixel(dst, fmt, sr, sg, sb, 255)` is the memory after
`WriteDestPixel(dst, fmt, sr, sg, sb, 255)`, and the bytes of the destination pixel are the
same whatever the prior memory was. -/
theorem C5_blend_alpha_full (m : Mem) (dst : Int) (fmt : PixelFormat) (sr sg sb : Int)
    (hr : 0 ≤ sr ∧ sr ≤ 255) (hg : 0 ≤ sg ∧ sg ≤ 255) (hb : 0 ≤ sb ∧ sb ≤ 255) :
    BlendPixel m dst fmt sr sg sb 255 = WriteDestPixel m dst fmt sr sg sb 255 ∧
    ∀ (m2 : Mem) (k : Int), 0 ≤ k → k < bytesPerPixel fmt →
      BlendPixel m2 dst fmt sr sg sb 255 (dst + k) = BlendPixel m dst fmt sr sg sb 255 (dst + k)
    := by
  refine ⟨BlendPixel_alpha255 m dst fmt hr.1 hg.1 hb.1, ?_⟩
  intro m2 k hk0 hk1
  rw [BlendPixel_alpha255 m dst fmt hr.1 hg.1 hb.1, BlendPixel_alpha255 m2 dst fmt hr.1 hg.1 hb.1]
  exact WriteDestPixel_pixel_indep m2 m dst fmt sr sg sb 255 k hk0 hk1

/-- Witness of C5: an RGBA32 pixel at offset 4 blended with the opaque colour (1, 2, 3). -/
theorem C5_blend_alpha_full_witness :
    BlendPixel (fun _ => 77) 4 PixelFormat.RGBA32 1 2 3 255
      = WriteDestPixel (fun _ => 77) 4 PixelFormat.RGBA32 1 2 3 255 :=
  (C5_blend_alpha_full (fun _ => 77) 4 PixelFormat.RGBA32 1 2 3 (by decide) (by decide)
    (by decide)).1

/-! ## Dirty rectangles: sorting -/

theorem areaGreater_eq_false {a b : Rect} : areaGreater b a = false ↔ rectArea b ≤ rectArea a := by
  simp [areaGreater]

/-- The executable `stdSort` meets the contract of `std::sort`. -/
theorem stdSort_isStdSort : IsStdSort stdSort := by
  intro l
  haveI : IsTotal Rect (fun a b => rectArea b ≤ rectArea a) :=
    ⟨fun a b => le_total (rectArea b) (rectArea a)⟩
  haveI : IsTrans Rect (fun a b => rectArea b ≤ rectArea a) :=
    ⟨fun a b c hab hbc => le_trans hbc hab⟩
  refine ⟨List.perm_insertionSort _ l, ?_⟩
  have h := List.sorted_insertionSort (fun a b : Rect => rectArea b ≤ rectArea a) l
  exact List.Pairwise.imp (fun {a b} hab => areaGreater_eq_false.mpr hab) h

/-- Any `std::sort` leaves a two-element vector whose first element is strictly larger in
area as it is. -/
theorem sort_pair {sort : List Rect → List Rect} (hs : IsStdSort sort) {a b : Rect}
    (hab : rectArea b < rectArea a) : sort [a, b] = [a, b] := by
  obtain ⟨hp, hsorted⟩ := hs [a, b]
  have hlen : (sort [a, b]).length = 2 := by simpa using hp.length_eq
  match hl : sort [a, b], hlen with
  | [x, y], _ =>
    rw [hl] at hp hsorted
    have hx : x ∈ [a, b] := hp.subset (List.mem_cons_self x [y])
    have hy : y ∈ [a, b] := hp.subset (by simp)
    have hax : a ∈ [x, y] := hp.symm.subset (by simp)
    have hbx : b ∈ [x, y] := hp.symm.subset (by simp)
    have hxy : rectArea y ≤ rectArea x := by
      have := List.rel_of_pairwise_cons hsorted (List.mem_cons_self y [])
      exact areaGreater_eq_false.mp this
    simp only [List.mem_cons, List.mem_singleton, List.not_mem_nil, or_false] at hx hy hax hbx
    rcases hx with rfl | rfl
    · rcases hy with rfl | rfl
      · rcases hbx with h | h <;> rw [h] at hab <;> omega
      · rfl
    · rcases hy with rfl | rfl
      · omega
      · rcases hax with h | h <;> rw [h] at hab <;> omega

/-! ## Dirty rectangles: alignment -/

/-- Rounding down: `(x / ap) * ap` is the largest multiple of `ap` not above `x`, for
`x ≥ 0`. -/
theorem align_down_isFloor {ap x : Int} (hap : 1 ≤ ap) (hx : 0 ≤ x) :
    IsFloorMultiple ap x ((x.tdiv ap) * ap) := by
  rw [Int.tdiv_eq_ediv hx (by omega)]
  refine ⟨Dvd.intro_left _ rfl, Int.ediv_mul_le x (by omega), ?_⟩
  rintro k ⟨c, rfl⟩ hk
  have h1 : c ≤ x / ap := by
    rw [Int.le_ediv_iff_mul_le (by omega)]
    rw [mul_comm]
    exact hk
  rw [mul_comm ap c]
  exact Int.mul_le_mul_of_nonneg_right h1 (by omega)

/-- Rounding up: `((x + ap - 1) / ap) * ap` is the smallest multiple of `ap` not below `x`,
for `x ≥ 0`. -/
theorem align_up_isCeil {ap x : Int} (hap : 1 ≤ ap) (hx : 0 ≤ x) :
    IsCeilMultiple ap x (((x + ap - 1).tdiv ap) * ap) := by
  rw [Int.tdiv_eq_ediv (by omega) (by omega)]
  have hlt := Int.lt_ediv_add_one_mul_self (x + ap - 1) (by omega : 0 < ap)
  have hle := Int.ediv_mul_le (x + ap - 1) (by omega : ap ≠ 0)
  refine ⟨Dvd.intro_left _ rfl, ?_, ?_⟩
  · have : ((x + ap - 1) / ap + 1) * ap = (x + ap - 1) / ap * ap + ap := by ring
    omega
  · rintro k ⟨c, rfl⟩ hk
    have h1 : (x + ap - 1) / ap ≤ c := by
      by_contra hc
      have hc2 : c + 1 ≤ (x + ap - 1) / ap := by omega
      have h3 := Int.mul_le_mul_of_nonneg_right hc2 (by omega : 0 ≤ ap)
      have h4 : (c + 1) * ap = ap * c + ap := by ring
      omega
    rw [mul_comm ap c]
    exact Int.mul_le_mul_of_nonneg_right h1 (by omega)

/-- Rounding up never goes below the argument, whatever its sign. -/
theorem le_align_up {ap : Int} (x : Int) (hap : 1 ≤ ap) :
    x ≤ ((x + ap - 1).tdiv ap) * ap := by
  by_cases hx : 0 ≤ x + ap - 1
  · rw [Int.tdiv_eq_ediv hx (by omega)]
    have hlt := Int.lt_ediv_add_one_mul_self (x + ap - 1) (by omega : 0 < ap)
    have : ((x + ap - 1) / ap + 1) * ap = (x + ap - 1) / ap * ap + ap := by ring
    omega
  · have hn : 0 ≤ -(x + ap - 1) := by omega
    have e : (x + ap - 1).tdiv ap = -((-(x + ap - 1)) / ap) := by
      rw [← Int.tdiv_eq_ediv hn (by omega), Int.neg_tdiv, neg_neg]
    rw [e]
    have hle := Int.ediv_mul_le (-(x + ap - 1)) (by omega : ap ≠ 0)
    have : -(-(x + ap - 1) / ap) * ap = -((-(x + ap - 1)) / ap * ap) := by ring
    omega

theorem alignStage_eq_map {W H ap : Int} (hap : 1 ≤ ap) (l : List Rect) :
    alignStage W H ap l = l.map (alignRect W H ap) := by
  simp [alignStage, max_eq_right hap]

/-- C10. Alignment stage: for every grid `ap ≥ 1` and every list of rectangles with
`0 ≤ x1 < x2 ≤ W` and `0 ≤ y1 < y2 ≤ H`, stage 3 maps each rectangle, in order, to the
rectangle whose `x1`, `y1` are the largest multiples of `ap` not above the old `x1`, `y1` and
whose `x2`, `y2` are `min(W, ·)` and `min(H, ·)` of the smallest multiples of `ap` not below
the old `x2`, `y2`; in particular `(3,3,13,13)` with grid 4 in a buffer of at least 16 x 16
becomes `(0,0,16,16)`. -/
theorem C10_align_stage (W H ap : Int) (l : List Rect) (hap : 1 ≤ ap)
    (hl : ∀ r ∈ l, validRect W H r) :
    List.Forall₂
      (fun r a =>
        IsFloorMultiple ap r.x1 a.x1 ∧ IsFloorMultiple ap r.y1 a.y1 ∧
        (∃ ux, IsCeilMultiple ap r.x2 ux ∧ a.x2 = min W ux) ∧
        (∃ uy, IsCeilMultiple ap r.y2 uy ∧ a.y2 = min H uy))
      l (alignStage W H ap l) ∧
    (16 ≤ W → 16 ≤ H → alignStage W H 4 [⟨3, 3, 13, 13⟩] = [⟨0, 0, 16, 16⟩]) := by
  constructor
  · rw [alignStage_eq_map hap, List.forall₂_map_right_iff, List.forall₂_same]
    intro r hr
    obtain ⟨h1, h2, _, h4, h5, _⟩ := hl r hr
    exact ⟨align_down_isFloor hap h1, align_down_isFloor hap h4,
      ⟨_, align_up_isCeil hap (by omega), rfl⟩, ⟨_, align_up_isCeil hap (by omega), rfl⟩⟩
  · intro hW hH
    have e1 : (3 : Int).tdiv 4 * 4 = 0 := by decide
    have e2 : ((13 : Int) + 4 - 1).tdiv 4 * 4 = 16 := by decide
    simp only [alignStage, max_eq_right (by decide : (1 : Int) ≤ 4), List.map, alignRect, e1, e2,
      min_eq_right hW, min_eq_right hH]

/-- Witness of C10: grid 4, buffer 16 x 16, the rectangle `(3,3,13,13)`. -/
theorem C10_align_stage_witness :
    alignStage 16 16 4 [⟨3, 3, 13, 13⟩] = [⟨0, 0, 16, 16⟩] :=
  (C10_align_stage 16 16 4 [⟨3, 3, 13, 13⟩] (by decide)
    (by
      intro r hr
      rw [List.mem_singleton] at hr
      subst hr
      simp [validRect])).2 (by decide) (by decide)

/-! ## Dirty rectangles: the two code paths and basic stage facts -/

/-- The dirty-rectangle block of `RenderDrawData` and the tail of `ComputeDirtyRects` are the
same computation on the recorded rectangles and the configuration. -/
theorem RenderDrawData_dirty_eq_stages (sort : List Rect → List Rect) (G : Context)
    (W H : Int) :
    RenderDrawData_dirty sort G W H =
      ComputeDirtyRects_stages sort G.DirtyRects W H G.DirtyCfg.inflate_px
        G.DirtyCfg.merge_dist G.DirtyCfg.max_rects G.DirtyCfg.align_px := by
  unfold RenderDrawData_dirty ComputeDirtyRects_stages
  cases h : G.DirtyRects with
  | nil => simp
  | cons a t => simp

theorem stages_nil (sort : List Rect → List Rect) (W H i d c a : Int) :
    ComputeDirtyRects_stages sort [] W H i d c a = [] := by
  simp [ComputeDirtyRects_stages]

theorem stages_cons (sort : List Rect → List Rect) (x : Rect) (t : List Rect)
    (W H i d c a : Int) :
    ComputeDirtyRects_stages sort (x :: t) W H i d c a =
      alignStage W H a (mergeLoop W H d c [] (sort ((x :: t).map (inflateRect W H i)))) := by
  simp [ComputeDirtyRects_stages]

theorem rectContains_refl (r : Rect) : rectContains r r :=
  ⟨le_refl _, le_refl _, le_refl _, le_refl _⟩

theorem rectContains_trans {a b c : Rect} (hab : rectContains a b) (hbc : rectContains b c) :
    rectContains a c :=
  ⟨le_trans hab.1 hbc.1, le_trans hab.2.1 hbc.2.1, le_trans hbc.2.2.1 hab.2.2.1,
    le_trans hbc.2.2.2 hab.2.2.2⟩

theorem inflateRect_valid {W H i : Int} (hi : 0 ≤ i) {r : Rect} (hr : validRect W H r) :
    validRect W H (inflateRect W H i r) ∧ rectContains (inflateRect W H i r) r := by
  obtain ⟨h1, h2, h3, h4, h5, h6⟩ := hr
  simp only [validRect, rectContains, inflateRect]
  refine ⟨⟨?_, ?_, ?_, ?_, ?_, ?_⟩, ?_, ?_, ?_, ?_⟩ <;> omega

theorem inflateRect_zero {W H : Int} {r : Rect} (hr : validRect W H r) :
    inflateRect W H 0 r = r := by
  obtain ⟨h1, h2, h3, h4, h5, h6⟩ := hr
  cases r
  simp only [inflateRect, sub_zero, add_zero, Rect.mk.injEq] at *
  refine ⟨?_, ?_, ?_, ?_⟩ <;> omega

theorem unionRect_valid {W H : Int} {m r : Rect} (hm : validRect W H m)
    (hr : validRect W H r) :
    validRect W H (unionRect m r) ∧ rectContains (unionRect m r) m ∧
      rectContains (unionRect m r) r := by
  obtain ⟨h1, h2, h3, h4, h5, h6⟩ := hm
  obtain ⟨g1, g2, g3, g4, g5, g6⟩ := hr
  simp only [validRect, rectContains, unionRect]
  refine ⟨⟨?_, ?_, ?_, ?_, ?_, ?_⟩, ⟨?_, ?_, ?_, ?_⟩, ?_, ?_, ?_, ?_⟩ <;> omega

theorem alignRect_valid {W H ap : Int} (hap : 1 ≤ ap) {r : Rect} (hr : validRect W H r) :
    validRect W H (alignRect W H ap r) ∧ rectContains (alignRect W H ap r) r := by
  obtain ⟨h1, h2, h3, h4, h5, h6⟩ := hr
  have a1 := (align_down_isFloor hap h1).2.1
  have a2 := (align_down_isFloor hap h4).2.1
  have a3 := le_align_up r.x2 hap
  have a4 := le_align_up r.y2 hap
  have n1 : 0 ≤ r.x1.tdiv ap * ap :=
    Int.mul_nonneg (Int.tdiv_nonneg h1 (by omega)) (by omega)
  have n2 : 0 ≤ r.y1.tdiv ap * ap :=
    Int.mul_nonneg (Int.tdiv_nonneg h4 (by omega)) (by omega)
  simp only [validRect, rectContains, alignRect]
  refine ⟨⟨?_, ?_, ?_, ?_, ?_, ?_⟩, ?_, ?_, ?_, ?_⟩ <;> omega

theorem alignRect_one {W H : Int} {r : Rect} (hr : validRect W H r) :
    alignRect W H 1 r = r := by
  obtain ⟨h1, h2, h3, h4, h5, h6⟩ := hr
  cases r
  simp only [alignRect, Int.tdiv_one, mul_one, add_sub_cancel_right, Rect.mk.injEq] at *
  refine ⟨trivial, trivial, ?_, ?_⟩ <;> omega

theorem alignRect_full (W H : Int) {ap : Int} (hap : 1 ≤ ap) :
    alignRect W H ap ⟨0, 0, W, H⟩ = ⟨0, 0, W, H⟩ := by
  have a3 := le_align_up W hap
  have a4 := le_align_up H hap
  simp only [alignRect, Int.zero_tdiv, zero_mul, Rect.mk.injEq, true_and]
  exact ⟨min_eq_left a3, min_eq_left a4⟩

/-! ## Dirty rectangles: the greedy merge -/

theorem absorbFirst_eq_none {d : Int} {r : Rect} :
    ∀ {l : List Rect}, absorbFirst d r l = none ↔ ∀ m ∈ l, overlap_or_close m r d = false
  | [] => by simp [absorbFirst]
  | mr :: rest => by
    have ih := absorbFirst_eq_none (d := d) (r := r) (l := rest)
    by_cases h : overlap_or_close mr r d = true
    · simp [absorbFirst, h]
    · simp only [Bool.not_eq_true] at h
      simp [absorbFirst, h, ih]

/-- What the inner loop does when it finds a rectangle: the first rectangle of `merged` close
to `r` is replaced by its union with `r`, everything else is kept. -/
theorem absorbFirst_eq_some {d : Int} {r : Rect} :
    ∀ {l l2 : List Rect}, absorbFirst d r l = some l2 →
      ∃ pre mr post, l = pre ++ mr :: post ∧ l2 = pre ++ unionRect mr r :: post ∧
        overlap_or_close mr r d = true ∧ ∀ m ∈ pre, overlap_or_close m r d = false
  | [], l2, h => by simp [absorbFirst] at h
  | mr :: rest, l2, h => by
    by_cases hc : overlap_or_close mr r d = true
    · simp only [absorbFirst, hc, if_true, Option.some.injEq] at h
      exact ⟨[], mr, rest, rfl, by simpa using h.symm, hc, by simp⟩
    · simp only [absorbFirst, hc, Bool.false_eq_true, if_false, Option.map_eq_some'] at h
      obtain ⟨t, ht, rfl⟩ := h
      obtain ⟨pre, m1, post, h1, h2, h3, h4⟩ := absorbFirst_eq_some ht
      refine ⟨mr :: pre, m1, post, by simp [h1], by simp [h2], h3, ?_⟩
      intro m hm
      rcases List.mem_cons.mp hm with rfl | hm
      · simpa using hc
      · exact h4 m hm

/-- The greedy merge keeps every rectangle valid and loses nothing: whatever was contained in
a rectangle of `merged` or of the remaining input is contained in a rectangle of the result. -/
theorem mergeLoop_covers (W H d cap : Int) :
    ∀ (rest merged : List Rect), (∀ m ∈ merged, validRect W H m) →
      (∀ r ∈ rest, validRect W H r) →
      (∀ m ∈ mergeLoop W H d cap merged rest, validRect W H m) ∧
      ∀ c : Rect, ((∃ m ∈ merged, rectContains m c) ∨ (∃ r ∈ rest, rectContains r c)) →
        ∃ m ∈ mergeLoop W H d cap merged rest, rectContains m c
  | [], merged, hm, _ => by
    simp only [mergeLoop]
    refine ⟨hm, ?_⟩
    rintro c (h | ⟨r, hr, _⟩)
    · exact h
    · simp at hr
  | r :: rest, merged, hm, hrest => by
    have hr : validRect W H r := hrest r (List.mem_cons_self r rest)
    have hrest2 : ∀ x ∈ rest, validRect W H x := fun x hx => hrest x (List.mem_cons_of_mem r hx)
    cases ha : absorbFirst d r merged with
    | some merged2 =>
      obtain ⟨pre, mr, post, h1, h2, _, _⟩ := absorbFirst_eq_some ha
      have hmr : validRect W H mr := hm mr (by simp [h1])
      have hu := unionRect_valid hmr hr
      have hm2 : ∀ m ∈ merged2, validRect W H m := by
        intro m hmem
        rw [h2] at hmem
        rcases List.mem_append.mp hmem with h | h
        · exact hm m (by simp [h1, h])
        · rcases List.mem_cons.mp h with rfl | h
          · exact hu.1
          · exact hm m (by simp [h1, h])
      have ih := mergeLoop_covers W H d cap rest merged2 hm2 hrest2
      simp only [mergeLoop, ha]
      refine ⟨ih.1, ?_⟩
      rintro c (⟨m, hmem, hc⟩ | ⟨x, hx, hc⟩)
      · apply ih.2 c
        left
        rw [h1] at hmem
        rcases List.mem_append.mp hmem with h | h
        · exact ⟨m, by simp [h2, h], hc⟩
        · rcases List.mem_cons.mp h with rfl | h
          · exact ⟨unionRect m r, by simp [h2], rectContains_trans hu.2.1 hc⟩
          · exact ⟨m, by simp [h2, h], hc⟩
      · rcases List.mem_cons.mp hx with rfl | hx
        · apply ih.2 c
          left
          exact ⟨unionRect mr x, by simp [h2], rectContains_trans hu.2.2 hc⟩
        · exact ih.2 c (Or.inr ⟨x, hx, hc⟩)
    | none =>
      simp only [mergeLoop, ha]
      split
      · obtain ⟨g1, g2, g3, g4, g5, g6⟩ := hr
        have hfull : validRect W H ⟨0, 0, W, H⟩ := by
          simp only [validRect]
          refine ⟨?_, ?_, ?_, ?_, ?_, ?_⟩ <;> omega
        have hin : ∀ x : Rect, validRect W H x → rectContains ⟨0, 0, W, H⟩ x := by
          intro x hx
          obtain ⟨k1, k2, k3, k4, k5, k6⟩ := hx
          exact ⟨k1, k4, k3, k6⟩
        refine ⟨?_, ?_⟩
        · intro m hmem
          rw [List.mem_singleton] at hmem
          rw [hmem]
          exact hfull
        · rintro c (⟨m, hmem, hc⟩ | ⟨x, hx, hc⟩)
          · exact ⟨_, List.mem_singleton_self _, rectContains_trans (hin m (hm m hmem)) hc⟩
          · exact ⟨_, List.mem_singleton_self _, rectContains_trans (hin x (hrest x hx)) hc⟩
      · have hm2 : ∀ m ∈ merged ++ [r], validRect W H m := by
          intro m hmem
          rcases List.mem_append.mp hmem with h | h
          · exact hm m h
          · rw [List.mem_singleton] at h
            rw [h]
            exact hr
        have ih := mergeLoop_covers W H d cap rest (merged ++ [r]) hm2 hrest2
        refine ⟨ih.1, ?_⟩
        rintro c (⟨m, hmem, hc⟩ | ⟨x, hx, hc⟩)
        · exact ih.2 c (Or.inl ⟨m, by simp [hmem], hc⟩)
        · rcases List.mem_cons.mp hx with rfl | hx
          · exact ih.2 c (Or.inl ⟨x, by simp, hc⟩)
          · exact ih.2 c (Or.inr ⟨x, hx, hc⟩)

theorem overlap_or_close_symm (a b : Rect) (d : Int) :
    overlap_or_close a b d = overlap_or_close b a d := by
  unfold overlap_or_close
  by_cases h1 : a.x2 + d ≤ b.x1 <;> by_cases h2 : b.x2 + d ≤ a.x1 <;>
    by_cases h3 : a.y2 + d ≤ b.y1 <;> by_cases h4 : b.y2 + d ≤ a.y1 <;> simp [h1, h2, h3, h4]

/-- When no two of the rectangles at hand are close to each other, the greedy merge only
appends, and the cap is exceeded as soon as `max_rects + 1` rectangles have been appended. -/
theorem mergeLoop_far (W H d cap : Int) :
    ∀ (rest merged : List Rect),
      (merged ++ rest).Pairwise (fun a b => overlap_or_close a b d = false) →
      (merged.length : Int) ≤ cap → cap < (merged.length : Int) + (rest.length : Int) →
      mergeLoop W H d cap merged rest = [⟨0, 0, W, H⟩]
  | [], merged, _, h1, h2 => by
    simp only [List.length_nil, Int.ofNat_zero, Nat.cast_zero, add_zero] at h2
    omega
  | r :: rest, merged, hp, h1, h2 => by
    have hnone : absorbFirst d r merged = none := by
      rw [absorbFirst_eq_none]
      intro m hm
      exact (List.pairwise_append.mp hp).2.2 m hm r (List.mem_cons_self r rest)
    simp only [mergeLoop, hnone]
    split
    · rfl
    · rename_i hle
      apply mergeLoop_far W H d cap rest (merged ++ [r])
      · simpa using hp
      · omega
      · simp only [List.length_append, List.length_singleton, List.length_cons,
          Nat.cast_add, Nat.cast_one] at h2 ⊢
        omega

theorem alignStage_full (W H align_px : Int) :
    alignStage W H align_px [⟨0, 0, W, H⟩] = [⟨0, 0, W, H⟩] := by
  simp only [alignStage, List.map]
  rw [alignRect_full W H (le_max_left 1 align_px)]

/-! ## Dirty rectangles: properties of the whole pipeline -/

/-- C3. The dirty-rectangle pipeline covers everything that was recorded: for every inflate
margin `≥ 0`, every merge distance, cap and alignment grid, and every list of non-empty
candidate rectangles inside `[0,W] x [0,H]` (so `W, H > 0` as soon as there is a candidate),
each candidate is contained in at least one rectangle of the final list produced by inflate,
sort, merge, cap and align, in `ComputeDirtyRects` and in `RenderDrawData` alike, whatever
order `std::sort` gives to rectangles of equal area. -/
theorem C3_pipeline_covers (sort : List Rect → List Rect) (hs : IsStdSort sort)
    (W H inflate_px merge_dist max_rects align_px : Int) (cands : List Rect)
    (hinf : 0 ≤ inflate_px) (hc : ∀ c ∈ cands, validRect W H c) :
    (∀ c ∈ cands, ∃ r ∈ ComputeDirtyRects_stages sort cands W H inflate_px merge_dist
        max_rects align_px, rectContains r c) ∧
    (∀ G : Context, G.DirtyRects = cands →
      G.DirtyCfg = ⟨max_rects, inflate_px, merge_dist, align_px⟩ →
      ∀ c ∈ cands, ∃ r ∈ RenderDrawData_dirty sort G W H, rectContains r c) := by
  have main : ∀ c ∈ cands, ∃ r ∈ ComputeDirtyRects_stages sort cands W H inflate_px merge_dist
      max_rects align_px, rectContains r c := by
    intro c hcmem
    cases hl : cands with
    | nil => simp [hl] at hcmem
    | cons x t =>
      rw [stages_cons, ← hl]
      obtain ⟨hperm, _⟩ := hs (cands.map (inflateRect W H inflate_px))
      have hv : ∀ r ∈ sort (cands.map (inflateRect W H inflate_px)), validRect W H r := by
        intro r hr
        obtain ⟨c2, hc2, rfl⟩ := List.mem_map.mp (hperm.subset hr)
        exact (inflateRect_valid hinf (hc c2 hc2)).1
      have hcov := mergeLoop_covers W H merge_dist max_rects
        (sort (cands.map (inflateRect W H inflate_px))) [] (by simp) hv
      obtain ⟨m, hm, hmc⟩ := hcov.2 c (Or.inr ⟨inflateRect W H inflate_px c,
        hperm.symm.subset (List.mem_map_of_mem _ hcmem),
        (inflateRect_valid hinf (hc c hcmem)).2⟩)
      have hal := alignRect_valid (le_max_left 1 align_px) (hcov.1 m hm)
      refine ⟨alignRect W H (max 1 align_px) m, ?_, rectContains_trans hal.2 hmc⟩
      simp only [alignStage]
      exact List.mem_map_of_mem _ hm
  refine ⟨main, ?_⟩
  intro G hG hcfg
  rw [RenderDrawData_dirty_eq_stages, hG, hcfg]
  exact main

/-- Witness of C3: two candidates in a 32 x 32 buffer with the default configuration; the
second candidate is covered. -/
theorem C3_pipeline_covers_witness :
    ∃ r ∈ ComputeDirtyRects_stages stdSort [⟨1, 1, 5, 5⟩, ⟨20, 20, 30, 31⟩] 32 32 1 2 12 1,
      rectContains r ⟨20, 20, 30, 31⟩ :=
  (C3_pipeline_covers stdSort stdSort_isStdSort 32 32 1 2 12 1
    [⟨1, 1, 5, 5⟩, ⟨20, 20, 30, 31⟩] (by decide)
    (by
      intro c hcm
      simp only [List.mem_cons, List.mem_singleton, List.not_mem_nil, or_false] at hcm
      rcases hcm with rfl | rfl <;> simp [validRect])).1 ⟨20, 20, 30, 31⟩ (by simp)

/-- C9. Cap collapse: for every cap `max_rects ≥ 0`, every alignment grid and every list of
more than `max_rects` candidate rectangles that, after inflation, are pairwise not within the
merge distance of each other, the final rectangle list is exactly the single rectangle
`(0, 0, W, H)`, in `ComputeDirtyRects` and in `RenderDrawData` alike. -/
theorem C9_cap_collapse (sort : List Rect → List Rect) (hs : IsStdSort sort)
    (W H inflate_px merge_dist max_rects align_px : Int) (cands : List Rect)
    (hcap : 0 ≤ max_rects) (hlen : max_rects < (cands.length : Int))
    (hfar : (cands.map (inflateRect W H inflate_px)).Pairwise
      (fun a b => overlap_or_close a b merge_dist = false)) :
    ComputeDirtyRects_stages sort cands W H inflate_px merge_dist max_rects align_px
      = [⟨0, 0, W, H⟩] ∧
    (∀ G : Context, G.DirtyRects = cands →
      G.DirtyCfg = ⟨max_rects, inflate_px, merge_dist, align_px⟩ →
      RenderDrawData_dirty sort G W H = [⟨0, 0, W, H⟩]) := by
  have main : ComputeDirtyRects_stages sort cands W H inflate_px merge_dist max_rects align_px
      = [⟨0, 0, W, H⟩] := by
    cases hl : cands with
    | nil =>
      rw [hl] at hlen
      simp only [List.length_nil, Nat.cast_zero] at hlen
      omega
    | cons x t =>
      rw [stages_cons, ← hl]
      obtain ⟨hperm, _⟩ := hs (cands.map (inflateRect W H inflate_px))
      have hsym : ∀ {a b : Rect}, overlap_or_close a b merge_dist = false →
          overlap_or_close b a merge_dist = false := by
        intro a b h
        rw [overlap_or_close_symm]
        exact h
      have hp : (sort (cands.map (inflateRect W H inflate_px))).Pairwise
          (fun a b => overlap_or_close a b merge_dist = false) :=
        (hperm.pairwise_iff hsym).mpr hfar
      have hlen2 : (sort (cands.map (inflateRect W H inflate_px))).length = cands.length := by
        rw [hperm.length_eq, List.length_map]
      rw [mergeLoop_far W H merge_dist max_rects _ [] (by simpa using hp)
        (by simpa using hcap) (by rw [hlen2]; simpa using hlen)]
      exact alignStage_full W H align_px
  refine ⟨main, ?_⟩
  intro G hG hcfg
  rw [RenderDrawData_dirty_eq_stages, hG, hcfg]
  exact main

/-- Witness of C9: cap 2 and three single-pixel updates far from each other in a 64 x 48
buffer. -/
theorem C9_cap_collapse_witness :
    ComputeDirtyRects_stages stdSort [⟨0, 0, 1, 1⟩, ⟨30, 30, 31, 31⟩, ⟨60, 5, 61, 6⟩]
      64 48 1 2 2 1 = [⟨0, 0, 64, 48⟩] :=
  (C9_cap_collapse stdSort stdSort_isStdSort 64 48 1 2 2 1
    [⟨0, 0, 1, 1⟩, ⟨30, 30, 31, 31⟩, ⟨60, 5, 61, 6⟩] (by decide) (by decide) (by decide)).1

/-- The pipeline on the two rectangles of the merge example, for any merge distance. -/
theorem stages_example_pair (sort : List Rect → List Rect) (hs : IsStdSort sort)
    (W H cap d : Int) (hW : 20 ≤ W) (hH : 10 ≤ H) (hcap : 2 ≤ cap) :
    ComputeDirtyRects_stages sort [⟨0, 0, 10, 10⟩, ⟨12, 0, 20, 10⟩] W H 0 d cap 1 =
      if overlap_or_close ⟨0, 0, 10, 10⟩ ⟨12, 0, 20, 10⟩ d then [⟨0, 0, 20, 10⟩]
      else [⟨0, 0, 10, 10⟩, ⟨12, 0, 20, 10⟩] := by
  have vA : validRect W H ⟨0, 0, 10, 10⟩ := by
    simp only [validRect]
    refine ⟨?_, ?_, ?_, ?_, ?_, ?_⟩ <;> omega
  have vB : validRect W H ⟨12, 0, 20, 10⟩ := by
    simp only [validRect]
    refine ⟨?_, ?_, ?_, ?_, ?_, ?_⟩ <;> omega
  have vU : validRect W H ⟨0, 0, 20, 10⟩ := by
    simp only [validRect]
    refine ⟨?_, ?_, ?_, ?_, ?_, ?_⟩ <;> omega
  have c1 : ¬ ((1 : Int) > cap) := by omega
  have c2 : ¬ ((2 : Int) > cap) := by omega
  rw [stages_cons]
  simp only [List.map, inflateRect_zero vA, inflateRect_zero vB]
  rw [sort_pair hs (by decide)]
  by_cases h : overlap_or_close ⟨0, 0, 10, 10⟩ ⟨12, 0, 20, 10⟩ d = true
  · have hu : unionRect ⟨0, 0, 10, 10⟩ ⟨12, 0, 20, 10⟩ = ⟨0, 0, 20, 10⟩ := by decide
    simp [mergeLoop, absorbFirst, h, c1, hu, alignStage, alignRect_one vU]
  · simp [mergeLoop, absorbFirst, h, c1, c2, alignStage, alignRect_one vA, alignRect_one vB]

/-- C8, as amended. Merge example: with inflate margin 0, alignment grid 1, a cap of at least
2 and a buffer of at least 20 x 10, the pipeline applied to `A = (0,0,10,10)` and
`B = (12,0,20,10)` with merge distance 2 returns `A` and `B` unchanged (the gap of 2 pixels is
not less than the distance), and with any merge distance of at least 3 it returns exactly one
rectangle, `(0,0,20,10)`; in `ComputeDirtyRects` and in `RenderDrawData` alike. -/
theorem C8_merge_example_amended (sort : List Rect → List Rect) (hs : IsStdSort sort)
    (W H cap : Int) (hW : 20 ≤ W) (hH : 10 ≤ H) (hcap : 2 ≤ cap) :
    ComputeDirtyRects_stages sort [⟨0, 0, 10, 10⟩, ⟨12, 0, 20, 10⟩] W H 0 2 cap 1
      = [⟨0, 0, 10, 10⟩, ⟨12, 0, 20, 10⟩] ∧
    (∀ G : Context, G.DirtyRects = [⟨0, 0, 10, 10⟩, ⟨12, 0, 20, 10⟩] →
      G.DirtyCfg = ⟨cap, 0, 2, 1⟩ →
      RenderDrawData_dirty sort G W H = [⟨0, 0, 10, 10⟩, ⟨12, 0, 20, 10⟩]) ∧
    (∀ d : Int, 3 ≤ d →
      ComputeDirtyRects_stages sort [⟨0, 0, 10, 10⟩, ⟨12, 0, 20, 10⟩] W H 0 d cap 1
        = [⟨0, 0, 20, 10⟩] ∧
      (∀ G : Context, G.DirtyRects = [⟨0, 0, 10, 10⟩, ⟨12, 0, 20, 10⟩] →
        G.DirtyCfg = ⟨cap, 0, d, 1⟩ → RenderDrawData_dirty sort G W H = [⟨0, 0, 20, 10⟩])) := by
  have e2 : ComputeDirtyRects_stages sort [⟨0, 0, 10, 10⟩, ⟨12, 0, 20, 10⟩] W H 0 2 cap 1
      = [⟨0, 0, 10, 10⟩, ⟨12, 0, 20, 10⟩] := by
    rw [stages_example_pair sort hs W H cap 2 hW hH hcap]
    rfl
  have e3 : ∀ d : Int, 3 ≤ d →
      ComputeDirtyRects_stages sort [⟨0, 0, 10, 10⟩, ⟨12, 0, 20, 10⟩] W H 0 d cap 1
        = [⟨0, 0, 20, 10⟩] := by
    intro d hd
    rw [stages_example_pair sort hs W H cap d hW hH hcap]
    have : overlap_or_close ⟨0, 0, 10, 10⟩ ⟨12, 0, 20, 10⟩ d = true := by
      simp only [overlap_or_close, Bool.not_eq_true', Bool.or_eq_false_iff,
        decide_eq_false_iff_not]
      refine ⟨⟨⟨?_, ?_⟩, ?_⟩, ?_⟩ <;> omega
    rw [this]
    rfl
  refine ⟨e2, ?_, ?_⟩
  · intro G hG hcfg
    rw [RenderDrawData_dirty_eq_stages, hG, hcfg]
    exact e2
  · intro d hd
    refine ⟨e3 d hd, ?_⟩
    intro G hG hcfg
    rw [RenderDrawData_dirty_eq_stages, hG, hcfg]
    exact e3 d hd

/-- Witness of the amended C8 in a 20 x 10 buffer with cap 2. -/
theorem C8_merge_example_amended_witness :
    ComputeDirtyRects_stages stdSort [⟨0, 0, 10, 10⟩, ⟨12, 0, 20, 10⟩] 20 10 0 2 2 1
      = [⟨0, 0, 10, 10⟩, ⟨12, 0, 20, 10⟩] ∧
    ComputeDirtyRects_stages stdSort [⟨0, 0, 10, 10⟩, ⟨12, 0, 20, 10⟩] 20 10 0 3 2 1
      = [⟨0, 0, 20, 10⟩] :=
  have h := C8_merge_example_amended stdSort stdSort_isStdSort 20 10 2 (by decide) (by decide)
    (by decide)
  ⟨h.1, (h.2.2 3 (by decide)).1⟩

/-- C8, the claim as stated fails: with merge distance 2, inflate margin 0, grid 1, cap 2 and a
20 x 10 buffer, the candidates `(0,0,10,10)` and `(12,0,20,10)` are returned as two rectangles,
not as the single rectangle `(0,0,20,10)`, by `ComputeDirtyRects` and by `RenderDrawData`. -/
theorem C8_merge_example_counterexample :
    ComputeDirtyRects_stages stdSort [⟨0, 0, 10, 10⟩, ⟨12, 0, 20, 10⟩] 20 10 0 2 2 1
      = [⟨0, 0, 10, 10⟩, ⟨12, 0, 20, 10⟩] ∧
    ComputeDirtyRects_stages stdSort [⟨0, 0, 10, 10⟩, ⟨12, 0, 20, 10⟩] 20 10 0 2 2 1
      ≠ [⟨0, 0, 20, 10⟩] ∧
    RenderDrawData_dirty stdSort
      (blankContext 20 10 ⟨2, 0, 2, 1⟩ [⟨0, 0, 10, 10⟩, ⟨12, 0, 20, 10⟩]) 20 10
      = [⟨0, 0, 10, 10⟩, ⟨12, 0, 20, 10⟩] ∧
    RenderDrawData_dirty stdSort
      (blankContext 20 10 ⟨2, 0, 2, 1⟩ [⟨0, 0, 10, 10⟩, ⟨12, 0, 20, 10⟩]) 20 10
      ≠ [⟨0, 0, 20, 10⟩] := by
  decide

/-! ## Byte memory: what a pixel write touches -/

theorem poke_ne {m : Mem} {p q : Int} (b : Nat) (h : q ≠ p) : poke m p b q = m q := by
  simp [poke, h]

theorem poke_eq (m : Mem) (p : Int) (b : Nat) : poke m p b p = b := by
  simp [poke]

theorem bytesPerPixel_pos (fmt : PixelFormat) : 0 < bytesPerPixel fmt := by
  cases fmt <;> decide

/-- `WriteDestPixel` changes no byte outside the destination pixel. -/
theorem WriteDestPixel_frame (m : Mem) (dst : Int) (fmt : PixelFormat) (r g b al : Int)
    (a : Int) (h : ¬ (dst ≤ a ∧ a < dst + bytesPerPixel fmt)) :
    WriteDestPixel m dst fmt r g b al a = m a := by
  cases fmt
  · have hb : bytesPerPixel PixelFormat.RGBA32 = 4 := rfl
    rw [hb] at h
    simp only [WriteDestPixel]
    rw [poke_ne _ (by omega), poke_ne _ (by omega), poke_ne _ (by omega), poke_ne _ (by omega)]
  · have hb : bytesPerPixel PixelFormat.BGRA32 = 4 := rfl
    rw [hb] at h
    simp only [WriteDestPixel]
    rw [poke_ne _ (by omega), poke_ne _ (by omega), poke_ne _ (by omega), poke_ne _ (by omega)]
  · have hb : bytesPerPixel PixelFormat.RGB565 = 2 := rfl
    rw [hb] at h
    simp only [WriteDestPixel]
    rw [poke_ne _ (by omega), poke_ne _ (by omega)]

/-- `BlendPixel` changes no byte outside the destination pixel. -/
theorem BlendPixel_frame (m : Mem) (dst : Int) (fmt : PixelFormat) (sr sg sb sa : Int)
    (a : Int) (h : ¬ (dst ≤ a ∧ a < dst + bytesPerPixel fmt)) :
    BlendPixel m dst fmt sr sg sb sa a = m a := by
  unfold BlendPixel
  exact WriteDestPixel_frame m dst fmt _ _ _ _ a h

/-- `ReadDestPixel` looks at the bytes of the destination pixel only. -/
theorem ReadDestPixel_congr (m1 m2 : Mem) (dst : Int) (fmt : PixelFormat)
    (h : ∀ a, dst ≤ a ∧ a < dst + bytesPerPixel fmt → m1 a = m2 a) :
    ReadDestPixel m1 dst fmt = ReadDestPixel m2 dst fmt := by
  cases fmt
  · have hb : bytesPerPixel PixelFormat.RGBA32 = 4 := rfl
    rw [hb] at h
    simp only [ReadDestPixel]
    rw [h dst (by omega), h (dst + 1) (by omega), h (dst + 2) (by omega), h (dst + 3) (by omega)]
  · have hb : bytesPerPixel PixelFormat.BGRA32 = 4 := rfl
    rw [hb] at h
    simp only [ReadDestPixel]
    rw [h dst (by omega), h (dst + 1) (by omega), h (dst + 2) (by omega), h (dst + 3) (by omega)]
  · have hb : bytesPerPixel PixelFormat.RGB565 = 2 := rfl
    rw [hb] at h
    simp only [ReadDestPixel]
    rw [h dst (by omega), h (dst + 1) (by omega)]

/-- The bytes `BlendPixel` leaves in the destination pixel depend on the prior memory through
the bytes of that pixel only. -/
theorem BlendPixel_local (m1 m2 : Mem) (dst : Int) (fmt : PixelFormat) (sr sg sb sa : Int)
    (h : ∀ a, dst ≤ a ∧ a < dst + bytesPerPixel fmt → m1 a = m2 a) (a : Int)
    (ha : dst ≤ a ∧ a < dst + bytesPerPixel fmt) :
    BlendPixel m1 dst fmt sr sg sb sa a = BlendPixel m2 dst fmt sr sg sb sa a := by
  unfold BlendPixel
  rw [ReadDestPixel_congr m1 m2 dst fmt h]
  have e : a = dst + (a - dst) := by omega
  rw [e]
  exact WriteDestPixel_pixel_indep m1 m2 dst fmt _ _ _ _ (a - dst) (by omega) (by omega)

/-! ## Binary32 arithmetic: rounding -/

theorem roundEven_of_near {q : ℚ} {n : Int} (h1 : (n : ℚ) - 1 / 2 < q) (h2 : q < (n : ℚ) + 1 / 2) :
    roundEven q = n := by
  unfold roundEven
  have hf1 : (⌊q⌋ : ℚ) ≤ q := Int.floor_le q
  have hf2 : q < (⌊q⌋ : ℚ) + 1 := Int.lt_floor_add_one q
  rcases lt_trichotomy ⌊q⌋ n with h | h | h
  · have h3 : ⌊q⌋ + 1 ≤ n := h
    have h4 : ((⌊q⌋ : ℚ)) + 1 ≤ (n : ℚ) := by exact_mod_cast h3
    have h5 : ¬ (q - ⌊q⌋ < 1 / 2) := by
      intro hc
      linarith
    have h6 : 1 / 2 < q - ⌊q⌋ := by linarith
    rw [if_neg h5, if_pos h6]
    have h7 : (n : ℚ) < (⌊q⌋ : ℚ) + 2 := by linarith
    have h8 : n < ⌊q⌋ + 2 := by exact_mod_cast h7
    omega
  · have h5 : q - ⌊q⌋ < 1 / 2 := by
      rw [h]
      linarith
    rw [if_pos h5, h]
  · have h3 : n + 1 ≤ ⌊q⌋ := h
    have h4 : ((n : ℚ)) + 1 ≤ (⌊q⌋ : ℚ) := by exact_mod_cast h3
    linarith

theorem roundEven_intCast (n : Int) : roundEven (n : ℚ) = n :=
  roundEven_of_near (by linarith) (by linarith)

/-- A tie: the value halfway between `n` and `n + 1` goes to the even one. -/
theorem roundEven_tie (n : Int) :
    roundEven ((n : ℚ) + 1 / 2) = if n % 2 = 0 then n else n + 1 := by
  have hf : ⌊(n : ℚ) + 1 / 2⌋ = n := by
    rw [Int.floor_eq_iff]
    constructor <;> linarith
  unfold roundEven
  rw [hf]
  have h1 : ¬ ((n : ℚ) + 1 / 2 - (n : ℚ) < 1 / 2) := by
    intro h
    linarith
  have h2 : ¬ (1 / 2 < (n : ℚ) + 1 / 2 - (n : ℚ)) := by
    intro h
    linarith
  rw [if_neg h1, if_neg h2]

theorem roundEven_mem (q : ℚ) : roundEven q = ⌊q⌋ ∨ roundEven q = ⌊q⌋ + 1 := by
  unfold roundEven
  split
  · exact Or.inl rfl
  · split
    · exact Or.inr rfl
    · split
      · exact Or.inl rfl
      · exact Or.inr rfl

/-- The rounded value is within one half of the argument. -/
theorem roundEven_dist (q : ℚ) :
    (roundEven q : ℚ) - 1 / 2 ≤ q ∧ q ≤ (roundEven q : ℚ) + 1 / 2 := by
  have hf1 : (⌊q⌋ : ℚ) ≤ q := Int.floor_le q
  have hf2 : q < (⌊q⌋ : ℚ) + 1 := Int.lt_floor_add_one q
  unfold roundEven
  split
  · constructor <;> linarith
  · split
    · push_cast
      constructor <;> linarith
    · rename_i h1 h2
      split
      · constructor <;> linarith
      · push_cast
        constructor <;> linarith

/-- Rounding does not cross an integer. -/
theorem le_roundEven {q : ℚ} {n : Int} (h : (n : ℚ) ≤ q) : n ≤ roundEven q := by
  have h1 : n ≤ ⌊q⌋ := Int.le_floor.mpr h
  rcases roundEven_mem q with e | e <;> omega

theorem roundEven_le {q : ℚ} {n : Int} (h : q ≤ (n : ℚ)) : roundEven q ≤ n := by
  rcases eq_or_lt_of_le h with e | e
  · rw [e, roundEven_intCast]
  · have h1 : ⌊q⌋ < n := Int.floor_lt.mpr e
    rcases roundEven_mem q with e2 | e2 <;> omega

theorem roundEven_neg (q : ℚ) : roundEven (-q) = -roundEven q := by
  by_cases hq : (⌊q⌋ : ℚ) = q
  · obtain ⟨n, rfl⟩ : ∃ n : Int, q = n := ⟨⌊q⌋, hq.symm⟩
    have e : (-(n : ℚ)) = ((-n : Int) : ℚ) := by push_cast; ring
    rw [e, roundEven_intCast, roundEven_intCast]
  · have hf1 : (⌊q⌋ : ℚ) ≤ q := Int.floor_le q
    have hf2 : q < (⌊q⌋ : ℚ) + 1 := Int.lt_floor_add_one q
    have hlt : (⌊q⌋ : ℚ) < q := lt_of_le_of_ne hf1 hq
    have hfn : ⌊-q⌋ = -⌊q⌋ - 1 := by
      rw [Int.floor_eq_iff]
      push_cast
      constructor <;> linarith
    unfold roundEven
    rw [hfn]
    push_cast
    by_cases c1 : q - ⌊q⌋ < 1 / 2
    · have c2 : ¬ (-q - (-(⌊q⌋ : ℚ) - 1) < 1 / 2) := by
        intro h
        linarith
      have c3 : 1 / 2 < -q - (-(⌊q⌋ : ℚ) - 1) := by linarith
      rw [if_pos c1, if_neg c2, if_pos c3]
      ring
    · by_cases c4 : 1 / 2 < q - ⌊q⌋
      · have c2 : -q - (-(⌊q⌋ : ℚ) - 1) < 1 / 2 := by linarith
        rw [if_neg c1, if_pos c4, if_pos c2]
        ring
      · have c2 : ¬ (-q - (-(⌊q⌋ : ℚ) - 1) < 1 / 2) := by
          intro h
          linarith
        have c3 : ¬ (1 / 2 < -q - (-(⌊q⌋ : ℚ) - 1)) := by
          intro h
          linarith
        rw [if_neg c1, if_neg c4, if_neg c2, if_neg c3]
        by_cases c5 : ⌊q⌋ % 2 = 0
        · have c6 : ¬ ((-⌊q⌋ - 1) % 2 = 0) := by omega
          rw [if_pos c5, if_neg c6]
          ring
        · have c6 : (-⌊q⌋ - 1) % 2 = 0 := by omega
          rw [if_neg c5, if_pos c6]
          ring

theorem ulpExp_neg (q : ℚ) : ulpExp (-q) = ulpExp q := by
  unfold ulpExp
  rw [abs_neg]

theorem f32_neg (q : ℚ) : f32 (-q) = -f32 q := by
  unfold f32
  rw [ulpExp_neg, neg_div, roundEven_neg]
  push_cast
  ring

theorem f32_zero : f32 0 = 0 := by
  unfold f32
  rw [zero_div]
  have : roundEven (0 : ℚ) = 0 := by
    have := roundEven_intCast 0
    simpa using this
  rw [this]
  simp

/-- The unit in the last place of a value in the binade `[2 ^ (k + 23), 2 ^ (k + 24))`. -/
theorem ulpExp_of_binade {q : ℚ} {k : Int} (hk : -149 ≤ k) (h1 : (2 : ℚ) ^ (k + 23) ≤ |q|)
    (h2 : |q| < (2 : ℚ) ^ (k + 24)) : ulpExp q = k := by
  have hpos : (0 : ℚ) < |q| := lt_of_lt_of_le (by positivity) h1
  have e1 : k + 23 ≤ Int.log 2 |q| := by
    rw [← Int.zpow_le_iff_le_log (by norm_num) hpos]
    exact_mod_cast h1
  have e2 : Int.log 2 |q| < k + 24 := by
    rw [← Int.lt_zpow_iff_log_lt (by norm_num) hpos]
    exact_mod_cast h2
  unfold ulpExp
  omega

/-- Evaluation of `f32` on a value of known binade. -/
theorem f32_of_binade {q : ℚ} {k n : Int} (hk : -149 ≤ k) (h1 : (2 : ℚ) ^ (k + 23) ≤ |q|)
    (h2 : |q| < (2 : ℚ) ^ (k + 24)) (hr : roundEven (q / 2 ^ k) = n) :
    f32 q = (n : ℚ) * 2 ^ k := by
  unfold f32
  rw [ulpExp_of_binade hk h1 h2, hr]

/-- Evaluation of `f32` at a positive value that is not a tie: `n` is the nearest multiple of
the unit in the last place `2 ^ k`. -/
theorem f32_eval {q : ℚ} (k n : Int) (hk : -149 ≤ k) (h1 : (2 : ℚ) ^ (k + 23) ≤ q)
    (h2 : q < (2 : ℚ) ^ (k + 24)) (h3 : (n : ℚ) - 1 / 2 < q / 2 ^ k)
    (h4 : q / 2 ^ k < (n : ℚ) + 1 / 2) : f32 q = (n : ℚ) * 2 ^ k := by
  have hq : 0 ≤ q := le_trans (by positivity) h1
  exact f32_of_binade hk (by rwa [abs_of_nonneg hq]) (by rwa [abs_of_nonneg hq])
    (roundEven_of_near h3 h4)

/-- Evaluation of `f32` at a positive tie. -/
theorem f32_eval_tie {q : ℚ} (k n : Int) (hk : -149 ≤ k) (h1 : (2 : ℚ) ^ (k + 23) ≤ q)
    (h2 : q < (2 : ℚ) ^ (k + 24)) (h3 : q / 2 ^ k = (n : ℚ) + 1 / 2) :
    f32 q = ((if n % 2 = 0 then n else n + 1 : Int) : ℚ) * 2 ^ k := by
  have hq : 0 ≤ q := le_trans (by positivity) h1
  refine f32_of_binade hk (by rwa [abs_of_nonneg hq]) (by rwa [abs_of_nonneg hq]) ?_
  rw [h3, roundEven_tie]

/-- A value with at most 24 significant bits and exponent at least `-149` is a `float`:
rounding leaves it as it is. -/
theorem f32_exact (m e : Int) (hm : |m| < 2 ^ 24) (he : -149 ≤ e) :
    f32 ((m : ℚ) * 2 ^ e) = (m : ℚ) * 2 ^ e := by
  rcases eq_or_ne m 0 with h0 | h0
  · rw [h0]
    simp [f32_zero]
  · have h2 : (0 : ℚ) < 2 ^ e := by positivity
    have hmq : (0 : ℚ) < |(m : ℚ)| := abs_pos.mpr (by exact_mod_cast h0)
    have habs : |(m : ℚ) * 2 ^ e| = |(m : ℚ)| * 2 ^ e := by
      rw [abs_mul, abs_of_pos h2]
    have hpos : (0 : ℚ) < |(m : ℚ) * 2 ^ e| := by
      rw [habs]
      positivity
    have hlt : |(m : ℚ) * 2 ^ e| < (2 : ℚ) ^ (e + 24) := by
      rw [habs, zpow_add₀ (by norm_num : (2 : ℚ) ≠ 0), mul_comm]
      have : |(m : ℚ)| < 2 ^ (24 : Int) := by
        have h : ((|m| : Int) : ℚ) < ((2 ^ 24 : Int) : ℚ) := by exact_mod_cast hm
        rw [Int.cast_abs] at h
        have e24 : (2 : ℚ) ^ (24 : Int) = ((2 ^ 24 : Int) : ℚ) := by norm_num
        rw [e24]
        exact h
      exact mul_lt_mul_of_pos_left this h2
    have hlog : Int.log 2 |(m : ℚ) * 2 ^ e| < e + 24 := by
      rw [← Int.lt_zpow_iff_log_lt (by norm_num) hpos]
      exact_mod_cast hlt
    have hK : ulpExp ((m : ℚ) * 2 ^ e) ≤ e := by
      unfold ulpExp
      omega
    obtain ⟨d, hd⟩ : ∃ d : Nat, e = ulpExp ((m : ℚ) * 2 ^ e) + d := by
      refine ⟨(e - ulpExp ((m : ℚ) * 2 ^ e)).toNat, ?_⟩
      omega
    unfold f32
    generalize ulpExp ((m : ℚ) * 2 ^ e) = K at hK hd
    have hz : (2 : ℚ) ^ e = 2 ^ K * 2 ^ d := by
      rw [hd, zpow_add₀ (by norm_num : (2 : ℚ) ≠ 0), zpow_natCast]
    have hK0 : (2 : ℚ) ^ K ≠ 0 := by positivity
    have hdiv : (m : ℚ) * 2 ^ e / 2 ^ K = ((m * 2 ^ d : Int) : ℚ) := by
      rw [hz]
      push_cast
      field_simp
      ring
    rw [hdiv, roundEven_intCast, hz]
    push_cast
    ring

/-- An `int` of magnitude below `2 ^ 24` converts to `float` exactly. -/
theorem f32_intCast (n : Int) (hn : |n| < 2 ^ 24) : f32 (n : ℚ) = n := by
  have := f32_exact n 0 hn (by norm_num)
  simpa using this

theorem f32_one : f32 1 = 1 := by
  have := f32_intCast 1 (by norm_num)
  simpa using this

theorem f32_nonneg {q : ℚ} (h : 0 ≤ q) : 0 ≤ f32 q := by
  unfold f32
  have h1 : (0 : ℚ) ≤ q / 2 ^ ulpExp q := div_nonneg h (by positivity)
  have h2 : (0 : Int) ≤ roundEven (q / 2 ^ ulpExp q) := le_roundEven (by simpa using h1)
  have h3 : (0 : ℚ) ≤ (roundEven (q / 2 ^ ulpExp q) : ℚ) := by exact_mod_cast h2
  positivity

theorem f32_nonpos {q : ℚ} (h : q ≤ 0) : f32 q ≤ 0 := by
  have := f32_nonneg (neg_nonneg.mpr h)
  rw [f32_neg] at this
  linarith

/-- Rounding does not cross 1. -/
theorem f32_le_one {q : ℚ} (h : q ≤ 1) : f32 q ≤ 1 := by
  rcases le_or_lt q 0 with h0 | h0
  · exact le_trans (f32_nonpos h0) (by norm_num)
  · rcases eq_or_lt_of_le h with e1 | hlt
    · rw [e1, f32_one]
    · have habs : |q| = q := abs_of_pos h0
      have hlog : Int.log 2 |q| < 0 := by
        rw [habs, ← Int.lt_zpow_iff_log_lt (by norm_num) h0]
        simpa using hlt
      have hup : q < (2 : ℚ) ^ (Int.log 2 |q| + 1) := by
        have := Int.lt_zpow_succ_log_self (by norm_num : 1 < 2) q
        rw [habs]
        exact_mod_cast this
      unfold f32
      have hE : ulpExp q + 24 ≤ 0 ∧ Int.log 2 |q| + 1 ≤ ulpExp q + 24 := by
        unfold ulpExp
        omega
      generalize ulpExp q = K at hE
      have hK : (0 : ℚ) < 2 ^ K := by positivity
      have h1 : q < (2 : ℚ) ^ (K + 24) :=
        lt_of_lt_of_le hup (zpow_le_zpow_right₀ (by norm_num) hE.2)
      have h2 : q / 2 ^ K ≤ ((2 ^ 24 : Int) : ℚ) := by
        rw [div_le_iff₀ hK]
        have : (2 : ℚ) ^ (K + 24) = ((2 ^ 24 : Int) : ℚ) * 2 ^ K := by
          rw [zpow_add₀ (by norm_num : (2 : ℚ) ≠ 0)]
          push_cast
          ring
        linarith
      have h3 : roundEven (q / 2 ^ K) ≤ 2 ^ 24 := roundEven_le h2
      have h4 : (roundEven (q / 2 ^ K) : ℚ) ≤ 2 ^ 24 := by exact_mod_cast h3
      have h5 : (2 : ℚ) ^ (24 : Int) * 2 ^ K ≤ 1 := by
        rw [← zpow_add₀ (by norm_num : (2 : ℚ) ≠ 0)]
        have := zpow_le_zpow_right₀ (by norm_num : (1 : ℚ) ≤ 2) (show 24 + K ≤ 0 by omega)
        simpa using this
      have h6 : (roundEven (q / 2 ^ K) : ℚ) * 2 ^ K ≤ 2 ^ (24 : Int) * 2 ^ K := by
        apply mul_le_mul_of_nonneg_right _ hK.le
        have e24 : (2 : ℚ) ^ (24 : Int) = 2 ^ 24 := by norm_num
        rw [e24]
        exact h4
      linarith

/-! ## The pixel loops of the rasterizer -/

theorem mem_intRange {lo hi x : Int} : x ∈ intRange lo hi ↔ lo ≤ x ∧ x < hi := by
  simp only [intRange, List.mem_map, List.mem_range]
  constructor
  · rintro ⟨i, hi1, rfl⟩
    omega
  · rintro ⟨h1, h2⟩
    exact ⟨(x - lo).toNat, by omega, by omega⟩

theorem nodup_intRange (lo hi : Int) : (intRange lo hi).Nodup := by
  unfold intRange
  apply List.Nodup.map _ (List.nodup_range _)
  intro i j h
  simp only at h
  omega

/-- The two nested `for` loops visit the pixels row by row. -/
theorem nested_foldl_eq (step : Mem → Int → Int → Mem) (xs : List Int) :
    ∀ (ys : List Int) (m : Mem),
      ys.foldl (fun m y => xs.foldl (fun m x => step m y x) m) m =
        (ys ×ˢ xs).foldl (fun m p => step m p.1 p.2) m
  | [], m => rfl
  | y :: ys, m => by
    rw [List.product_cons, List.foldl_append, List.foldl_map, List.foldl_cons]
    exact nested_foldl_eq step xs ys _

/-- A byte that no visited pixel touches is unchanged by the loop. -/
theorem foldl_frame {P : Type} (step : Mem → P → Mem) (a : Int) :
    ∀ (ps : List P) (m : Mem), (∀ p ∈ ps, ∀ m2 : Mem, step m2 p a = m2 a) →
      ps.foldl step m a = m a
  | [], _, _ => rfl
  | p :: ps, m, h => by
    rw [List.foldl_cons, foldl_frame step a ps (step m p) (fun q hq => h q (List.mem_cons_of_mem p hq))]
    exact h p (List.mem_cons_self p ps) m

/-- When the visited pixels are pairwise distinct and do not share bytes, the bytes of a
visited pixel after the loop are those of the single step for that pixel applied to the
initial memory. -/
theorem foldl_local {P : Type} (step : Mem → P → Mem) (cell : P → Int → Prop)
    (hframe : ∀ (m : Mem) (p : P) (a : Int), ¬ cell p a → step m p a = m a)
    (hlocal : ∀ (m1 m2 : Mem) (p : P), (∀ a, cell p a → m1 a = m2 a) →
      ∀ a, cell p a → step m1 p a = step m2 p a) :
    ∀ (ps : List P), ps.Nodup →
      (∀ p ∈ ps, ∀ q ∈ ps, p ≠ q → ∀ a, cell p a → ¬ cell q a) →
      ∀ (m : Mem), ∀ p ∈ ps, ∀ a, cell p a → ps.foldl step m a = step m p a
  | [], _, _, _, p, hp, _, _ => by simp at hp
  | q :: ps, hnd, hdisj, m, p, hp, a, ha => by
    rw [List.foldl_cons]
    have hnd2 := List.nodup_cons.mp hnd
    have hdisj2 : ∀ p ∈ ps, ∀ q ∈ ps, p ≠ q → ∀ a, cell p a → ¬ cell q a :=
      fun p1 h1 q1 h2 => hdisj p1 (List.mem_cons_of_mem q h1) q1 (List.mem_cons_of_mem q h2)
    rcases List.mem_cons.mp hp with rfl | hp2
    · apply foldl_frame step a ps
      intro q1 hq1 m2
      apply hframe
      have hne : p ≠ q1 := by
        rintro rfl
        exact hnd2.1 hq1
      exact hdisj p (List.mem_cons_self p ps) q1 (List.mem_cons_of_mem p hq1) hne a ha
    · rw [foldl_local step cell hframe hlocal ps hnd2.2 hdisj2 (step m q) p hp2 a ha]
      have hne : p ≠ q := by
        rintro rfl
        exact hnd2.1 hp2
      exact hlocal _ _ p (fun b hb => hframe m q b
        (hdisj p (List.mem_cons_of_mem q hp2) q (List.mem_cons_self q ps) hne b hb)) a ha

/-- The loop body changes no byte outside the pixel `(x, y)`. -/
theorem RasterizePixel_frame (G : Context) (v0 v1 v2 : ImDrawVert) (tex_id : Nat)
    (e0 e1 e2 : EdgeEq) (inv_area : ℚ) (c0 c1 c2 : RGBA) (m : Mem) (y x a : Int)
    (h : ¬ inPixel G x y a) :
    RasterizePixel G v0 v1 v2 tex_id e0 e1 e2 inv_area c0 c1 c2 (bytesPerPixel G.Format) m y x a
      = m a := by
  unfold RasterizePixel
  simp only []
  split
  · rfl
  · exact BlendPixel_frame m _ G.Format _ _ _ _ a h

/-- The bytes the loop body leaves in the pixel `(x, y)` depend on the prior memory through
the bytes of that pixel only. -/
theorem RasterizePixel_local (G : Context) (v0 v1 v2 : ImDrawVert) (tex_id : Nat)
    (e0 e1 e2 : EdgeEq) (inv_area : ℚ) (c0 c1 c2 : RGBA) (m1 m2 : Mem) (y x : Int)
    (h : ∀ a, inPixel G x y a → m1 a = m2 a) (a : Int) (ha : inPixel G x y a) :
    RasterizePixel G v0 v1 v2 tex_id e0 e1 e2 inv_area c0 c1 c2 (bytesPerPixel G.Format) m1 y x a
      = RasterizePixel G v0 v1 v2 tex_id e0 e1 e2 inv_area c0 c1 c2 (bytesPerPixel G.Format) m2
          y x a := by
  unfold RasterizePixel
  simp only []
  split
  · exact h a ha
  · exact BlendPixel_local m1 m2 _ G.Format _ _ _ _ h a ha

/-! ## The rasterizer: which bytes can change -/

theorem castInt_lt_add_one (q : ℚ) : (castInt q : ℚ) < q + 1 := by
  unfold castInt
  split
  · have := Int.floor_le q
    linarith
  · exact Int.ceil_lt_add_one q

theorem lt_castInt_add_one (q : ℚ) : q < (castInt q : ℚ) + 1 := by
  unfold castInt
  split
  · exact Int.lt_floor_add_one q
  · have := Int.le_ceil q
    linarith

theorem castInt_le_of_nonneg {q : ℚ} (h : 0 ≤ q) : (castInt q : ℚ) ≤ q := by
  rw [castInt_of_nonneg h]
  exact Int.floor_le q

theorem castInt_intCast (n : Int) : castInt (n : ℚ) = n := by
  unfold castInt
  split
  · exact Int.floor_intCast n
  · exact Int.ceil_intCast n

/-- The buffer memory after `RasterizeTriangle`: unchanged on the two early returns, else the
result of the pixel loops. -/
theorem RasterizeTriangle_pixels (G : Context) (sh : ColShifts) (v0 v1 v2 : ImDrawVert)
    (tex_id : Nat) (clip : ImVec4) (ox oy : ℚ) :
    (RasterizeTriangle G sh v0 v1 v2 tex_id clip ox oy).Pixels =
      if (clippedBox (vertexPos v0 ox oy) (vertexPos v1 ox oy) (vertexPos v2 ox oy) clip).z ≤
          (clippedBox (vertexPos v0 ox oy) (vertexPos v1 ox oy) (vertexPos v2 ox oy) clip).x ∨
         (clippedBox (vertexPos v0 ox oy) (vertexPos v1 ox oy) (vertexPos v2 ox oy) clip).w ≤
          (clippedBox (vertexPos v0 ox oy) (vertexPos v1 ox oy) (vertexPos v2 ox oy) clip).y
      then G.Pixels
      else if signedArea (vertexPos v0 ox oy) (vertexPos v1 ox oy) (vertexPos v2 ox oy) = 0
      then G.Pixels
      else
        ((intRange
            (castInt (clippedBox (vertexPos v0 ox oy) (vertexPos v1 ox oy) (vertexPos v2 ox oy)
              clip).y)
            (castInt (clippedBox (vertexPos v0 ox oy) (vertexPos v1 ox oy) (vertexPos v2 ox oy)
              clip).w)) ×ˢ
          (intRange
            (castInt (clippedBox (vertexPos v0 ox oy) (vertexPos v1 ox oy) (vertexPos v2 ox oy)
              clip).x)
            (castInt (clippedBox (vertexPos v0 ox oy) (vertexPos v1 ox oy) (vertexPos v2 ox oy)
              clip).z))).foldl
          (fun m p => RasterizePixel G v0 v1 v2 tex_id
            (MakeEdge (vertexPos v1 ox oy) (vertexPos v2 ox oy))
            (MakeEdge (vertexPos v2 ox oy) (vertexPos v0 ox oy))
            (MakeEdge (vertexPos v0 ox oy) (vertexPos v1 ox oy))
            (fdiv 1 (signedArea (vertexPos v0 ox oy) (vertexPos v1 ox oy) (vertexPos v2 ox oy)))
            (UnpackColor sh v0.col) (UnpackColor sh v1.col) (UnpackColor sh v2.col)
            (bytesPerPixel G.Format) m p.1 p.2)
          G.Pixels := by
  unfold RasterizeTriangle
  simp only []
  split
  · rfl
  · split
    · rfl
    · simp only []
      exact nested_foldl_eq _ _ _ _

/-- Where the loop counters of `RasterizeTriangle` can be, relative to the clip rectangle. -/
theorem loop_range_in_clip (p0 p1 p2 : ImVec2) (clip : ImVec4) (x y : Int)
    (hy : y ∈ intRange (castInt (clippedBox p0 p1 p2 clip).y)
      (castInt (clippedBox p0 p1 p2 clip).w))
    (hx : x ∈ intRange (castInt (clippedBox p0 p1 p2 clip).x)
      (castInt (clippedBox p0 p1 p2 clip).z)) :
    clip.x < (x : ℚ) + 1 ∧ (x : ℚ) < clip.z ∧ clip.y < (y : ℚ) + 1 ∧ (y : ℚ) < clip.w ∧
    (0 ≤ clip.z → (x : ℚ) + 1 ≤ clip.z) ∧ (0 ≤ clip.w → (y : ℚ) + 1 ≤ clip.w) := by
  rw [mem_intRange] at hx hy
  obtain ⟨hx1, hx2⟩ := hx
  obtain ⟨hy1, hy2⟩ := hy
  have lo : ∀ (f c : ℚ) (n : Int), castInt (max f c) ≤ n → c < (n : ℚ) + 1 := by
    intro f c n h
    have h1 := lt_castInt_add_one (max f c)
    have h2 : ((castInt (max f c) : Int) : ℚ) ≤ (n : ℚ) := by exact_mod_cast h
    have h3 := le_max_right f c
    linarith
  have hi : ∀ (k : Int) (c : ℚ) (n : Int), n < castInt (min (k : ℚ) c) →
      (n : ℚ) < c ∧ (0 ≤ c → (n : ℚ) + 1 ≤ c) := by
    intro k c n h
    have h0 : (n : ℚ) + 1 ≤ ((castInt (min (k : ℚ) c) : Int) : ℚ) := by exact_mod_cast h
    have h1 := castInt_lt_add_one (min (k : ℚ) c)
    have h3 := min_le_right (k : ℚ) c
    refine ⟨by linarith, ?_⟩
    intro hc
    rcases le_total (k : ℚ) c with hk | hk
    · rw [min_eq_left hk, castInt_intCast] at h0
      linarith
    · rw [min_eq_right hk] at h0
      have := castInt_le_of_nonneg hc
      linarith
  simp only [clippedBox] at hx1 hx2 hy1 hy2
  exact ⟨lo _ _ _ hx1, (hi _ _ _ hx2).1, lo _ _ _ hy1, (hi _ _ _ hy2).1, (hi _ _ _ hx2).2,
    (hi _ _ _ hy2).2⟩

/-- Every byte that `RasterizeTriangle` changes lies in a pixel that the loops visit. -/
theorem RasterizeTriangle_changed (G : Context) (sh : ColShifts) (v0 v1 v2 : ImDrawVert)
    (tex_id : Nat) (clip : ImVec4) (ox oy : ℚ) (a : Int)
    (h : (RasterizeTriangle G sh v0 v1 v2 tex_id clip ox oy).Pixels a ≠ G.Pixels a) :
    ∃ px py : Int, inPixel G px py a ∧
      py ∈ intRange
        (castInt (clippedBox (vertexPos v0 ox oy) (vertexPos v1 ox oy) (vertexPos v2 ox oy)
          clip).y)
        (castInt (clippedBox (vertexPos v0 ox oy) (vertexPos v1 ox oy) (vertexPos v2 ox oy)
          clip).w) ∧
      px ∈ intRange
        (castInt (clippedBox (vertexPos v0 ox oy) (vertexPos v1 ox oy) (vertexPos v2 ox oy)
          clip).x)
        (castInt (clippedBox (vertexPos v0 ox oy) (vertexPos v1 ox oy) (vertexPos v2 ox oy)
          clip).z) := by
  rw [RasterizeTriangle_pixels] at h
  split at h
  · exact absurd rfl h
  · split at h
    · exact absurd rfl h
    · by_contra hno
      apply h
      apply foldl_frame
      rintro ⟨y, x⟩ hp m2
      rw [List.mem_product] at hp
      apply RasterizePixel_frame
      intro hin
      exact hno ⟨x, y, hin, hp.1, hp.2⟩

/-- C2, as amended. `RasterizeTriangle` writes only pixels whose unit square meets the clip
rectangle: for every triangle, texture handle, clip rectangle `(x, y, z, w)` and buffer,
every byte that differs after the call is a byte of a pixel `(px, py)` with
`x < px + 1`, `px < z`, `y < py + 1`, `py < w`, and moreover `px + 1 ≤ z` when `z ≥ 0` and
`py + 1 ≤ w` when `w ≥ 0` (hence `px + 0.5 < z` and `py + 0.5 < w` there); and a triangle
whose pixel-aligned bounding box does not intersect the clip rectangle leaves the whole
context, buffer included, unchanged. -/
theorem C2_clip_amended (G : Context) (sh : ColShifts) (v0 v1 v2 : ImDrawVert)
    (tex_id : Nat) (clip : ImVec4) (ox oy : ℚ) :
    (∀ a : Int, (RasterizeTriangle G sh v0 v1 v2 tex_id clip ox oy).Pixels a ≠ G.Pixels a →
      ∃ px py : Int, inPixel G px py a ∧
        clip.x < (px : ℚ) + 1 ∧ (px : ℚ) < clip.z ∧ clip.y < (py : ℚ) + 1 ∧ (py : ℚ) < clip.w ∧
        (0 ≤ clip.z → (px : ℚ) + 1 ≤ clip.z) ∧ (0 ≤ clip.w → (py : ℚ) + 1 ≤ clip.w)) ∧
    (boxMissesClip (vertexPos v0 ox oy) (vertexPos v1 ox oy) (vertexPos v2 ox oy) clip →
      RasterizeTriangle G sh v0 v1 v2 tex_id clip ox oy = G) := by
  constructor
  · intro a h
    obtain ⟨px, py, hin, hy, hx⟩ := RasterizeTriangle_changed G sh v0 v1 v2 tex_id clip ox oy a h
    exact ⟨px, py, hin, loop_range_in_clip _ _ _ clip px py hy hx⟩
  · intro hmiss
    unfold RasterizeTriangle
    simp only []
    rw [if_pos]
    simp only [clippedBox]
    rcases hmiss with h | h | h | h
    · left
      exact le_trans (min_le_left _ _) (le_trans h (le_max_right _ _))
    · left
      exact le_trans (min_le_right _ _) (le_trans h (le_max_left _ _))
    · right
      exact le_trans (min_le_left _ _) (le_trans h (le_max_right _ _))
    · right
      exact le_trans (min_le_right _ _) (le_trans h (le_max_left _ _))

/-! ## The exact edge functions -/

/-- In exact arithmetic the three edge functions add up to the signed area at every pixel
centre. -/
theorem edgeExact_sum (p0 p1 p2 : ImVec2) (x y : Int) :
    edgeExact p1 p2 x y + edgeExact p2 p0 x y + edgeExact p0 p1 x y = areaExact p0 p1 p2 := by
  simp only [edgeExact, areaExact]
  ring

/-- The rounded value `(int)(f + 0.5f)` of a blend in [0, 255] is its floor and is a byte. -/
theorem round_range {q : ℚ} (h0 : 0 ≤ q) (h1 : q ≤ 255) :
    castInt (q + 1 / 2) = ⌊q + 1 / 2⌋ ∧ 0 ≤ ⌊q + 1 / 2⌋ ∧ ⌊q + 1 / 2⌋ ≤ 255 := by
  refine ⟨castInt_of_nonneg (by linarith), Int.floor_nonneg.mpr (by linarith), ?_⟩
  have h2 : ⌊q + 1 / 2⌋ < 256 := by
    rw [Int.floor_lt]
    push_cast
    linarith
  omega

theorem UnpackColor_range (sh : ColShifts) (c : Nat) :
    (0 ≤ (UnpackColor sh c).r ∧ (UnpackColor sh c).r ≤ 255) ∧
    (0 ≤ (UnpackColor sh c).g ∧ (UnpackColor sh c).g ≤ 255) ∧
    (0 ≤ (UnpackColor sh c).b ∧ (UnpackColor sh c).b ≤ 255) ∧
    (0 ≤ (UnpackColor sh c).a ∧ (UnpackColor sh c).a ≤ 255) := by
  simp only [UnpackColor, and_255]
  refine ⟨⟨?_, ?_⟩, ⟨?_, ?_⟩, ⟨?_, ?_⟩, ⟨?_, ?_⟩⟩ <;> omega

/-! ## Texture sampling of a handle that is not registered -/

theorem sampleUserTextures_unregistered (tex_id : Nat) (u v : ℚ) :
    ∀ (es : List Entry), (∀ e ∈ es, ¬ (e.id = tex_id ∧ e.pixels.isSome = true)) →
      sampleUserTextures es tex_id u v = 1
  | [], _ => rfl
  | e :: es, h => by
    have he := h e (List.mem_cons_self e es)
    have ih := sampleUserTextures_unregistered tex_id u v es
      (fun e2 h2 => h e2 (List.mem_cons_of_mem e h2))
    unfold sampleUserTextures
    cases hp : e.pixels with
    | none => simpa using ih
    | some px =>
      have hne : ¬ (e.id = tex_id) := by
        intro hid
        exact he ⟨hid, by simp [hp]⟩
      simp only [hne, if_false]
      exact ih

/-- Sampling a handle that is not registered gives alpha 1 at every `(u, v)`. -/
theorem SampleTextureAlpha_unregistered (G : Context) (tex_id : Nat) (u v : ℚ)
    (h : Unregistered G tex_id) : SampleTextureAlpha G tex_id u v = 1 := by
  unfold SampleTextureAlpha
  cases hp : G.FontPixels with
  | none => exact sampleUserTextures_unregistered tex_id u v _ h.2
  | some px =>
    have hne : ¬ (tex_id = G.FontTextureID) := by
      intro hid
      exact h.1 ⟨hid, by simp [hp]⟩
    simp only [hne, if_false]
    exact sampleUserTextures_unregistered tex_id u v _ h.2

/-! ## The rasterizer: which pixels are shaded, and with what -/

theorem insideTest_iff (p0 p1 p2 : ImVec2) (y x : Int) :
    insideTest (MakeEdge p1 p2) (MakeEdge p2 p0) (MakeEdge p0 p1) y x = true ↔
      0 ≤ edgeAt p1 p2 x y ∧ 0 ≤ edgeAt p2 p0 x y ∧ 0 ≤ edgeAt p0 p1 x y := by
  simp only [insideTest, edgeAt, Bool.not_eq_true', Bool.or_eq_false_iff,
    decide_eq_false_iff_not, not_lt, and_assoc]

/-- The loop body is the inside test followed by `BlendPixel` with the arguments
`shadeArgs`. -/
theorem RasterizePixel_eq (G : Context) (v0 v1 v2 : ImDrawVert) (tex_id : Nat)
    (e0 e1 e2 : EdgeEq) (inv_area : ℚ) (c0 c1 c2 : RGBA) (bpp : Int) (m : Mem) (y x : Int) :
    RasterizePixel G v0 v1 v2 tex_id e0 e1 e2 inv_area c0 c1 c2 bpp m y x =
      if insideTest e0 e1 e2 y x then
        BlendPixel m (y * G.Pitch + x * bpp) G.Format
          (shadeArgs G v0 v1 v2 tex_id e0 e1 e2 inv_area c0 c1 c2 y x).r
          (shadeArgs G v0 v1 v2 tex_id e0 e1 e2 inv_area c0 c1 c2 y x).g
          (shadeArgs G v0 v1 v2 tex_id e0 e1 e2 inv_area c0 c1 c2 y x).b
          (shadeArgs G v0 v1 v2 tex_id e0 e1 e2 inv_area c0 c1 c2 y x).a
      else m := by
  unfold RasterizePixel insideTest shadeArgs
  simp only []
  by_cases h : EvalEdge e0 (fadd (i2f x) (1 / 2)) (fadd (i2f y) (1 / 2)) < 0 ∨
      EvalEdge e1 (fadd (i2f x) (1 / 2)) (fadd (i2f y) (1 / 2)) < 0 ∨
      EvalEdge e2 (fadd (i2f x) (1 / 2)) (fadd (i2f y) (1 / 2)) < 0
  · rw [if_pos h, if_neg]
    simp only [Bool.not_eq_true', Bool.or_eq_false_iff, decide_eq_false_iff_not, not_and,
      not_not, Bool.not_eq_false]
    rcases h with h | h | h
    · intro h1
      exact absurd h h1.1
    · intro h1
      exact absurd h h1.2
    · intro _
      exact h
  · rw [if_neg h, if_pos]
    simp only [not_or] at h
    simp only [Bool.not_eq_true', Bool.or_eq_false_iff, decide_eq_false_iff_not]
    exact ⟨⟨h.1, h.2.1⟩, h.2.2⟩

theorem foldl_filter_eq {α β : Type} (f : β → α → β) (p : α → Bool) :
    ∀ (l : List α) (b : β),
      (l.filter p).foldl f b = l.foldl (fun b a => if p a then f b a else b) b
  | [], _ => rfl
  | a :: l, b => by
    by_cases h : p a = true
    · simp only [List.filter_cons, h, if_true, List.foldl_cons]
      exact foldl_filter_eq f p l _
    · simp only [List.filter_cons, h, Bool.false_eq_true, if_false, List.foldl_cons]
      exact foldl_filter_eq f p l _

/-- The buffer memory after `RasterizeTriangle` is the memory before with `BlendPixel` applied,
in order, at the pixels of `shadedPixels` with the arguments `blendArgs`. -/
theorem RasterizeTriangle_eq_shaded (G : Context) (sh : ColShifts) (v0 v1 v2 : ImDrawVert)
    (tex_id : Nat) (clip : ImVec4) (ox oy : ℚ) :
    (RasterizeTriangle G sh v0 v1 v2 tex_id clip ox oy).Pixels =
      (shadedPixels v0 v1 v2 clip ox oy).foldl
        (fun m p => BlendPixel m (p.1 * G.Pitch + p.2 * bytesPerPixel G.Format) G.Format
          (blendArgs G sh v0 v1 v2 tex_id ox oy p.1 p.2).r
          (blendArgs G sh v0 v1 v2 tex_id ox oy p.1 p.2).g
          (blendArgs G sh v0 v1 v2 tex_id ox oy p.1 p.2).b
          (blendArgs G sh v0 v1 v2 tex_id ox oy p.1 p.2).a)
        G.Pixels := by
  rw [RasterizeTriangle_pixels]
  unfold shadedPixels
  simp only []
  split
  · rfl
  · split
    · rfl
    · rw [foldl_filter_eq]
      simp only [RasterizePixel_eq, blendArgs]

theorem castInt_mono {a b : ℚ} (h : a ≤ b) : castInt a ≤ castInt b := by
  unfold castInt
  split
  · rw [if_pos (le_trans ‹0 ≤ a› h)]
    exact Int.floor_le_floor h
  · split
    · rename_i ha hb
      have h1 : ⌈a⌉ ≤ 0 := Int.ceil_le.mpr (by push_cast; linarith [lt_of_not_ge ha])
      have h2 : 0 ≤ ⌊b⌋ := Int.floor_nonneg.mpr hb
      omega
    · exact Int.ceil_le_ceil h

/-- Membership in `shadedPixels`: the pixel is visited by the loops and passes the inside
test, and the triangle is not degenerate. -/
theorem mem_shadedPixels (v0 v1 v2 : ImDrawVert) (clip : ImVec4) (ox oy : ℚ) (p0 p1 p2 : ImVec2)
    (hp0 : p0 = vertexPos v0 ox oy) (hp1 : p1 = vertexPos v1 ox oy)
    (hp2 : p2 = vertexPos v2 ox oy) (y x : Int) :
    (y, x) ∈ shadedPixels v0 v1 v2 clip ox oy ↔
      signedArea p0 p1 p2 ≠ 0 ∧
      y ∈ intRange (castInt (clippedBox p0 p1 p2 clip).y) (castInt (clippedBox p0 p1 p2 clip).w) ∧
      x ∈ intRange (castInt (clippedBox p0 p1 p2 clip).x) (castInt (clippedBox p0 p1 p2 clip).z) ∧
      0 ≤ edgeAt p1 p2 x y ∧ 0 ≤ edgeAt p2 p0 x y ∧ 0 ≤ edgeAt p0 p1 x y := by
  subst hp0 hp1 hp2
  unfold shadedPixels
  simp only []
  split
  · rename_i hdeg
    simp only [List.not_mem_nil, false_iff, not_and]
    intro _ hy hx
    rw [mem_intRange] at hy hx
    rcases hdeg with h | h
    · have := castInt_mono h
      omega
    · have := castInt_mono h
      omega
  · split
    · rename_i harea
      simp [harea]
    · rename_i harea
      rw [List.mem_filter, List.mem_product, insideTest_iff]
      simp only [ne_eq, harea, not_false_eq_true, true_and, and_assoc]

/-! ## The rasterizer: what a visited pixel receives -/

/-- The loop body skips a pixel at whose centre some computed edge value is negative. -/
theorem RasterizePixel_skip (G : Context) (v0 v1 v2 : ImDrawVert) (tex_id : Nat)
    (p0 p1 p2 : ImVec2) (inv_area : ℚ) (c0 c1 c2 : RGBA) (bpp : Int) (m : Mem) (y x : Int)
    (h : edgeAt p1 p2 x y < 0 ∨ edgeAt p2 p0 x y < 0 ∨ edgeAt p0 p1 x y < 0) :
    RasterizePixel G v0 v1 v2 tex_id (MakeEdge p1 p2) (MakeEdge p2 p0) (MakeEdge p0 p1) inv_area
      c0 c1 c2 bpp m y x = m := by
  unfold RasterizePixel
  simp only []
  rw [if_pos]
  exact h

/-- Distinct pixels of columns `0 .. Wd-1` do not share bytes when a row is at least `Wd`
pixels long. -/
theorem inPixel_disjoint (G : Context) (Wd : Int)
    (hpitch : bytesPerPixel G.Format * Wd ≤ G.Pitch) {x1 y1 x2 y2 : Int}
    (hx1 : 0 ≤ x1 ∧ x1 < Wd) (hx2 : 0 ≤ x2 ∧ x2 < Wd) (hne : (y1, x1) ≠ (y2, x2)) (a : Int)
    (h1 : inPixel G x1 y1 a) : ¬ inPixel G x2 y2 a := by
  intro h2
  unfold inPixel at h1 h2
  have hb : bytesPerPixel G.Format = 2 ∨ bytesPerPixel G.Format = 4 := by
    cases G.Format <;> simp [bytesPerPixel]
  have hP : 0 ≤ G.Pitch := by
    rcases hb with hb | hb <;> rw [hb] at hpitch <;> omega
  rcases lt_trichotomy y1 y2 with hy | hy | hy
  · have : (y1 + 1) * G.Pitch ≤ y2 * G.Pitch :=
      Int.mul_le_mul_of_nonneg_right (by omega) hP
    have e : (y1 + 1) * G.Pitch = y1 * G.Pitch + G.Pitch := by ring
    rcases hb with hb | hb <;> rw [hb] at h1 h2 hpitch <;> omega
  · subst hy
    have hx : x1 ≠ x2 := by
      rintro rfl
      exact hne rfl
    rcases hb with hb | hb <;> rw [hb] at h1 h2 <;> omega
  · have : (y2 + 1) * G.Pitch ≤ y1 * G.Pitch :=
      Int.mul_le_mul_of_nonneg_right (by omega) hP
    have e : (y2 + 1) * G.Pitch = y2 * G.Pitch + G.Pitch := by ring
    rcases hb with hb | hb <;> rw [hb] at h1 h2 hpitch <;> omega

/-- The bytes of a pixel that the loops visit, when the visited columns lie in `0 .. Wd-1` and
a row is at least `Wd` pixels long: they are those the loop body leaves when applied to the
memory before the call. -/
theorem RasterizeTriangle_visited (G : Context) (sh : ColShifts) (v0 v1 v2 : ImDrawVert)
    (tex_id : Nat) (clip : ImVec4) (ox oy : ℚ) (p0 p1 p2 : ImVec2)
    (hp0 : p0 = vertexPos v0 ox oy) (hp1 : p1 = vertexPos v1 ox oy)
    (hp2 : p2 = vertexPos v2 ox oy) (Wd : Int)
    (hpitch : bytesPerPixel G.Format * Wd ≤ G.Pitch)
    (hlo : 0 ≤ castInt (clippedBox p0 p1 p2 clip).x)
    (hhi : castInt (clippedBox p0 p1 p2 clip).z ≤ Wd)
    (hbox : ¬ ((clippedBox p0 p1 p2 clip).z ≤ (clippedBox p0 p1 p2 clip).x ∨
      (clippedBox p0 p1 p2 clip).w ≤ (clippedBox p0 p1 p2 clip).y))
    (harea : signedArea p0 p1 p2 ≠ 0) (x y : Int)
    (hy : y ∈ intRange (castInt (clippedBox p0 p1 p2 clip).y)
      (castInt (clippedBox p0 p1 p2 clip).w))
    (hx : x ∈ intRange (castInt (clippedBox p0 p1 p2 clip).x)
      (castInt (clippedBox p0 p1 p2 clip).z))
    (a : Int) (ha : inPixel G x y a) :
    (RasterizeTriangle G sh v0 v1 v2 tex_id clip ox oy).Pixels a =
      RasterizePixel G v0 v1 v2 tex_id (MakeEdge p1 p2) (MakeEdge p2 p0) (MakeEdge p0 p1)
        (fdiv 1 (signedArea p0 p1 p2)) (UnpackColor sh v0.col) (UnpackColor sh v1.col)
        (UnpackColor sh v2.col) (bytesPerPixel G.Format) G.Pixels y x a := by
  subst hp0 hp1 hp2
  rw [RasterizeTriangle_pixels, if_neg hbox, if_neg harea]
  have hcol : ∀ q ∈ (intRange
      (castInt (clippedBox (vertexPos v0 ox oy) (vertexPos v1 ox oy) (vertexPos v2 ox oy)
        clip).y)
      (castInt (clippedBox (vertexPos v0 ox oy) (vertexPos v1 ox oy) (vertexPos v2 ox oy)
        clip).w)) ×ˢ
      (intRange
        (castInt (clippedBox (vertexPos v0 ox oy) (vertexPos v1 ox oy) (vertexPos v2 ox oy)
          clip).x)
        (castInt (clippedBox (vertexPos v0 ox oy) (vertexPos v1 ox oy) (vertexPos v2 ox oy)
          clip).z)), 0 ≤ q.2 ∧ q.2 < Wd := by
    rintro ⟨qy, qx⟩ hq
    rw [List.mem_product, mem_intRange, mem_intRange] at hq
    simp only
    omega
  exact foldl_local
    (fun m (q : Int × Int) => RasterizePixel G v0 v1 v2 tex_id _ _ _ _ _ _ _
      (bytesPerPixel G.Format) m q.1 q.2)
    (fun q b => inPixel G q.2 q.1 b)
    (fun m q b hb => RasterizePixel_frame G v0 v1 v2 tex_id _ _ _ _ _ _ _ m q.1 q.2 b hb)
    (fun m1 m2 q hq b hb =>
      RasterizePixel_local G v0 v1 v2 tex_id _ _ _ _ _ _ _ m1 m2 q.1 q.2 hq b hb)
    _ (List.Nodup.product (nodup_intRange _ _) (nodup_intRange _ _))
    (fun q1 hq1 q2 hq2 hne b hb =>
      inPixel_disjoint G Wd hpitch (hcol q1 hq1) (hcol q2 hq2) hne b hb)
    G.Pixels (y, x) (List.mem_product.mpr ⟨hy, hx⟩) a ha

/-- The bytes of a pixel of columns `0 .. Wd-1` that is not visited, or is visited and
skipped, are unchanged, when the visited columns lie in `0 .. Wd-1` and a row is at least
`Wd` pixels long. -/
theorem RasterizeTriangle_untouched (G : Context) (sh : ColShifts) (v0 v1 v2 : ImDrawVert)
    (tex_id : Nat) (clip : ImVec4) (ox oy : ℚ) (p0 p1 p2 : ImVec2)
    (hp0 : p0 = vertexPos v0 ox oy) (hp1 : p1 = vertexPos v1 ox oy)
    (hp2 : p2 = vertexPos v2 ox oy) (Wd : Int)
    (hpitch : bytesPerPixel G.Format * Wd ≤ G.Pitch)
    (hlo : 0 ≤ castInt (clippedBox p0 p1 p2 clip).x)
    (hhi : castInt (clippedBox p0 p1 p2 clip).z ≤ Wd)
    (x y : Int) (hx : 0 ≤ x ∧ x < Wd)
    (hskip : (y ∈ intRange (castInt (clippedBox p0 p1 p2 clip).y)
        (castInt (clippedBox p0 p1 p2 clip).w) ∧
      x ∈ intRange (castInt (clippedBox p0 p1 p2 clip).x)
        (castInt (clippedBox p0 p1 p2 clip).z)) →
      edgeAt p1 p2 x y < 0 ∨ edgeAt p2 p0 x y < 0 ∨ edgeAt p0 p1 x y < 0)
    (a : Int) (ha : inPixel G x y a) :
    (RasterizeTriangle G sh v0 v1 v2 tex_id clip ox oy).Pixels a = G.Pixels a := by
  subst hp0 hp1 hp2
  rw [RasterizeTriangle_pixels]
  split
  · rfl
  · split
    · rfl
    · apply foldl_frame
      rintro ⟨qy, qx⟩ hq m2
      rw [List.mem_product] at hq
      by_cases heq : (qy, qx) = (y, x)
      · obtain ⟨rfl, rfl⟩ := Prod.mk.inj heq
        simp only
        rw [RasterizePixel_skip G v0 v1 v2 tex_id _ _ _ _ _ _ _ _ m2 qy qx (hskip hq)]
      · apply RasterizePixel_frame
        have hq2 := hq.2
        rw [mem_intRange] at hq2
        exact fun hin => inPixel_disjoint G Wd hpitch hx ⟨by omega, by omega⟩
          (fun h => heq h.symm) a ha hin

/-! ## The rasterizer: the bytes of a shaded pixel -/

theorem WriteDestPixel_rgba_bytes (m : Mem) (dst : Int) (r g b a : Int) :
    WriteDestPixel m dst PixelFormat.RGBA32 r g b a dst = castU8 r ∧
    WriteDestPixel m dst PixelFormat.RGBA32 r g b a (dst + 1) = castU8 g ∧
    WriteDestPixel m dst PixelFormat.RGBA32 r g b a (dst + 2) = castU8 b ∧
    WriteDestPixel m dst PixelFormat.RGBA32 r g b a (dst + 3) = castU8 a := by
  have n1 : ¬ (dst = dst + 1) := by omega
  have n2 : ¬ (dst = dst + 2) := by omega
  have n3 : ¬ (dst = dst + 3) := by omega
  have n4 : ¬ (dst + 1 = dst + 2) := by omega
  have n5 : ¬ (dst + 1 = dst + 3) := by omega
  have n6 : ¬ (dst + 2 = dst + 3) := by omega
  simp only [WriteDestPixel, poke, n1, n2, n3, n4, n5, n6, if_true, if_false, and_self]

/-- The four bytes of an RGBA32 pixel that the loops visit and that passes the inside test,
when `BlendPixel` receives colour channels in `0..255` and the alpha 255: the pixel holds the
three channels and 255.  The visited columns lie in `0 .. Wd-1` and a row is at least `Wd`
pixels long. -/
theorem shaded_pixel_bytes (G : Context) (sh : ColShifts) (v0 v1 v2 : ImDrawVert)
    (tex_id : Nat) (clip : ImVec4) (ox oy : ℚ) (p0 p1 p2 : ImVec2)
    (hp0 : p0 = vertexPos v0 ox oy) (hp1 : p1 = vertexPos v1 ox oy)
    (hp2 : p2 = vertexPos v2 ox oy)
    (hfmt : G.Format = PixelFormat.RGBA32)
    (harea : signedArea p0 p1 p2 ≠ 0) (Wd : Int) (hpitch : 4 * Wd ≤ G.Pitch)
    (hlo : 0 ≤ castInt (clippedBox p0 p1 p2 clip).x)
    (hhi : castInt (clippedBox p0 p1 p2 clip).z ≤ Wd)
    (hnd : ¬ ((clippedBox p0 p1 p2 clip).z ≤ (clippedBox p0 p1 p2 clip).x ∨
      (clippedBox p0 p1 p2 clip).w ≤ (clippedBox p0 p1 p2 clip).y))
    (x y : Int)
    (hy : y ∈ intRange (castInt (clippedBox p0 p1 p2 clip).y)
      (castInt (clippedBox p0 p1 p2 clip).w))
    (hx : x ∈ intRange (castInt (clippedBox p0 p1 p2 clip).x)
      (castInt (clippedBox p0 p1 p2 clip).z))
    (h0 : 0 ≤ edgeAt p1 p2 x y) (h1 : 0 ≤ edgeAt p2 p0 x y) (h2 : 0 ≤ edgeAt p0 p1 x y)
    (hr : 0 ≤ (blendArgs G sh v0 v1 v2 tex_id ox oy y x).r ∧
      (blendArgs G sh v0 v1 v2 tex_id ox oy y x).r ≤ 255)
    (hg : 0 ≤ (blendArgs G sh v0 v1 v2 tex_id ox oy y x).g ∧
      (blendArgs G sh v0 v1 v2 tex_id ox oy y x).g ≤ 255)
    (hb : 0 ≤ (blendArgs G sh v0 v1 v2 tex_id ox oy y x).b ∧
      (blendArgs G sh v0 v1 v2 tex_id ox oy y x).b ≤ 255)
    (ha : (blendArgs G sh v0 v1 v2 tex_id ox oy y x).a = 255) :
    ((RasterizeTriangle G sh v0 v1 v2 tex_id clip ox oy).Pixels (y * G.Pitch + x * 4) : Int) =
      (blendArgs G sh v0 v1 v2 tex_id ox oy y x).r ∧
    ((RasterizeTriangle G sh v0 v1 v2 tex_id clip ox oy).Pixels (y * G.Pitch + x * 4 + 1)
        : Int) = (blendArgs G sh v0 v1 v2 tex_id ox oy y x).g ∧
    ((RasterizeTriangle G sh v0 v1 v2 tex_id clip ox oy).Pixels (y * G.Pitch + x * 4 + 2)
        : Int) = (blendArgs G sh v0 v1 v2 tex_id ox oy y x).b ∧
    (RasterizeTriangle G sh v0 v1 v2 tex_id clip ox oy).Pixels (y * G.Pitch + x * 4 + 3)
      = 255 := by
  have hbpp : bytesPerPixel G.Format = 4 := by rw [hfmt]; rfl
  have hpitch2 : bytesPerPixel G.Format * Wd ≤ G.Pitch := by rw [hbpp]; exact hpitch
  have hpix : ∀ (k : Int), 0 ≤ k → k < 4 → inPixel G x y (y * G.Pitch + x * 4 + k) := by
    intro k hk0 hk1
    unfold inPixel
    rw [hbpp]
    omega
  have hval := fun (k : Int) (hk0 : 0 ≤ k) (hk1 : k < 4) =>
    RasterizeTriangle_visited G sh v0 v1 v2 tex_id clip ox oy p0 p1 p2 hp0 hp1 hp2 Wd
      hpitch2 hlo hhi hnd harea x y hy hx (y * G.Pitch + x * 4 + k) (hpix k hk0 hk1)
  have hin : insideTest (MakeEdge p1 p2) (MakeEdge p2 p0) (MakeEdge p0 p1) y x = true :=
    (insideTest_iff p0 p1 p2 y x).mpr ⟨h0, h1, h2⟩
  have hargs : shadeArgs G v0 v1 v2 tex_id (MakeEdge p1 p2) (MakeEdge p2 p0) (MakeEdge p0 p1)
      (fdiv 1 (signedArea p0 p1 p2)) (UnpackColor sh v0.col) (UnpackColor sh v1.col)
      (UnpackColor sh v2.col) y x = blendArgs G sh v0 v1 v2 tex_id ox oy y x := by
    subst hp0 hp1 hp2
    rfl
  have hpv : RasterizePixel G v0 v1 v2 tex_id (MakeEdge p1 p2) (MakeEdge p2 p0) (MakeEdge p0 p1)
      (fdiv 1 (signedArea p0 p1 p2)) (UnpackColor sh v0.col) (UnpackColor sh v1.col)
      (UnpackColor sh v2.col) (bytesPerPixel G.Format) G.Pixels y x =
      WriteDestPixel G.Pixels (y * G.Pitch + x * 4) PixelFormat.RGBA32
        (blendArgs G sh v0 v1 v2 tex_id ox oy y x).r (blendArgs G sh v0 v1 v2 tex_id ox oy y x).g
        (blendArgs G sh v0 v1 v2 tex_id ox oy y x).b 255 := by
    rw [RasterizePixel_eq, if_pos hin, hargs, ha, hbpp, hfmt]
    exact BlendPixel_alpha255 G.Pixels _ PixelFormat.RGBA32 hr.1 hg.1 hb.1
  have hw := WriteDestPixel_rgba_bytes G.Pixels (y * G.Pitch + x * 4)
    (blendArgs G sh v0 v1 v2 tex_id ox oy y x).r (blendArgs G sh v0 v1 v2 tex_id ox oy y x).g
    (blendArgs G sh v0 v1 v2 tex_id ox oy y x).b 255
  have v0' := hval 0 (by decide) (by decide)
  have v1' := hval 1 (by decide) (by decide)
  have v2' := hval 2 (by decide) (by decide)
  have v3' := hval 3 (by decide) (by decide)
  rw [add_zero] at v0'
  rw [hpv] at v0' v1' v2' v3'
  rw [v0', v1', v2', v3', hw.1, hw.2.1, hw.2.2.1, hw.2.2.2]
  exact ⟨castU8_of_range hr.1 hr.2, castU8_of_range hg.1 hg.2, castU8_of_range hb.1 hb.2, rfl⟩

/-- C15, as amended. Inside test, in the `float` arithmetic of the code: for every triangle
whose computed signed area is not zero and every integer pixel `(x, y)` in the range of the
two loops (its clipped bounding box), `RasterizeTriangle` shades the pixel, that is calls
`BlendPixel` on it, if and only if the three edge values that the loop body computes at the
pixel centre, `EvalEdge(e, x + 0.5f, y + 0.5f)` for the three edges, are all `≥ 0`; and the
buffer after the call is the buffer before with `BlendPixel` applied at the shaded pixels, in
loop order. -/
theorem C15_inside_test_amended (G : Context) (sh : ColShifts) (v0 v1 v2 : ImDrawVert)
    (tex_id : Nat) (clip : ImVec4) (ox oy : ℚ)
    (p0 p1 p2 : ImVec2) (hp0 : p0 = vertexPos v0 ox oy) (hp1 : p1 = vertexPos v1 ox oy)
    (hp2 : p2 = vertexPos v2 ox oy) (x y : Int) (harea : signedArea p0 p1 p2 ≠ 0)
    (hy : y ∈ intRange (castInt (clippedBox p0 p1 p2 clip).y)
      (castInt (clippedBox p0 p1 p2 clip).w))
    (hx : x ∈ intRange (castInt (clippedBox p0 p1 p2 clip).x)
      (castInt (clippedBox p0 p1 p2 clip).z)) :
    ((y, x) ∈ shadedPixels v0 v1 v2 clip ox oy ↔
      0 ≤ edgeAt p1 p2 x y ∧ 0 ≤ edgeAt p2 p0 x y ∧ 0 ≤ edgeAt p0 p1 x y) ∧
    (RasterizeTriangle G sh v0 v1 v2 tex_id clip ox oy).Pixels =
      (shadedPixels v0 v1 v2 clip ox oy).foldl
        (fun m p => BlendPixel m (p.1 * G.Pitch + p.2 * bytesPerPixel G.Format) G.Format
          (blendArgs G sh v0 v1 v2 tex_id ox oy p.1 p.2).r
          (blendArgs G sh v0 v1 v2 tex_id ox oy p.1 p.2).g
          (blendArgs G sh v0 v1 v2 tex_id ox oy p.1 p.2).b
          (blendArgs G sh v0 v1 v2 tex_id ox oy p.1 p.2).a)
        G.Pixels := by
  refine ⟨?_, RasterizeTriangle_eq_shaded G sh v0 v1 v2 tex_id clip ox oy⟩
  rw [mem_shadedPixels v0 v1 v2 clip ox oy p0 p1 p2 hp0 hp1 hp2]
  constructor
  · rintro ⟨_, _, _, h⟩
    exact h
  · intro h
    exact ⟨harea, hy, hx, h⟩

/-! ## Binary32 arithmetic at concrete values -/

/-- Evaluation of `f32` at a literal that is a `float`. -/
theorem f32_exact_lit {q r : ℚ} (m e : Int) (hq : (m : ℚ) * 2 ^ e = q) (hm : |m| < 2 ^ 24)
    (he : -149 ≤ e) (hr : (m : ℚ) * 2 ^ e = r) : f32 q = r := by
  rw [← hq, f32_exact m e hm he, hr]

/-- Evaluation of `f32` at a positive literal that is not a tie. -/
theorem f32_eval_lit {q r : ℚ} (k n : Int) (hk : -149 ≤ k) (h1 : (2 : ℚ) ^ (k + 23) ≤ q)
    (h2 : q < (2 : ℚ) ^ (k + 24)) (h3 : (n : ℚ) - 1 / 2 < q / 2 ^ k)
    (h4 : q / 2 ^ k < (n : ℚ) + 1 / 2) (hr : (n : ℚ) * 2 ^ k = r) : f32 q = r := by
  rw [← hr]
  exact f32_eval k n hk h1 h2 h3 h4

/-- Evaluation of `f32` at a positive literal that is a tie. -/
theorem f32_tie_lit {q r : ℚ} (k n n2 : Int) (hk : -149 ≤ k) (h1 : (2 : ℚ) ^ (k + 23) ≤ q)
    (h2 : q < (2 : ℚ) ^ (k + 24)) (h3 : q / 2 ^ k = (n : ℚ) + 1 / 2)
    (hn : (if n % 2 = 0 then n else n + 1) = n2) (hr : (n2 : ℚ) * 2 ^ k = r) : f32 q = r := by
  rw [← hr, ← hn]
  exact f32_eval_tie k n hk h1 h2 h3

theorem f32_neg_div (a b : ℚ) : f32 (-a / b) = -f32 (a / b) := by
  rw [neg_div, f32_neg]

/-! ## The rasterizer at concrete inputs -/

theorem castInt_three_quarters : castInt (3 / 4 : ℚ) = 0 := by
  rw [castInt_of_nonneg (by norm_num), Int.floor_eq_iff]
  norm_num

theorem castInt_four : castInt (4 : ℚ) = 4 := by
  have := castInt_intCast 4
  simpa using this

theorem castInt_zero : castInt (0 : ℚ) = 0 := by
  have := castInt_intCast 0
  simpa using this

theorem castInt_one : castInt (1 : ℚ) = 1 := by
  have := castInt_intCast 1
  simpa using this

theorem castInt_two : castInt (2 : ℚ) = 2 := by
  have := castInt_intCast 2
  simpa using this

theorem whiteVertex_channels (x y : ℚ) :
    UnpackColor defaultShifts (whiteVertex x y).col = ⟨255, 255, 255, 255⟩ := by
  show UnpackColor defaultShifts 0xFFFFFFFF = ⟨255, 255, 255, 255⟩
  decide

/-- The white triangle `(0.5,0), (0.5,2), (0,1)`, which lies in `x ≤ 0.5`, drawn into a blank
4 x 4 RGBA32 buffer with the clip rectangle `(0.75, 0, 4, 4)`: the loops run over the pixel
column 0, the centre of the pixel `(0, 0)` lies on the edge `x = 0.5`, and the first byte of
that pixel becomes 255. -/
theorem clip_example_byte :
    (RasterizeTriangle (blankContext 4 4 ⟨12, 1, 2, 1⟩ []) defaultShifts (whiteVertex (1 / 2) 0)
      (whiteVertex (1 / 2) 2) (whiteVertex 0 1) 0 ⟨3 / 4, 0, 4, 4⟩ 0 0).Pixels 0 = 255 := by
  have f1 : f32 (1 / 2) = 1 / 2 :=
    f32_exact_lit 1 (-1) (by norm_num) (by norm_num) (by norm_num) (by norm_num)
  have f1i : f32 ((2 : ℚ)⁻¹) = 1 / 2 :=
    f32_exact_lit 1 (-1) (by norm_num) (by norm_num) (by norm_num) (by norm_num)
  have f2 : f32 (2) = 2 :=
    f32_exact_lit 1 (1) (by norm_num) (by norm_num) (by norm_num) (by norm_num)
  have f3 : f32 (1) = 1 :=
    f32_exact_lit 1 (0) (by norm_num) (by norm_num) (by norm_num) (by norm_num)
  have f4 : f32 (1 / 4) = 1 / 4 :=
    f32_exact_lit 1 (-2) (by norm_num) (by norm_num) (by norm_num) (by norm_num)
  have f4i : f32 ((4 : ℚ)⁻¹) = 1 / 4 :=
    f32_exact_lit 1 (-2) (by norm_num) (by norm_num) (by norm_num) (by norm_num)
  have f5 : f32 (3 / 4) = 3 / 4 :=
    f32_exact_lit 3 (-2) (by norm_num) (by norm_num) (by norm_num) (by norm_num)
  have f6 : f32 (255) = 255 :=
    f32_exact_lit 255 (0) (by norm_num) (by norm_num) (by norm_num) (by norm_num)
  have f7 : f32 (765 / 4) = 765 / 4 :=
    f32_exact_lit 765 (-2) (by norm_num) (by norm_num) (by norm_num) (by norm_num)
  have f8 : f32 (255 / 4) = 255 / 4 :=
    f32_exact_lit 255 (-2) (by norm_num) (by norm_num) (by norm_num) (by norm_num)
  have f9 : f32 (511 / 2) = 511 / 2 :=
    f32_exact_lit 511 (-1) (by norm_num) (by norm_num) (by norm_num) (by norm_num)
  have c1 : castInt (511 / 2) = 255 := by
    rw [castInt_of_nonneg (by norm_num), Int.floor_eq_iff]
    norm_num
  have hc : ⌈(2⁻¹ : ℚ)⌉ = 1 := by
    rw [Int.ceil_eq_iff]
    norm_num
  have hc2 : ⌈(1 / 2 : ℚ)⌉ = 1 := by
    rw [Int.ceil_eq_iff]
    norm_num
  have hb : clippedBox (vertexPos (whiteVertex (1 / 2) 0) 0 0)
      (vertexPos (whiteVertex (1 / 2) 2) 0 0) (vertexPos (whiteVertex 0 1) 0 0)
      ⟨3 / 4, 0, 4, 4⟩ = ⟨3 / 4, 0, 1, 2⟩ := by
    norm_num [clippedBox, vertexPos, whiteVertex, fsub, f32_zero, hc, hc2, f1, f1i, f2, f3, f4, f4i, f5, f6, f7, f8, f9, c1]
  have harea : signedArea (vertexPos (whiteVertex (1 / 2) 0) 0 0)
      (vertexPos (whiteVertex (1 / 2) 2) 0 0) (vertexPos (whiteVertex 0 1) 0 0) = 1 := by
    norm_num [EvalEdge, MakeEdge, vertexPos, signedArea, whiteVertex, fadd, fsub, fmul, fdiv, i2f, f32_zero, f32_neg, f32_neg_div, f1, f1i, f2, f3, f4, f4i, f5, f6, f7, f8, f9, c1]
  have e0 : edgeAt (vertexPos (whiteVertex (1 / 2) 2) 0 0) (vertexPos (whiteVertex 0 1) 0 0) 0 0
      = 3 / 4 := by
    norm_num [edgeAt, EvalEdge, MakeEdge, vertexPos, signedArea, whiteVertex, fadd, fsub, fmul, fdiv, i2f, f32_zero, f32_neg, f32_neg_div, f1, f1i, f2, f3, f4, f4i, f5, f6, f7, f8, f9, c1]
  have e1 : edgeAt (vertexPos (whiteVertex 0 1) 0 0) (vertexPos (whiteVertex (1 / 2) 0) 0 0) 0 0
      = 1 / 4 := by
    norm_num [edgeAt, EvalEdge, MakeEdge, vertexPos, signedArea, whiteVertex, fadd, fsub, fmul, fdiv, i2f, f32_zero, f32_neg, f32_neg_div, f1, f1i, f2, f3, f4, f4i, f5, f6, f7, f8, f9, c1]
  have e2 : edgeAt (vertexPos (whiteVertex (1 / 2) 0) 0 0)
      (vertexPos (whiteVertex (1 / 2) 2) 0 0) 0 0 = 0 := by
    norm_num [edgeAt, EvalEdge, MakeEdge, vertexPos, signedArea, whiteVertex, fadd, fsub, fmul, fdiv, i2f, f32_zero, f32_neg, f32_neg_div, f1, f1i, f2, f3, f4, f4i, f5, f6, f7, f8, f9, c1]
  have htex : Unregistered (blankContext 4 4 ⟨12, 1, 2, 1⟩ []) 0 := by
    simp [Unregistered, blankContext]
  have hargs : blendArgs (blankContext 4 4 ⟨12, 1, 2, 1⟩ []) defaultShifts (whiteVertex (1 / 2) 0) (whiteVertex (1 / 2) 2) (whiteVertex 0 1) 0 0 0 0 0 = ⟨255, 255, 255, 255⟩ := by
    simp only [blendArgs, shadeArgs, SampleTextureAlpha_unregistered _ _ _ _ htex,
      whiteVertex_channels]
    norm_num [EvalEdge, MakeEdge, vertexPos, signedArea, whiteVertex, fadd, fsub, fmul, fdiv, i2f, f32_zero, f32_neg, f32_neg_div, f1, f1i, f2, f3, f4, f4i, f5, f6, f7, f8, f9, c1]
  have h := shaded_pixel_bytes (blankContext 4 4 ⟨12, 1, 2, 1⟩ []) defaultShifts
    (whiteVertex (1 / 2) 0) (whiteVertex (1 / 2) 2) (whiteVertex 0 1) 0 ⟨3 / 4, 0, 4, 4⟩ 0 0
    _ _ _ rfl rfl rfl rfl
    (by rw [harea]; norm_num) 4 (by decide)
    (by rw [hb]; simp only; rw [castInt_three_quarters])
    (by rw [hb]; simp only; rw [castInt_one]; decide)
    (by rw [hb]; norm_num) 0 0
    (by rw [hb]; simp only; rw [castInt_zero, castInt_two, mem_intRange]; decide)
    (by rw [hb]; simp only; rw [castInt_three_quarters, castInt_one, mem_intRange]; decide)
    (by rw [e0]; norm_num) (by rw [e1]; norm_num) (by rw [e2])
    (by rw [hargs]; decide) (by rw [hargs]; decide) (by rw [hargs]; decide) (by rw [hargs])
  have h1 := h.1
  rw [hargs] at h1
  simp only [zero_mul, add_zero] at h1
  exact_mod_cast h1

/-- Witness of the amended C2 at the byte 0 of the 4 x 4 example with the clip rectangle
`(0.75, 0, 4, 4)`. -/
theorem C2_clip_amended_witness :
    ∃ px py : Int, inPixel (blankContext 4 4 ⟨12, 1, 2, 1⟩ []) px py 0 ∧
      (⟨3 / 4, 0, 4, 4⟩ : ImVec4).x < (px : ℚ) + 1 ∧ (px : ℚ) < (⟨3 / 4, 0, 4, 4⟩ : ImVec4).z ∧
      (⟨3 / 4, 0, 4, 4⟩ : ImVec4).y < (py : ℚ) + 1 ∧ (py : ℚ) < (⟨3 / 4, 0, 4, 4⟩ : ImVec4).w ∧
      (0 ≤ (⟨3 / 4, 0, 4, 4⟩ : ImVec4).z → (px : ℚ) + 1 ≤ (⟨3 / 4, 0, 4, 4⟩ : ImVec4).z) ∧
      (0 ≤ (⟨3 / 4, 0, 4, 4⟩ : ImVec4).w → (py : ℚ) + 1 ≤ (⟨3 / 4, 0, 4, 4⟩ : ImVec4).w) :=
  (C2_clip_amended (blankContext 4 4 ⟨12, 1, 2, 1⟩ []) defaultShifts (whiteVertex (1 / 2) 0)
    (whiteVertex (1 / 2) 2) (whiteVertex 0 1) 0 ⟨3 / 4, 0, 4, 4⟩ 0 0).1 0
    (by
      rw [clip_example_byte]
      show (255 : Nat) ≠ 0
      decide)

/-- C2, the claim as stated fails, in both of its parts: the white triangle
`(0.5,0), (0.5,2), (0,1)` drawn into a blank 4 x 4 RGBA32 buffer with the clip rectangle
`(0.75, 0, 4, 4)` changes the first byte of the pixel `(0, 0)` from 0 to 255, although the
centre `0 + 0.5` of that pixel is left of the clip edge `x = 0.75`, and although the bounding
box of the triangle, whose greatest `x` is 0.5, does not reach the clip rectangle. -/
theorem C2_clip_counterexample :
    inPixel (blankContext 4 4 ⟨12, 1, 2, 1⟩ []) 0 0 0 ∧
    (blankContext 4 4 ⟨12, 1, 2, 1⟩ []).Pixels 0 = 0 ∧
    (RasterizeTriangle (blankContext 4 4 ⟨12, 1, 2, 1⟩ []) defaultShifts (whiteVertex (1 / 2) 0)
      (whiteVertex (1 / 2) 2) (whiteVertex 0 1) 0 ⟨3 / 4, 0, 4, 4⟩ 0 0).Pixels 0 = 255 ∧
    ¬ ((⟨3 / 4, 0, 4, 4⟩ : ImVec4).x ≤ ((0 : Int) : ℚ) + 1 / 2) ∧
    max (vertexPos (whiteVertex (1 / 2) 0) 0 0).x
      (max (vertexPos (whiteVertex (1 / 2) 2) 0 0).x (vertexPos (whiteVertex 0 1) 0 0).x)
      < (⟨3 / 4, 0, 4, 4⟩ : ImVec4).x := by
  have fh : f32 (1 / 2) = 1 / 2 :=
    f32_exact_lit 1 (-1) (by norm_num) (by norm_num) (by norm_num) (by norm_num)
  have fhi : f32 (2 : ℚ)⁻¹ = 1 / 2 :=
    f32_exact_lit 1 (-1) (by norm_num) (by norm_num) (by norm_num) (by norm_num)
  refine ⟨?_, rfl, clip_example_byte, ?_, ?_⟩
  · simp [inPixel, blankContext, bytesPerPixel]
  · norm_num
  · norm_num [vertexPos, whiteVertex, fsub, f32_zero, fh, fhi]

/-- The white triangle `(0,0), (4,0), (0,4)` at the pixel `(0, 0)`, in the `float` arithmetic
of the code: the computed area is 16, the three computed edge values are 12, 2 and 2, and
`BlendPixel` receives `(255, 255, 255, 255)`. -/
theorem white_triangle_origin :
    signedArea (vertexPos (whiteVertex 0 0) 0 0) (vertexPos (whiteVertex 4 0) 0 0)
      (vertexPos (whiteVertex 0 4) 0 0) = 16 ∧
    edgeAt (vertexPos (whiteVertex 4 0) 0 0) (vertexPos (whiteVertex 0 4) 0 0) 0 0 = 12 ∧
    edgeAt (vertexPos (whiteVertex 0 4) 0 0) (vertexPos (whiteVertex 0 0) 0 0) 0 0 = 2 ∧
    edgeAt (vertexPos (whiteVertex 0 0) 0 0) (vertexPos (whiteVertex 4 0) 0 0) 0 0 = 2 ∧
    blendArgs (blankContext 4 4 ⟨12, 1, 2, 1⟩ []) defaultShifts (whiteVertex 0 0) (whiteVertex 4 0) (whiteVertex 0 4) 0 0 0 0 0 = ⟨255, 255, 255, 255⟩ := by
  have f1 : f32 (4) = 4 :=
    f32_exact_lit 1 (2) (by norm_num) (by norm_num) (by norm_num) (by norm_num)
  have f2 : f32 (16) = 16 :=
    f32_exact_lit 1 (4) (by norm_num) (by norm_num) (by norm_num) (by norm_num)
  have f3 : f32 (1 / 16) = 1 / 16 :=
    f32_exact_lit 1 (-4) (by norm_num) (by norm_num) (by norm_num) (by norm_num)
  have f3i : f32 ((16 : ℚ)⁻¹) = 1 / 16 :=
    f32_exact_lit 1 (-4) (by norm_num) (by norm_num) (by norm_num) (by norm_num)
  have f4 : f32 (1 / 2) = 1 / 2 :=
    f32_exact_lit 1 (-1) (by norm_num) (by norm_num) (by norm_num) (by norm_num)
  have f4i : f32 ((2 : ℚ)⁻¹) = 1 / 2 :=
    f32_exact_lit 1 (-1) (by norm_num) (by norm_num) (by norm_num) (by norm_num)
  have f5 : f32 (2) = 2 :=
    f32_exact_lit 1 (1) (by norm_num) (by norm_num) (by norm_num) (by norm_num)
  have f6 : f32 (12) = 12 :=
    f32_exact_lit 3 (2) (by norm_num) (by norm_num) (by norm_num) (by norm_num)
  have f7 : f32 (3 / 4) = 3 / 4 :=
    f32_exact_lit 3 (-2) (by norm_num) (by norm_num) (by norm_num) (by norm_num)
  have f8 : f32 (1 / 8) = 1 / 8 :=
    f32_exact_lit 1 (-3) (by norm_num) (by norm_num) (by norm_num) (by norm_num)
  have f8i : f32 ((8 : ℚ)⁻¹) = 1 / 8 :=
    f32_exact_lit 1 (-3) (by norm_num) (by norm_num) (by norm_num) (by norm_num)
  have f9 : f32 (255) = 255 :=
    f32_exact_lit 255 (0) (by norm_num) (by norm_num) (by norm_num) (by norm_num)
  have f10 : f32 (765 / 4) = 765 / 4 :=
    f32_exact_lit 765 (-2) (by norm_num) (by norm_num) (by norm_num) (by norm_num)
  have f11 : f32 (255 / 8) = 255 / 8 :=
    f32_exact_lit 255 (-3) (by norm_num) (by norm_num) (by norm_num) (by norm_num)
  have f12 : f32 (1785 / 8) = 1785 / 8 :=
    f32_exact_lit 1785 (-3) (by norm_num) (by norm_num) (by norm_num) (by norm_num)
  have f13 : f32 (511 / 2) = 511 / 2 :=
    f32_exact_lit 511 (-1) (by norm_num) (by norm_num) (by norm_num) (by norm_num)
  have c1 : castInt (511 / 2) = 255 := by
    rw [castInt_of_nonneg (by norm_num), Int.floor_eq_iff]
    norm_num
  have htex : Unregistered (blankContext 4 4 ⟨12, 1, 2, 1⟩ []) 0 := by
    simp [Unregistered, blankContext]
  refine ⟨?_, ?_, ?_, ?_, ?_⟩
  · norm_num [EvalEdge, MakeEdge, vertexPos, signedArea, whiteVertex, fadd, fsub, fmul, fdiv, i2f, f32_zero, f32_neg, f32_neg_div, f1, f2, f3, f3i, f4, f4i, f5, f6, f7, f8, f8i, f9, f10, f11, f12, f13, c1]
  · norm_num [edgeAt, EvalEdge, MakeEdge, vertexPos, signedArea, whiteVertex, fadd, fsub, fmul, fdiv, i2f, f32_zero, f32_neg, f32_neg_div, f1, f2, f3, f3i, f4, f4i, f5, f6, f7, f8, f8i, f9, f10, f11, f12, f13, c1]
  · norm_num [edgeAt, EvalEdge, MakeEdge, vertexPos, signedArea, whiteVertex, fadd, fsub, fmul, fdiv, i2f, f32_zero, f32_neg, f32_neg_div, f1, f2, f3, f3i, f4, f4i, f5, f6, f7, f8, f8i, f9, f10, f11, f12, f13, c1]
  · norm_num [edgeAt, EvalEdge, MakeEdge, vertexPos, signedArea, whiteVertex, fadd, fsub, fmul, fdiv, i2f, f32_zero, f32_neg, f32_neg_div, f1, f2, f3, f3i, f4, f4i, f5, f6, f7, f8, f8i, f9, f10, f11, f12, f13, c1]
  · simp only [blendArgs, shadeArgs, SampleTextureAlpha_unregistered _ _ _ _ htex,
      whiteVertex_channels]
    norm_num [EvalEdge, MakeEdge, vertexPos, signedArea, whiteVertex, fadd, fsub, fmul, fdiv, i2f, f32_zero, f32_neg, f32_neg_div, f1, f2, f3, f3i, f4, f4i, f5, f6, f7, f8, f8i, f9, f10, f11, f12, f13, c1]

theorem clippedBox_example :
    clippedBox (vertexPos (whiteVertex 0 0) 0 0) (vertexPos (whiteVertex 4 0) 0 0)
      (vertexPos (whiteVertex 0 4) 0 0) ⟨0, 0, 4, 4⟩ = ⟨0, 0, 4, 4⟩ := by
  have f4 : f32 4 = 4 :=
    f32_exact_lit 1 2 (by norm_num) (by norm_num) (by norm_num) (by norm_num)
  norm_num [clippedBox, vertexPos, whiteVertex, fsub, f32_zero, f4]

/-- The white triangle `(1900.75, 1070.75), (1900.25, 1072.75), (1900.25, 1070.75)` (a right
triangle with legs 0.5 and 2) in the `float` arithmetic of the code: the computed area is
`7/8`; at the pixel `(1900, 1070)` the computed edge values are `1/2`, `0`, `1/2`, at the
pixel `(1900, 1071)` they are `1/2`, `1/2`, `0`, and at both pixels `BlendPixel` receives
`(291, 291, 291, 291)`. -/
theorem thin_triangle_float :
    signedArea (vertexPos (whiteVertex (7603 / 4) (4283 / 4)) 0 0)
      (vertexPos (whiteVertex (7601 / 4) (4291 / 4)) 0 0)
      (vertexPos (whiteVertex (7601 / 4) (4283 / 4)) 0 0) = 7 / 8 ∧
    (edgeAt (vertexPos (whiteVertex (7601 / 4) (4291 / 4)) 0 0)
        (vertexPos (whiteVertex (7601 / 4) (4283 / 4)) 0 0) 1900 1070 = 1 / 2 ∧
      edgeAt (vertexPos (whiteVertex (7601 / 4) (4283 / 4)) 0 0)
        (vertexPos (whiteVertex (7603 / 4) (4283 / 4)) 0 0) 1900 1070 = 0 ∧
      edgeAt (vertexPos (whiteVertex (7603 / 4) (4283 / 4)) 0 0)
        (vertexPos (whiteVertex (7601 / 4) (4291 / 4)) 0 0) 1900 1070 = 1 / 2) ∧
    (edgeAt (vertexPos (whiteVertex (7601 / 4) (4291 / 4)) 0 0)
        (vertexPos (whiteVertex (7601 / 4) (4283 / 4)) 0 0) 1900 1071 = 1 / 2 ∧
      edgeAt (vertexPos (whiteVertex (7601 / 4) (4283 / 4)) 0 0)
        (vertexPos (whiteVertex (7603 / 4) (4283 / 4)) 0 0) 1900 1071 = 1 / 2 ∧
      edgeAt (vertexPos (whiteVertex (7603 / 4) (4283 / 4)) 0 0)
        (vertexPos (whiteVertex (7601 / 4) (4291 / 4)) 0 0) 1900 1071 = 0) ∧
    blendArgs (blankContext 1920 1080 ⟨12, 1, 2, 1⟩ []) defaultShifts (whiteVertex (7603 / 4) (4283 / 4))
      (whiteVertex (7601 / 4) (4291 / 4)) (whiteVertex (7601 / 4) (4283 / 4)) 0 0 0 1070 1900 =
        ⟨291, 291, 291, 291⟩ ∧
    blendArgs (blankContext 1920 1080 ⟨12, 1, 2, 1⟩ []) defaultShifts (whiteVertex (7603 / 4) (4283 / 4))
      (whiteVertex (7601 / 4) (4291 / 4)) (whiteVertex (7601 / 4) (4283 / 4)) 0 0 0 1071 1900 =
        ⟨291, 291, 291, 291⟩ := by
  have f1 : f32 (7603 / 4) = 7603 / 4 :=
    f32_exact_lit 7603 (-2) (by norm_num) (by norm_num) (by norm_num) (by norm_num)
  have f2 : f32 (4283 / 4) = 4283 / 4 :=
    f32_exact_lit 4283 (-2) (by norm_num) (by norm_num) (by norm_num) (by norm_num)
  have f3 : f32 (7601 / 4) = 7601 / 4 :=
    f32_exact_lit 7601 (-2) (by norm_num) (by norm_num) (by norm_num) (by norm_num)
  have f4 : f32 (4291 / 4) = 4291 / 4 :=
    f32_exact_lit 4291 (-2) (by norm_num) (by norm_num) (by norm_num) (by norm_num)
  have f5 : f32 (2) = 2 :=
    f32_exact_lit 1 (1) (by norm_num) (by norm_num) (by norm_num) (by norm_num)
  have f6 : f32 (32555083 / 16) = 8138771 / 4 :=
    f32_tie_lit (-3) 16277541 16277542 (by norm_num) (by norm_num) (by norm_num) (by norm_num) (by decide) (by norm_num)
  have f7 : f32 (32615891 / 16) = 8153973 / 4 :=
    f32_tie_lit (-3) 16307945 16307946 (by norm_num) (by norm_num) (by norm_num) (by norm_num) (by decide) (by norm_num)
  have f8 : f32 (7601 / 2) = 7601 / 2 :=
    f32_exact_lit 7601 (-1) (by norm_num) (by norm_num) (by norm_num) (by norm_num)
  have f9 : f32 (1 / 2) = 1 / 2 :=
    f32_exact_lit 1 (-1) (by norm_num) (by norm_num) (by norm_num) (by norm_num)
  have f9i : f32 ((2 : ℚ)⁻¹) = 1 / 2 :=
    f32_exact_lit 1 (-1) (by norm_num) (by norm_num) (by norm_num) (by norm_num)
  have f10 : f32 (32563649 / 16) = 2035228 :=
    f32_tie_lit (-3) 16281824 16281824 (by norm_num) (by norm_num) (by norm_num) (by norm_num) (by decide) (by norm_num)
  have f11 : f32 (2141 / 4) = 2141 / 4 :=
    f32_exact_lit 2141 (-2) (by norm_num) (by norm_num) (by norm_num) (by norm_num)
  have f12 : f32 (32624473 / 16) = 4078059 / 2 :=
    f32_tie_lit (-3) 16312236 16312236 (by norm_num) (by norm_num) (by norm_num) (by norm_num) (by decide) (by norm_num)
  have f13 : f32 (17347 / 4) = 17347 / 4 :=
    f32_exact_lit 17347 (-2) (by norm_num) (by norm_num) (by norm_num) (by norm_num)
  have f14 : f32 (4283 / 8) = 4283 / 8 :=
    f32_exact_lit 4283 (-3) (by norm_num) (by norm_num) (by norm_num) (by norm_num)
  have f15 : f32 (34687 / 8) = 34687 / 8 :=
    f32_exact_lit 34687 (-3) (by norm_num) (by norm_num) (by norm_num) (by norm_num)
  have f16 : f32 (7 / 8) = 7 / 8 :=
    f32_exact_lit 7 (-3) (by norm_num) (by norm_num) (by norm_num) (by norm_num)
  have f17 : f32 (8 / 7) = 9586981 / 8388608 :=
    f32_eval_lit (-23) 9586981 (by norm_num) (by norm_num) (by norm_num) (by norm_num) (by norm_num) (by norm_num)
  have f18 : f32 (1900) = 1900 :=
    f32_exact_lit 475 (2) (by norm_num) (by norm_num) (by norm_num) (by norm_num)
  have f19 : f32 (3801 / 2) = 3801 / 2 :=
    f32_exact_lit 3801 (-1) (by norm_num) (by norm_num) (by norm_num) (by norm_num)
  have f20 : f32 (1070) = 1070 :=
    f32_exact_lit 535 (1) (by norm_num) (by norm_num) (by norm_num) (by norm_num)
  have f21 : f32 (2141 / 2) = 2141 / 2 :=
    f32_exact_lit 2141 (-1) (by norm_num) (by norm_num) (by norm_num) (by norm_num)
  have f22 : f32 (3801) = 3801 :=
    f32_exact_lit 3801 (0) (by norm_num) (by norm_num) (by norm_num) (by norm_num)
  have f23 : f32 (17345 / 4) = 17345 / 4 :=
    f32_exact_lit 17345 (-2) (by norm_num) (by norm_num) (by norm_num) (by norm_num)
  have f24 : f32 (9586981 / 16777216) = 9586981 / 16777216 :=
    f32_exact_lit 9586981 (-24) (by norm_num) (by norm_num) (by norm_num) (by norm_num)
  have f25 : f32 (255) = 255 :=
    f32_exact_lit 255 (0) (by norm_num) (by norm_num) (by norm_num) (by norm_num)
  have f26 : f32 (2444680155 / 16777216) = 2387383 / 16384 :=
    f32_eval_lit (-16) 9549532 (by norm_num) (by norm_num) (by norm_num) (by norm_num) (by norm_num) (by norm_num)
  have f27 : f32 (2387383 / 16384) = 2387383 / 16384 :=
    f32_exact_lit 2387383 (-14) (by norm_num) (by norm_num) (by norm_num) (by norm_num)
  have f28 : f32 (2387383 / 8192) = 2387383 / 8192 :=
    f32_exact_lit 2387383 (-13) (by norm_num) (by norm_num) (by norm_num) (by norm_num)
  have f29 : f32 (2391479 / 8192) = 2391479 / 8192 :=
    f32_exact_lit 2391479 (-13) (by norm_num) (by norm_num) (by norm_num) (by norm_num)
  have f30 : f32 (1071) = 1071 :=
    f32_exact_lit 1071 (0) (by norm_num) (by norm_num) (by norm_num) (by norm_num)
  have f31 : f32 (2143 / 2) = 2143 / 2 :=
    f32_exact_lit 2143 (-1) (by norm_num) (by norm_num) (by norm_num) (by norm_num)
  have f32 : f32 (2143 / 4) = 2143 / 4 :=
    f32_exact_lit 2143 (-2) (by norm_num) (by norm_num) (by norm_num) (by norm_num)
  have c1 : castInt (2391479 / 8192) = 291 := by
    rw [castInt_of_nonneg (by norm_num), Int.floor_eq_iff]
    norm_num
  have htex : Unregistered (blankContext 1920 1080 ⟨12, 1, 2, 1⟩ []) 0 := by
    simp [Unregistered, blankContext]
  refine ⟨?_, ⟨?_, ?_, ?_⟩, ⟨?_, ?_, ?_⟩, ?_, ?_⟩
  · norm_num [EvalEdge, MakeEdge, vertexPos, signedArea, whiteVertex, fadd, fsub, fmul, fdiv, i2f, f32_zero, f32_neg, f32_neg_div, f1, f2, f3, f4, f5, f6, f7, f8, f9, f9i, f10, f11, f12, f13, f14, f15, f16, f17, f18, f19, f20, f21, f22, f23, f24, f25, f26, f27, f28, f29, f30, f31, f32, c1]
  · norm_num [edgeAt, EvalEdge, MakeEdge, vertexPos, signedArea, whiteVertex, fadd, fsub, fmul, fdiv, i2f, f32_zero, f32_neg, f32_neg_div, f1, f2, f3, f4, f5, f6, f7, f8, f9, f9i, f10, f11, f12, f13, f14, f15, f16, f17, f18, f19, f20, f21, f22, f23, f24, f25, f26, f27, f28, f29, f30, f31, f32, c1]
  · norm_num [edgeAt, EvalEdge, MakeEdge, vertexPos, signedArea, whiteVertex, fadd, fsub, fmul, fdiv, i2f, f32_zero, f32_neg, f32_neg_div, f1, f2, f3, f4, f5, f6, f7, f8, f9, f9i, f10, f11, f12, f13, f14, f15, f16, f17, f18, f19, f20, f21, f22, f23, f24, f25, f26, f27, f28, f29, f30, f31, f32, c1]
  · norm_num [edgeAt, EvalEdge, MakeEdge, vertexPos, signedArea, whiteVertex, fadd, fsub, fmul, fdiv, i2f, f32_zero, f32_neg, f32_neg_div, f1, f2, f3, f4, f5, f6, f7, f8, f9, f9i, f10, f11, f12, f13, f14, f15, f16, f17, f18, f19, f20, f21, f22, f23, f24, f25, f26, f27, f28, f29, f30, f31, f32, c1]
  · norm_num [edgeAt, EvalEdge, MakeEdge, vertexPos, signedArea, whiteVertex, fadd, fsub, fmul, fdiv, i2f, f32_zero, f32_neg, f32_neg_div, f1, f2, f3, f4, f5, f6, f7, f8, f9, f9i, f10, f11, f12, f13, f14, f15, f16, f17, f18, f19, f20, f21, f22, f23, f24, f25, f26, f27, f28, f29, f30, f31, f32, c1]
  · norm_num [edgeAt, EvalEdge, MakeEdge, vertexPos, signedArea, whiteVertex, fadd, fsub, fmul, fdiv, i2f, f32_zero, f32_neg, f32_neg_div, f1, f2, f3, f4, f5, f6, f7, f8, f9, f9i, f10, f11, f12, f13, f14, f15, f16, f17, f18, f19, f20, f21, f22, f23, f24, f25, f26, f27, f28, f29, f30, f31, f32, c1]
  · norm_num [edgeAt, EvalEdge, MakeEdge, vertexPos, signedArea, whiteVertex, fadd, fsub, fmul, fdiv, i2f, f32_zero, f32_neg, f32_neg_div, f1, f2, f3, f4, f5, f6, f7, f8, f9, f9i, f10, f11, f12, f13, f14, f15, f16, f17, f18, f19, f20, f21, f22, f23, f24, f25, f26, f27, f28, f29, f30, f31, f32, c1]
  · simp only [blendArgs, shadeArgs, SampleTextureAlpha_unregistered _ _ _ _ htex,
      whiteVertex_channels]
    norm_num [EvalEdge, MakeEdge, vertexPos, signedArea, whiteVertex, fadd, fsub, fmul, fdiv, i2f, f32_zero, f32_neg, f32_neg_div, f1, f2, f3, f4, f5, f6, f7, f8, f9, f9i, f10, f11, f12, f13, f14, f15, f16, f17, f18, f19, f20, f21, f22, f23, f24, f25, f26, f27, f28, f29, f30, f31, f32, c1]
  · simp only [blendArgs, shadeArgs, SampleTextureAlpha_unregistered _ _ _ _ htex,
      whiteVertex_channels]
    norm_num [EvalEdge, MakeEdge, vertexPos, signedArea, whiteVertex, fadd, fsub, fmul, fdiv, i2f, f32_zero, f32_neg, f32_neg_div, f1, f2, f3, f4, f5, f6, f7, f8, f9, f9i, f10, f11, f12, f13, f14, f15, f16, f17, f18, f19, f20, f21, f22, f23, f24, f25, f26, f27, f28, f29, f30, f31, f32, c1]

/-- The loops of `RasterizeTriangle` for the triangle of `thin_triangle_float` and the clip
rectangle `(0, 0, 1920, 1080)` run over the column 1900 and the rows 1070, 1071, 1072. -/
theorem thin_triangle_box :
    clippedBox (vertexPos (whiteVertex (7603 / 4) (4283 / 4)) 0 0)
      (vertexPos (whiteVertex (7601 / 4) (4291 / 4)) 0 0)
      (vertexPos (whiteVertex (7601 / 4) (4283 / 4)) 0 0) ⟨0, 0, 1920, 1080⟩ = ⟨1900, 1070, 1901, 1073⟩ := by
  have g1 : f32 (7603 / 4) = 7603 / 4 :=
    f32_exact_lit 7603 (-2) (by norm_num) (by norm_num) (by norm_num) (by norm_num)
  have g2 : f32 (7601 / 4) = 7601 / 4 :=
    f32_exact_lit 7601 (-2) (by norm_num) (by norm_num) (by norm_num) (by norm_num)
  have g3 : f32 (4283 / 4) = 4283 / 4 :=
    f32_exact_lit 4283 (-2) (by norm_num) (by norm_num) (by norm_num) (by norm_num)
  have g4 : f32 (4291 / 4) = 4291 / 4 :=
    f32_exact_lit 4291 (-2) (by norm_num) (by norm_num) (by norm_num) (by norm_num)
  have k1 : ⌊(7601 / 4 : ℚ)⌋ = 1900 := by
    rw [Int.floor_eq_iff]
    norm_num
  have k2 : ⌈(7603 / 4 : ℚ)⌉ = 1901 := by
    rw [Int.ceil_eq_iff]
    norm_num
  have k3 : ⌊(4283 / 4 : ℚ)⌋ = 1070 := by
    rw [Int.floor_eq_iff]
    norm_num
  have k4 : ⌈(4291 / 4 : ℚ)⌉ = 1073 := by
    rw [Int.ceil_eq_iff]
    norm_num
  have m1 : min (7603 / 4 : ℚ) (7601 / 4) = 7601 / 4 := min_eq_right (by norm_num)
  have m2 : max (7603 / 4 : ℚ) (7601 / 4) = 7603 / 4 := max_eq_left (by norm_num)
  have m3 : min (4283 / 4 : ℚ) (4283 / 4) = 4283 / 4 := min_self _
  have m4 : max (4283 / 4 : ℚ) (4291 / 4) = 4291 / 4 := max_eq_right (by norm_num)
  have m5 : min (4291 / 4 : ℚ) (4283 / 4) = 4283 / 4 := min_eq_right (by norm_num)
  have m6 : max (4291 / 4 : ℚ) (4283 / 4) = 4291 / 4 := max_eq_left (by norm_num)
  simp only [clippedBox, vertexPos, whiteVertex, fsub, sub_zero, g1, g2, g3, g4, min_self,
    max_self, m1, m2, m3, m4, m5, m6, k1, k2, k3, k4]
  norm_num

theorem clippedBox_example_rev :
    clippedBox (vertexPos (whiteVertex 0 0) 0 0) (vertexPos (whiteVertex 0 4) 0 0)
      (vertexPos (whiteVertex 4 0) 0 0) ⟨0, 0, 4, 4⟩ = ⟨0, 0, 4, 4⟩ := by
  have f4 : f32 4 = 4 :=
    f32_exact_lit 1 2 (by norm_num) (by norm_num) (by norm_num) (by norm_num)
  norm_num [clippedBox, vertexPos, whiteVertex, fsub, f32_zero, f4]

/-- Witness of the amended C15: the white triangle `(0,0), (4,0), (0,4)` of area 16 with the
clip rectangle `(0,0,4,4)` shades the pixel `(0, 0)`. -/
theorem C15_inside_test_amended_witness :
    (0, 0) ∈ shadedPixels (whiteVertex 0 0) (whiteVertex 4 0) (whiteVertex 0 4) ⟨0, 0, 4, 4⟩
      0 0 :=
  (C15_inside_test_amended (blankContext 4 4 ⟨12, 1, 2, 1⟩ []) defaultShifts (whiteVertex 0 0) (whiteVertex 4 0) (whiteVertex 0 4) 0 ⟨0, 0, 4, 4⟩
    0 0 _ _ _ rfl rfl rfl 0 0
    (by rw [white_triangle_origin.1]; norm_num)
    (by rw [clippedBox_example]; simp only; rw [castInt_zero, castInt_four, mem_intRange]; decide)
    (by rw [clippedBox_example]; simp only; rw [castInt_zero, castInt_four, mem_intRange]; decide)
    ).1.mpr
    ⟨by rw [white_triangle_origin.2.1]; norm_num,
     by rw [white_triangle_origin.2.2.1]; norm_num,
     by rw [white_triangle_origin.2.2.2.1]; norm_num⟩

/-- The triangle `(0,0), (0,4), (4,0)` of negative area at the pixel `(0, 0)`, in the `float`
arithmetic of the code: the computed area is -16 and the computed edge values are -12, -2
and -2. -/
theorem reversed_triangle_origin :
    signedArea (vertexPos (whiteVertex 0 0) 0 0) (vertexPos (whiteVertex 0 4) 0 0)
      (vertexPos (whiteVertex 4 0) 0 0) = -16 ∧
    edgeAt (vertexPos (whiteVertex 0 4) 0 0) (vertexPos (whiteVertex 4 0) 0 0) 0 0 = -12 ∧
    edgeAt (vertexPos (whiteVertex 4 0) 0 0) (vertexPos (whiteVertex 0 0) 0 0) 0 0 = -2 ∧
    edgeAt (vertexPos (whiteVertex 0 0) 0 0) (vertexPos (whiteVertex 0 4) 0 0) 0 0 = -2 := by
  have f1 : f32 (4) = 4 :=
    f32_exact_lit 1 (2) (by norm_num) (by norm_num) (by norm_num) (by norm_num)
  have f2 : f32 (16) = 16 :=
    f32_exact_lit 1 (4) (by norm_num) (by norm_num) (by norm_num) (by norm_num)
  have f3 : f32 (1 / 16) = 1 / 16 :=
    f32_exact_lit 1 (-4) (by norm_num) (by norm_num) (by norm_num) (by norm_num)
  have f3i : f32 ((16 : ℚ)⁻¹) = 1 / 16 :=
    f32_exact_lit 1 (-4) (by norm_num) (by norm_num) (by norm_num) (by norm_num)
  have f4 : f32 (1 / 2) = 1 / 2 :=
    f32_exact_lit 1 (-1) (by norm_num) (by norm_num) (by norm_num) (by norm_num)
  have f4i : f32 ((2 : ℚ)⁻¹) = 1 / 2 :=
    f32_exact_lit 1 (-1) (by norm_num) (by norm_num) (by norm_num) (by norm_num)
  have f5 : f32 (2) = 2 :=
    f32_exact_lit 1 (1) (by norm_num) (by norm_num) (by norm_num) (by norm_num)
  have f6 : f32 (12) = 12 :=
    f32_exact_lit 3 (2) (by norm_num) (by norm_num) (by norm_num) (by norm_num)
  refine ⟨?_, ?_, ?_, ?_⟩
  · norm_num [EvalEdge, MakeEdge, vertexPos, signedArea, whiteVertex, fadd, fsub, fmul, fdiv, i2f, f32_zero, f32_neg, f32_neg_div, f1, f2, f3, f3i, f4, f4i, f5, f6]
  · norm_num [edgeAt, EvalEdge, MakeEdge, vertexPos, signedArea, whiteVertex, fadd, fsub, fmul, fdiv, i2f, f32_zero, f32_neg, f32_neg_div, f1, f2, f3, f3i, f4, f4i, f5, f6]
  · norm_num [edgeAt, EvalEdge, MakeEdge, vertexPos, signedArea, whiteVertex, fadd, fsub, fmul, fdiv, i2f, f32_zero, f32_neg, f32_neg_div, f1, f2, f3, f3i, f4, f4i, f5, f6]
  · norm_num [edgeAt, EvalEdge, MakeEdge, vertexPos, signedArea, whiteVertex, fadd, fsub, fmul, fdiv, i2f, f32_zero, f32_neg, f32_neg_div, f1, f2, f3, f3i, f4, f4i, f5, f6]

/-- C15, the claim as stated fails, in two ways.  For a triangle of negative signed area: the
white triangle `(0,0), (0,4), (4,0)` has signed area -16, the pixel `(0, 0)` is in the range
of the loops for the clip rectangle `(0,0,4,4)`, the three edge values at its centre are -12,
-2 and -2, in exact arithmetic and as the code computes them, all of the sign of the area,
and yet the pixel is not shaded and the first byte of the buffer is still 0.  For a triangle
of positive signed area: the triangle `(1900.75, 1070.75), (1900.25, 1072.75),
(1900.25, 1070.75)` has the exact area 1, the exact edge function of its second edge is
`-1/8` at the centre of the pixel `(1900, 1070)`, which lies outside the triangle, and yet the
code, which computes 0 for that edge value in `float` arithmetic, shades the pixel. -/
theorem C15_inside_test_counterexample :
    (areaExact (whiteVertex 0 0).pos (whiteVertex 0 4).pos (whiteVertex 4 0).pos = -16 ∧
      edgeExact (whiteVertex 0 4).pos (whiteVertex 4 0).pos 0 0 = -12 ∧
      edgeExact (whiteVertex 4 0).pos (whiteVertex 0 0).pos 0 0 = -2 ∧
      edgeExact (whiteVertex 0 0).pos (whiteVertex 0 4).pos 0 0 = -2 ∧
      signedArea (vertexPos (whiteVertex 0 0) 0 0) (vertexPos (whiteVertex 0 4) 0 0)
        (vertexPos (whiteVertex 4 0) 0 0) = -16 ∧
      (0 : Int) ∈ intRange
        (castInt (clippedBox (vertexPos (whiteVertex 0 0) 0 0) (vertexPos (whiteVertex 0 4) 0 0)
          (vertexPos (whiteVertex 4 0) 0 0) ⟨0, 0, 4, 4⟩).y)
        (castInt (clippedBox (vertexPos (whiteVertex 0 0) 0 0) (vertexPos (whiteVertex 0 4) 0 0)
          (vertexPos (whiteVertex 4 0) 0 0) ⟨0, 0, 4, 4⟩).w) ∧
      (0 : Int) ∈ intRange
        (castInt (clippedBox (vertexPos (whiteVertex 0 0) 0 0) (vertexPos (whiteVertex 0 4) 0 0)
          (vertexPos (whiteVertex 4 0) 0 0) ⟨0, 0, 4, 4⟩).x)
        (castInt (clippedBox (vertexPos (whiteVertex 0 0) 0 0) (vertexPos (whiteVertex 0 4) 0 0)
          (vertexPos (whiteVertex 4 0) 0 0) ⟨0, 0, 4, 4⟩).z) ∧
      edgeAt (vertexPos (whiteVertex 0 4) 0 0) (vertexPos (whiteVertex 4 0) 0 0) 0 0 = -12 ∧
      edgeAt (vertexPos (whiteVertex 4 0) 0 0) (vertexPos (whiteVertex 0 0) 0 0) 0 0 = -2 ∧
      edgeAt (vertexPos (whiteVertex 0 0) 0 0) (vertexPos (whiteVertex 0 4) 0 0) 0 0 = -2 ∧
      ((0 : Int), (0 : Int)) ∉
        shadedPixels (whiteVertex 0 0) (whiteVertex 0 4) (whiteVertex 4 0) ⟨0, 0, 4, 4⟩ 0 0 ∧
      (RasterizeTriangle (blankContext 4 4 ⟨12, 1, 2, 1⟩ []) defaultShifts (whiteVertex 0 0) (whiteVertex 0 4) (whiteVertex 4 0) 0 ⟨0, 0, 4, 4⟩ 0 0).Pixels 0 = 0) ∧
    (areaExact (whiteVertex (7603 / 4) (4283 / 4)).pos (whiteVertex (7601 / 4) (4291 / 4)).pos
        (whiteVertex (7601 / 4) (4283 / 4)).pos = 1 ∧
      edgeExact (whiteVertex (7601 / 4) (4283 / 4)).pos
        (whiteVertex (7603 / 4) (4283 / 4)).pos 1900 1070 = -(1 / 8) ∧
      ((1070 : Int), (1900 : Int)) ∈
        shadedPixels (whiteVertex (7603 / 4) (4283 / 4)) (whiteVertex (7601 / 4) (4291 / 4))
          (whiteVertex (7601 / 4) (4283 / 4)) ⟨0, 0, 1920, 1080⟩ 0 0) := by
  have hr := reversed_triangle_origin
  have hnot : ((0 : Int), (0 : Int)) ∉
      shadedPixels (whiteVertex 0 0) (whiteVertex 0 4) (whiteVertex 4 0) ⟨0, 0, 4, 4⟩ 0 0 := by
    intro hmem
    rw [mem_shadedPixels _ _ _ _ _ _ _ _ _ rfl rfl rfl] at hmem
    have h0 := hmem.2.2.2.1
    rw [hr.2.1] at h0
    norm_num at h0
  have hy : (0 : Int) ∈ intRange
      (castInt (clippedBox (vertexPos (whiteVertex 0 0) 0 0) (vertexPos (whiteVertex 0 4) 0 0)
        (vertexPos (whiteVertex 4 0) 0 0) ⟨0, 0, 4, 4⟩).y)
      (castInt (clippedBox (vertexPos (whiteVertex 0 0) 0 0) (vertexPos (whiteVertex 0 4) 0 0)
        (vertexPos (whiteVertex 4 0) 0 0) ⟨0, 0, 4, 4⟩).w) := by
    rw [clippedBox_example_rev]; simp only; rw [castInt_zero, castInt_four, mem_intRange]; decide
  have hx : (0 : Int) ∈ intRange
      (castInt (clippedBox (vertexPos (whiteVertex 0 0) 0 0) (vertexPos (whiteVertex 0 4) 0 0)
        (vertexPos (whiteVertex 4 0) 0 0) ⟨0, 0, 4, 4⟩).x)
      (castInt (clippedBox (vertexPos (whiteVertex 0 0) 0 0) (vertexPos (whiteVertex 0 4) 0 0)
        (vertexPos (whiteVertex 4 0) 0 0) ⟨0, 0, 4, 4⟩).z) := by
    rw [clippedBox_example_rev]; simp only; rw [castInt_zero, castInt_four, mem_intRange]; decide
  refine ⟨⟨by norm_num [areaExact, whiteVertex], by norm_num [edgeExact, whiteVertex],
    by norm_num [edgeExact, whiteVertex], by norm_num [edgeExact, whiteVertex], hr.1, hy, hx,
    hr.2.1, hr.2.2.1, hr.2.2.2, hnot, ?_⟩,
    by norm_num [areaExact, whiteVertex], by norm_num [edgeExact, whiteVertex], ?_⟩
  · exact RasterizeTriangle_untouched (blankContext 4 4 ⟨12, 1, 2, 1⟩ []) defaultShifts (whiteVertex 0 0) (whiteVertex 0 4) (whiteVertex 4 0) 0 ⟨0, 0, 4, 4⟩ 0 0 _ _ _ rfl rfl rfl 4 (by decide)
      (by rw [clippedBox_example_rev]; simp only; rw [castInt_zero])
      (by rw [clippedBox_example_rev]; simp only; rw [castInt_four])
      0 0 (by decide) (fun _ => Or.inl (by rw [hr.2.1]; norm_num)) 0
      (by simp [inPixel, blankContext, bytesPerPixel])
  · rw [mem_shadedPixels _ _ _ _ _ _ _ _ _ rfl rfl rfl]
    have ht := thin_triangle_float
    refine ⟨by rw [ht.1]; norm_num, ?_, ?_, by rw [ht.2.1.1]; norm_num, by rw [ht.2.1.2.1],
      by rw [ht.2.1.2.2]; norm_num⟩
    · rw [thin_triangle_box]; simp only
      have c1 : castInt (1070 : ℚ) = 1070 := by
        have := castInt_intCast 1070
        simpa using this
      have c2 : castInt (1073 : ℚ) = 1073 := by
        have := castInt_intCast 1073
        simpa using this
      rw [c1, c2, mem_intRange]; decide
    · rw [thin_triangle_box]; simp only
      have c1 : castInt (1900 : ℚ) = 1900 := by
        have := castInt_intCast 1900
        simpa using this
      have c2 : castInt (1901 : ℚ) = 1901 := by
        have := castInt_intCast 1901
        simpa using this
      rw [c1, c2, mem_intRange]; decide

/-- C20, the code at a failing input.  The white triangle `(1900.75, 1070.75),
(1900.25, 1072.75), (1900.25, 1070.75)`, a right triangle with legs 0.5 and 2, drawn with the
unregistered texture handle 0 into a blank 1920 x 1080 RGBA32 buffer with the clip rectangle
`(0, 0, 1920, 1080)`.  In exact arithmetic the area is 1 and the edge functions at the centre
of the pixel `(1900, 1071)` are `1/2`, `3/8`, `1/8`: the weights are convex and every
interpolated channel of this white triangle is 255.  The code shades the pixel and passes
`(291, 291, 291, 291)` to `BlendPixel`, and the pixel, which should be white, ends up
holding `(76, 76, 76, 35)`. -/
theorem C20_channels_exceed_255 :
    areaExact (whiteVertex (7603 / 4) (4283 / 4)).pos (whiteVertex (7601 / 4) (4291 / 4)).pos
      (whiteVertex (7601 / 4) (4283 / 4)).pos = 1 ∧
    edgeExact (whiteVertex (7601 / 4) (4291 / 4)).pos
      (whiteVertex (7601 / 4) (4283 / 4)).pos 1900 1071 = 1 / 2 ∧
    edgeExact (whiteVertex (7601 / 4) (4283 / 4)).pos
      (whiteVertex (7603 / 4) (4283 / 4)).pos 1900 1071 = 3 / 8 ∧
    edgeExact (whiteVertex (7603 / 4) (4283 / 4)).pos
      (whiteVertex (7601 / 4) (4291 / 4)).pos 1900 1071 = 1 / 8 ∧
    ((1071 : Int), (1900 : Int)) ∈
      shadedPixels (whiteVertex (7603 / 4) (4283 / 4)) (whiteVertex (7601 / 4) (4291 / 4))
        (whiteVertex (7601 / 4) (4283 / 4)) ⟨0, 0, 1920, 1080⟩ 0 0 ∧
    blendArgs (blankContext 1920 1080 ⟨12, 1, 2, 1⟩ []) defaultShifts (whiteVertex (7603 / 4) (4283 / 4))
      (whiteVertex (7601 / 4) (4291 / 4)) (whiteVertex (7601 / 4) (4283 / 4)) 0 0 0 1071 1900 =
        ⟨291, 291, 291, 291⟩ ∧
    (RasterizeTriangle (blankContext 1920 1080 ⟨12, 1, 2, 1⟩ []) defaultShifts
        (whiteVertex (7603 / 4) (4283 / 4)) (whiteVertex (7601 / 4) (4291 / 4))
        (whiteVertex (7601 / 4) (4283 / 4)) 0 ⟨0, 0, 1920, 1080⟩ 0 0).Pixels
      (1071 * (blankContext 1920 1080 ⟨12, 1, 2, 1⟩ []).Pitch + 1900 * 4) = 76 ∧
    (RasterizeTriangle (blankContext 1920 1080 ⟨12, 1, 2, 1⟩ []) defaultShifts
        (whiteVertex (7603 / 4) (4283 / 4)) (whiteVertex (7601 / 4) (4291 / 4))
        (whiteVertex (7601 / 4) (4283 / 4)) 0 ⟨0, 0, 1920, 1080⟩ 0 0).Pixels
      (1071 * (blankContext 1920 1080 ⟨12, 1, 2, 1⟩ []).Pitch + 1900 * 4 + 1) = 76 ∧
    (RasterizeTriangle (blankContext 1920 1080 ⟨12, 1, 2, 1⟩ []) defaultShifts
        (whiteVertex (7603 / 4) (4283 / 4)) (whiteVertex (7601 / 4) (4291 / 4))
        (whiteVertex (7601 / 4) (4283 / 4)) 0 ⟨0, 0, 1920, 1080⟩ 0 0).Pixels
      (1071 * (blankContext 1920 1080 ⟨12, 1, 2, 1⟩ []).Pitch + 1900 * 4 + 2) = 76 ∧
    (RasterizeTriangle (blankContext 1920 1080 ⟨12, 1, 2, 1⟩ []) defaultShifts
        (whiteVertex (7603 / 4) (4283 / 4)) (whiteVertex (7601 / 4) (4291 / 4))
        (whiteVertex (7601 / 4) (4283 / 4)) 0 ⟨0, 0, 1920, 1080⟩ 0 0).Pixels
      (1071 * (blankContext 1920 1080 ⟨12, 1, 2, 1⟩ []).Pitch + 1900 * 4 + 3) = 35 := by
  have ht := thin_triangle_float
  have c1 : castInt (1070 : ℚ) = 1070 := by
    have := castInt_intCast 1070
    simpa using this
  have c2 : castInt (1073 : ℚ) = 1073 := by
    have := castInt_intCast 1073
    simpa using this
  have c3 : castInt (1900 : ℚ) = 1900 := by
    have := castInt_intCast 1900
    simpa using this
  have c4 : castInt (1901 : ℚ) = 1901 := by
    have := castInt_intCast 1901
    simpa using this
  have hy : (1071 : Int) ∈ intRange
      (castInt (clippedBox (vertexPos (whiteVertex (7603 / 4) (4283 / 4)) 0 0)
        (vertexPos (whiteVertex (7601 / 4) (4291 / 4)) 0 0)
        (vertexPos (whiteVertex (7601 / 4) (4283 / 4)) 0 0) ⟨0, 0, 1920, 1080⟩).y)
      (castInt (clippedBox (vertexPos (whiteVertex (7603 / 4) (4283 / 4)) 0 0)
        (vertexPos (whiteVertex (7601 / 4) (4291 / 4)) 0 0)
        (vertexPos (whiteVertex (7601 / 4) (4283 / 4)) 0 0) ⟨0, 0, 1920, 1080⟩).w) := by
    rw [thin_triangle_box]; simp only; rw [c1, c2, mem_intRange]; decide
  have hx : (1900 : Int) ∈ intRange
      (castInt (clippedBox (vertexPos (whiteVertex (7603 / 4) (4283 / 4)) 0 0)
        (vertexPos (whiteVertex (7601 / 4) (4291 / 4)) 0 0)
        (vertexPos (whiteVertex (7601 / 4) (4283 / 4)) 0 0) ⟨0, 0, 1920, 1080⟩).x)
      (castInt (clippedBox (vertexPos (whiteVertex (7603 / 4) (4283 / 4)) 0 0)
        (vertexPos (whiteVertex (7601 / 4) (4291 / 4)) 0 0)
        (vertexPos (whiteVertex (7601 / 4) (4283 / 4)) 0 0) ⟨0, 0, 1920, 1080⟩).z) := by
    rw [thin_triangle_box]; simp only; rw [c3, c4, mem_intRange]; decide
  have harea : signedArea (vertexPos (whiteVertex (7603 / 4) (4283 / 4)) 0 0)
      (vertexPos (whiteVertex (7601 / 4) (4291 / 4)) 0 0)
      (vertexPos (whiteVertex (7601 / 4) (4283 / 4)) 0 0) ≠ 0 := by
    rw [ht.1]; norm_num
  have hin : insideTest
      (MakeEdge (vertexPos (whiteVertex (7601 / 4) (4291 / 4)) 0 0)
        (vertexPos (whiteVertex (7601 / 4) (4283 / 4)) 0 0))
      (MakeEdge (vertexPos (whiteVertex (7601 / 4) (4283 / 4)) 0 0)
        (vertexPos (whiteVertex (7603 / 4) (4283 / 4)) 0 0))
      (MakeEdge (vertexPos (whiteVertex (7603 / 4) (4283 / 4)) 0 0)
        (vertexPos (whiteVertex (7601 / 4) (4291 / 4)) 0 0)) 1071 1900 = true := by
    rw [insideTest_iff, ht.2.2.1.1, ht.2.2.1.2.1, ht.2.2.1.2.2]
    norm_num
  have hmem : ((1071 : Int), (1900 : Int)) ∈
      shadedPixels (whiteVertex (7603 / 4) (4283 / 4)) (whiteVertex (7601 / 4) (4291 / 4))
        (whiteVertex (7601 / 4) (4283 / 4)) ⟨0, 0, 1920, 1080⟩ 0 0 := by
    rw [mem_shadedPixels _ _ _ _ _ _ _ _ _ rfl rfl rfl]
    exact ⟨harea, hy, hx, (insideTest_iff _ _ _ _ _).mp hin⟩
  have k1 : castInt (56539 / 170 : ℚ) = 332 := by
    rw [castInt_of_nonneg (by norm_num), Int.floor_eq_iff]
    norm_num
  have k2 : castInt (583 / 2 : ℚ) = 291 := by
    rw [castInt_of_nonneg (by norm_num), Int.floor_eq_iff]
    norm_num
  have hblend : BlendPixel (blankContext 1920 1080 ⟨12, 1, 2, 1⟩ []).Pixels
      (1071 * (blankContext 1920 1080 ⟨12, 1, 2, 1⟩ []).Pitch + 1900 * 4) PixelFormat.RGBA32 291 291 291 291 =
      WriteDestPixel (blankContext 1920 1080 ⟨12, 1, 2, 1⟩ []).Pixels
        (1071 * (blankContext 1920 1080 ⟨12, 1, 2, 1⟩ []).Pitch + 1900 * 4) PixelFormat.RGBA32 332 332 332 291 := by
    have hm : (blankContext 1920 1080 ⟨12, 1, 2, 1⟩ []).Pixels = fun _ => 0 := rfl
    rw [hm]
    have q1 : ((291 : Int) : ℚ) * (((291 : Int) : ℚ) / 255) +
        (((0 : Nat) : Int) : ℚ) * (1 - ((291 : Int) : ℚ) / 255) + 1 / 2 = 56539 / 170 := by
      norm_num
    have q2 : ((291 : Int) : ℚ) +
        (((0 : Nat) : Int) : ℚ) * (1 - ((291 : Int) : ℚ) / 255) + 1 / 2 = 583 / 2 := by
      norm_num
    simp only [BlendPixel, ReadDestPixel, reduceCtorEq, if_false]
    rw [q1, q2, k1, k2]
  have hval : ∀ a : Int, inPixel (blankContext 1920 1080 ⟨12, 1, 2, 1⟩ []) 1900 1071 a →
      (RasterizeTriangle (blankContext 1920 1080 ⟨12, 1, 2, 1⟩ []) defaultShifts
        (whiteVertex (7603 / 4) (4283 / 4)) (whiteVertex (7601 / 4) (4291 / 4))
        (whiteVertex (7601 / 4) (4283 / 4)) 0 ⟨0, 0, 1920, 1080⟩ 0 0).Pixels a =
      WriteDestPixel (blankContext 1920 1080 ⟨12, 1, 2, 1⟩ []).Pixels
        (1071 * (blankContext 1920 1080 ⟨12, 1, 2, 1⟩ []).Pitch + 1900 * 4) PixelFormat.RGBA32 332 332 332 291 a := by
    intro a ha
    rw [RasterizeTriangle_visited (blankContext 1920 1080 ⟨12, 1, 2, 1⟩ []) defaultShifts
      (whiteVertex (7603 / 4) (4283 / 4)) (whiteVertex (7601 / 4) (4291 / 4)) (whiteVertex (7601 / 4) (4283 / 4)) 0 ⟨0, 0, 1920, 1080⟩ 0 0 _ _ _ rfl rfl rfl 1920 (by decide)
      (by rw [thin_triangle_box]; simp only; rw [c3]; decide)
      (by rw [thin_triangle_box]; simp only; rw [c4]; decide)
      (by rw [thin_triangle_box]; norm_num) harea 1900 1071 hy hx a ha]
    rw [RasterizePixel_eq, if_pos hin]
    have hargs := ht.2.2.2.2
    simp only [blendArgs] at hargs
    rw [hargs]
    have hfmt : (blankContext 1920 1080 ⟨12, 1, 2, 1⟩ []).Format = PixelFormat.RGBA32 := rfl
    have hbpp : bytesPerPixel PixelFormat.RGBA32 = 4 := rfl
    rw [hfmt, hbpp, hblend]
  have hpix : ∀ k : Int, 0 ≤ k → k < 4 →
      inPixel (blankContext 1920 1080 ⟨12, 1, 2, 1⟩ []) 1900 1071
        (1071 * (blankContext 1920 1080 ⟨12, 1, 2, 1⟩ []).Pitch + 1900 * 4 + k) := by
    intro k hk0 hk1
    simp only [inPixel, blankContext, bytesPerPixel, reduceCtorEq, if_false]
    omega
  have hpix0 : inPixel (blankContext 1920 1080 ⟨12, 1, 2, 1⟩ []) 1900 1071
      (1071 * (blankContext 1920 1080 ⟨12, 1, 2, 1⟩ []).Pitch + 1900 * 4) := by
    simp only [inPixel, blankContext, bytesPerPixel, reduceCtorEq, if_false]
    omega
  have hw := WriteDestPixel_rgba_bytes (blankContext 1920 1080 ⟨12, 1, 2, 1⟩ []).Pixels
    (1071 * (blankContext 1920 1080 ⟨12, 1, 2, 1⟩ []).Pitch + 1900 * 4) 332 332 332 291
  have b0 : castU8 332 = 76 := by decide
  have b3 : castU8 291 = 35 := by decide
  exact ⟨by norm_num [areaExact, whiteVertex], by norm_num [edgeExact, whiteVertex],
    by norm_num [edgeExact, whiteVertex], by norm_num [edgeExact, whiteVertex], hmem,
    ht.2.2.2.2,
    (hval _ hpix0).trans (hw.1.trans b0),
    (hval _ (hpix 1 (by decide) (by decide))).trans (hw.2.1.trans b0),
    (hval _ (hpix 2 (by decide) (by decide))).trans (hw.2.2.1.trans b0),
    (hval _ (hpix 3 (by decide) (by decide))).trans (hw.2.2.2.trans b3)⟩

/-! ## Dirty rectangles: count, validity and the two-candidate case -/

theorem absorbFirst_length {d : Int} {r : Rect} {l l2 : List Rect}
    (h : absorbFirst d r l = some l2) : l2.length = l.length := by
  obtain ⟨pre, mr, post, h1, h2, _, _⟩ := absorbFirst_eq_some h
  rw [h1, h2]
  simp

/-- The merged vector never holds more than `max_rects` rectangles when `max_rects ≥ 1`. -/
theorem mergeLoop_length (W H d cap : Int) (hcap : 1 ≤ cap) :
    ∀ (rest merged : List Rect), (merged.length : Int) ≤ cap →
      ((mergeLoop W H d cap merged rest).length : Int) ≤ cap
  | [], merged, h => by simpa [mergeLoop] using h
  | r :: rest, merged, h => by
    cases ha : absorbFirst d r merged with
    | some merged2 =>
      simp only [mergeLoop, ha]
      apply mergeLoop_length W H d cap hcap rest merged2
      rw [absorbFirst_length ha]
      exact h
    | none =>
      simp only [mergeLoop, ha]
      split
      · simpa using hcap
      · rename_i hle
        exact mergeLoop_length W H d cap hcap rest (merged ++ [r]) (by omega)

theorem alignStage_length (W H a : Int) (l : List Rect) :
    (alignStage W H a l).length = l.length := by
  simp [alignStage]

/-- C14. Rectangle-count cap: for every configuration with `max_rects ≥ 1` and every list of
candidate rectangles, the final dirty-rectangle list holds at most `max_rects` rectangles, in
`ComputeDirtyRects` and in `RenderDrawData` alike, whatever `std::sort` does. -/
theorem C14_count_cap (sort : List Rect → List Rect)
    (W H inflate_px merge_dist max_rects align_px : Int) (cands : List Rect)
    (hcap : 1 ≤ max_rects) :
    ((ComputeDirtyRects_stages sort cands W H inflate_px merge_dist max_rects align_px).length
        : Int) ≤ max_rects ∧
    (∀ G : Context, G.DirtyRects = cands →
      G.DirtyCfg = ⟨max_rects, inflate_px, merge_dist, align_px⟩ →
      ((RenderDrawData_dirty sort G W H).length : Int) ≤ max_rects) := by
  have main : ((ComputeDirtyRects_stages sort cands W H inflate_px merge_dist max_rects
      align_px).length : Int) ≤ max_rects := by
    cases hl : cands with
    | nil =>
      rw [stages_nil]
      simp only [List.length_nil, Nat.cast_zero]
      omega
    | cons x t =>
      rw [stages_cons, alignStage_length]
      exact mergeLoop_length W H merge_dist max_rects hcap _ [] (by simpa using (by omega : 0 ≤ max_rects))
  refine ⟨main, ?_⟩
  intro G hG hcfg
  rw [RenderDrawData_dirty_eq_stages, hG, hcfg]
  exact main

/-- Witness of C14: cap 1 and two far candidates. -/
theorem C14_count_cap_witness :
    ((ComputeDirtyRects_stages stdSort [⟨0, 0, 1, 1⟩, ⟨30, 30, 31, 31⟩] 64 48 1 2 1 1).length
      : Int) ≤ 1 :=
  (C14_count_cap stdSort 64 48 1 2 1 1 [⟨0, 0, 1, 1⟩, ⟨30, 30, 31, 31⟩] (by decide)).1

/-- C18. Every final dirty rectangle is a valid in-buffer rectangle: for every inflate margin
`≥ 0`, alignment grid, merge distance and cap, and every list of non-empty candidates inside
`[0,W] x [0,H]` (so `W, H > 0` as soon as there is a candidate), each rectangle of the final
list satisfies `0 ≤ x1 < x2 ≤ W` and `0 ≤ y1 < y2 ≤ H`, in `ComputeDirtyRects` and in
`RenderDrawData` alike. -/
theorem C18_final_rects_valid (sort : List Rect → List Rect) (hs : IsStdSort sort)
    (W H inflate_px merge_dist max_rects align_px : Int) (cands : List Rect)
    (hinf : 0 ≤ inflate_px) (hc : ∀ c ∈ cands, validRect W H c) :
    (∀ r ∈ ComputeDirtyRects_stages sort cands W H inflate_px merge_dist max_rects align_px,
      validRect W H r) ∧
    (∀ G : Context, G.DirtyRects = cands →
      G.DirtyCfg = ⟨max_rects, inflate_px, merge_dist, align_px⟩ →
      ∀ r ∈ RenderDrawData_dirty sort G W H, validRect W H r) := by
  have main : ∀ r ∈ ComputeDirtyRects_stages sort cands W H inflate_px merge_dist max_rects
      align_px, validRect W H r := by
    intro r hr
    cases hl : cands with
    | nil => simp [hl, stages_nil] at hr
    | cons x t =>
      rw [hl, stages_cons, ← hl] at hr
      obtain ⟨hperm, _⟩ := hs (cands.map (inflateRect W H inflate_px))
      have hv : ∀ r ∈ sort (cands.map (inflateRect W H inflate_px)), validRect W H r := by
        intro r hr
        obtain ⟨c2, hc2, rfl⟩ := List.mem_map.mp (hperm.subset hr)
        exact (inflateRect_valid hinf (hc c2 hc2)).1
      have hcov := mergeLoop_covers W H merge_dist max_rects
        (sort (cands.map (inflateRect W H inflate_px))) [] (by simp) hv
      simp only [alignStage, List.mem_map] at hr
      obtain ⟨m, hm, rfl⟩ := hr
      exact (alignRect_valid (le_max_left 1 align_px) (hcov.1 m hm)).1
  refine ⟨main, ?_⟩
  intro G hG hcfg
  rw [RenderDrawData_dirty_eq_stages, hG, hcfg]
  exact main

/-- Witness of C18: the default configuration with grid 8 in a 32 x 32 buffer. -/
theorem C18_final_rects_valid_witness :
    validRect 32 32 ⟨0, 0, 8, 8⟩ ∧
    (⟨0, 0, 8, 8⟩ : Rect) ∈
      ComputeDirtyRects_stages stdSort [⟨1, 1, 5, 5⟩, ⟨20, 20, 30, 31⟩] 32 32 1 2 12 8 :=
  have hmem : (⟨0, 0, 8, 8⟩ : Rect) ∈
      ComputeDirtyRects_stages stdSort [⟨1, 1, 5, 5⟩, ⟨20, 20, 30, 31⟩] 32 32 1 2 12 8 := by
    decide
  ⟨(C18_final_rects_valid stdSort stdSort_isStdSort 32 32 1 2 12 8
    [⟨1, 1, 5, 5⟩, ⟨20, 20, 30, 31⟩] (by decide)
    (by
      intro c hcm
      simp only [List.mem_cons, List.mem_singleton, List.not_mem_nil, or_false] at hcm
      rcases hcm with rfl | rfl <;> simp [validRect])).1 _ hmem, hmem⟩

/-- Any `std::sort` leaves a two-element vector as it is or swaps it. -/
theorem sort_two {sort : List Rect → List Rect} (hs : IsStdSort sort) (a b : Rect) :
    sort [a, b] = [a, b] ∨ sort [a, b] = [b, a] := by
  obtain ⟨hp, _⟩ := hs [a, b]
  have hlen : (sort [a, b]).length = 2 := by simpa using hp.length_eq
  match hl : sort [a, b], hlen with
  | [x, y], _ =>
    rw [hl] at hp
    have hx : x ∈ [a, b] := hp.subset (List.mem_cons_self x [y])
    have hy : y ∈ [a, b] := hp.subset (by simp)
    have hax : a ∈ [x, y] := hp.symm.subset (by simp)
    have hbx : b ∈ [x, y] := hp.symm.subset (by simp)
    simp only [List.mem_cons, List.mem_singleton, List.not_mem_nil, or_false] at hx hy hax hbx
    rcases hx with rfl | rfl
    · rcases hy with rfl | rfl
      · rcases hbx with h | h <;> subst h <;> exact Or.inl rfl
      · exact Or.inl rfl
    · rcases hy with rfl | rfl
      · exact Or.inr rfl
      · rcases hax with h | h <;> subst h <;> exact Or.inl rfl

theorem unionRect_comm (a b : Rect) : unionRect a b = unionRect b a := by
  simp only [unionRect, min_comm a.x1, min_comm a.y1, max_comm a.x2, max_comm a.y2]

/-- The greedy merge of a two-element vector, with a cap of at least 2. -/
theorem mergeLoop_two (W H d cap : Int) (hcap : 2 ≤ cap) (a b : Rect) :
    mergeLoop W H d cap [] [a, b] =
      if overlap_or_close a b d then [unionRect a b] else [a, b] := by
  have c1 : ¬ ((1 : Int) > cap) := by omega
  have c2 : ¬ ((2 : Int) > cap) := by omega
  by_cases h : overlap_or_close a b d = true
  · simp [mergeLoop, absorbFirst, h, c1]
  · simp [mergeLoop, absorbFirst, h, c1, c2]

/-- C16. Merge rule for two candidates: with inflate margin 0, alignment grid 1 and a cap of at
least 2, for every pair of non-empty in-bounds candidates `A`, `B` and every merge distance
`d`, the pipeline returns the single bounding-box union of `A` and `B` when
`not (A.x2 + d <= B.x1 or B.x2 + d <= A.x1 or A.y2 + d <= B.y1 or B.y2 + d <= A.y1)`, and
otherwise returns `A` and `B` unchanged as two rectangles (in the order `std::sort` leaves
them); in `ComputeDirtyRects` and in `RenderDrawData` alike. -/
theorem C16_merge_rule_pair (sort : List Rect → List Rect) (hs : IsStdSort sort)
    (W H cap d : Int) (A B : Rect) (hcap : 2 ≤ cap) (hA : validRect W H A)
    (hB : validRect W H B) :
    ((¬ (A.x2 + d ≤ B.x1 ∨ B.x2 + d ≤ A.x1 ∨ A.y2 + d ≤ B.y1 ∨ B.y2 + d ≤ A.y1) →
        ComputeDirtyRects_stages sort [A, B] W H 0 d cap 1 =
          [⟨min A.x1 B.x1, min A.y1 B.y1, max A.x2 B.x2, max A.y2 B.y2⟩]) ∧
      ((A.x2 + d ≤ B.x1 ∨ B.x2 + d ≤ A.x1 ∨ A.y2 + d ≤ B.y1 ∨ B.y2 + d ≤ A.y1) →
        ComputeDirtyRects_stages sort [A, B] W H 0 d cap 1 = [A, B] ∨
        ComputeDirtyRects_stages sort [A, B] W H 0 d cap 1 = [B, A])) ∧
    (∀ G : Context, G.DirtyRects = [A, B] → G.DirtyCfg = ⟨cap, 0, d, 1⟩ →
      (¬ (A.x2 + d ≤ B.x1 ∨ B.x2 + d ≤ A.x1 ∨ A.y2 + d ≤ B.y1 ∨ B.y2 + d ≤ A.y1) →
        RenderDrawData_dirty sort G W H =
          [⟨min A.x1 B.x1, min A.y1 B.y1, max A.x2 B.x2, max A.y2 B.y2⟩]) ∧
      ((A.x2 + d ≤ B.x1 ∨ B.x2 + d ≤ A.x1 ∨ A.y2 + d ≤ B.y1 ∨ B.y2 + d ≤ A.y1) →
        RenderDrawData_dirty sort G W H = [A, B] ∨
        RenderDrawData_dirty sort G W H = [B, A])) := by
  have hclose : overlap_or_close A B d = true ↔
      ¬ (A.x2 + d ≤ B.x1 ∨ B.x2 + d ≤ A.x1 ∨ A.y2 + d ≤ B.y1 ∨ B.y2 + d ≤ A.y1) := by
    simp only [overlap_or_close, Bool.not_eq_true', Bool.or_eq_false_iff,
      decide_eq_false_iff_not, not_or, and_assoc]
  have hU := unionRect_valid hA hB
  have hUe : unionRect A B = ⟨min A.x1 B.x1, min A.y1 B.y1, max A.x2 B.x2, max A.y2 B.y2⟩ := rfl
  have base : ∀ a b : Rect, validRect W H a → validRect W H b → sort [A, B] = [a, b] →
      unionRect a b = unionRect A B → overlap_or_close a b d = overlap_or_close A B d →
      ComputeDirtyRects_stages sort [A, B] W H 0 d cap 1 =
        if overlap_or_close A B d then [unionRect A B] else [a, b] := by
    intro a b ha hb hsort hu hc
    rw [stages_cons]
    simp only [List.map, inflateRect_zero hA, inflateRect_zero hB]
    rw [hsort, mergeLoop_two W H d cap hcap, hu, hc]
    split
    · simp [alignStage, alignRect_one hU.1]
    · simp [alignStage, alignRect_one ha, alignRect_one hb]
  have main : (¬ (A.x2 + d ≤ B.x1 ∨ B.x2 + d ≤ A.x1 ∨ A.y2 + d ≤ B.y1 ∨ B.y2 + d ≤ A.y1) →
        ComputeDirtyRects_stages sort [A, B] W H 0 d cap 1 =
          [⟨min A.x1 B.x1, min A.y1 B.y1, max A.x2 B.x2, max A.y2 B.y2⟩]) ∧
      ((A.x2 + d ≤ B.x1 ∨ B.x2 + d ≤ A.x1 ∨ A.y2 + d ≤ B.y1 ∨ B.y2 + d ≤ A.y1) →
        ComputeDirtyRects_stages sort [A, B] W H 0 d cap 1 = [A, B] ∨
        ComputeDirtyRects_stages sort [A, B] W H 0 d cap 1 = [B, A]) := by
    rcases sort_two hs A B with h | h
    · have e := base A B hA hB h rfl rfl
      constructor
      · intro hc
        rw [e, if_pos (hclose.mpr hc), hUe]
      · intro hc
        left
        rw [e, if_neg (fun h2 => hclose.mp h2 hc)]
    · have e := base B A hB hA h (unionRect_comm B A) (overlap_or_close_symm B A d)
      constructor
      · intro hc
        rw [e, if_pos (hclose.mpr hc), hUe]
      · intro hc
        right
        rw [e, if_neg (fun h2 => hclose.mp h2 hc)]
  refine ⟨main, ?_⟩
  intro G hG hcfg
  rw [RenderDrawData_dirty_eq_stages, hG, hcfg]
  exact main

/-- Witness of C16: two rectangles 3 pixels apart with merge distance 4 in a 20 x 10 buffer. -/
theorem C16_merge_rule_pair_witness :
    ComputeDirtyRects_stages stdSort [⟨0, 0, 5, 5⟩, ⟨8, 2, 12, 9⟩] 20 10 0 4 2 1 =
      [⟨min 0 8, min 0 2, max 5 12, max 5 9⟩] :=
  (C16_merge_rule_pair stdSort stdSort_isStdSort 20 10 2 4 ⟨0, 0, 5, 5⟩ ⟨8, 2, 12, 9⟩
    (by decide) (by simp [validRect]) (by simp [validRect])).1.1 (by decide)

/-- A rectangle that is not close to `m` is not close to anything contained in `m`. -/
theorem not_close_of_contains {m s r : Rect} {d : Int} (hms : rectContains m s)
    (h : overlap_or_close m r d = false) : overlap_or_close s r d = false := by
  obtain ⟨h1, h2, h3, h4⟩ := hms
  simp only [overlap_or_close, Bool.not_eq_false', Bool.or_eq_true, decide_eq_true_eq] at h ⊢
  rcases h with ((h | h) | h) | h
  · exact Or.inl (Or.inl (Or.inl (by omega)))
  · exact Or.inl (Or.inl (Or.inr (by omega)))
  · exact Or.inl (Or.inr (by omega))
  · exact Or.inr (by omega)

theorem forall₂_exists_left {R : Rect → Rect → Prop} :
    ∀ {l seeds : List Rect}, List.Forall₂ R l seeds → ∀ s ∈ seeds, ∃ m ∈ l, R m s
  | _, _, List.Forall₂.nil, s, hs => by simp at hs
  | _, _, List.Forall₂.cons hhead htail, s, hs => by
    rcases List.mem_cons.mp hs with rfl | hs2
    · exact ⟨_, List.mem_cons_self _ _, hhead⟩
    · obtain ⟨m, hm, hms⟩ := forall₂_exists_left htail s hs2
      exact ⟨m, List.mem_cons_of_mem _ hm, hms⟩

/-- Absorbing a candidate keeps every merged rectangle valid and around its seed. -/
theorem absorbFirst_seeds {W H d : Int} {r : Rect} (hr : validRect W H r) :
    ∀ {l l2 seeds : List Rect}, absorbFirst d r l = some l2 →
      List.Forall₂ (fun m s => validRect W H m ∧ rectContains m s) l seeds →
      List.Forall₂ (fun m s => validRect W H m ∧ rectContains m s) l2 seeds
  | [], _, _, h, _ => by simp [absorbFirst] at h
  | mr :: rest, l2, seeds, h, hf => by
    cases hf with
    | cons hhead htail =>
      by_cases hc : overlap_or_close mr r d = true
      · simp only [absorbFirst, hc, if_true, Option.some.injEq] at h
        subst h
        have hu := unionRect_valid hhead.1 hr
        exact List.Forall₂.cons ⟨hu.1, rectContains_trans hu.2.1 hhead.2⟩ htail
      · simp only [absorbFirst, hc, Bool.false_eq_true, if_false, Option.map_eq_some'] at h
        obtain ⟨t, ht, rfl⟩ := h
        exact List.Forall₂.cons hhead (absorbFirst_seeds hr ht htail)

/-- The greedy merge keeps, for every merged rectangle, a candidate inside it (its seed), and
the seeds are pairwise not close to each other. -/
theorem mergeLoop_seeds (W H d cap : Int) (all : List Rect) :
    ∀ (rest merged seeds : List Rect),
      List.Forall₂ (fun m s => validRect W H m ∧ rectContains m s) merged seeds →
      seeds.Pairwise (fun a b => overlap_or_close a b d = false) →
      (∀ s ∈ seeds, s ∈ all) → (∀ r ∈ rest, validRect W H r ∧ r ∈ all) →
      ∃ seeds2 : List Rect,
        List.Forall₂ (fun m s => validRect W H m ∧ rectContains m s)
          (mergeLoop W H d cap merged rest) seeds2 ∧
        seeds2.Pairwise (fun a b => overlap_or_close a b d = false) ∧
        ∀ s ∈ seeds2, s ∈ all
  | [], merged, seeds, hf, hp, hs, _ => ⟨seeds, by simpa [mergeLoop] using hf, hp, hs⟩
  | r :: rest, merged, seeds, hf, hp, hs, hrest => by
    have hr := hrest r (List.mem_cons_self r rest)
    have hrest2 : ∀ x ∈ rest, validRect W H x ∧ x ∈ all :=
      fun x hx => hrest x (List.mem_cons_of_mem r hx)
    cases ha : absorbFirst d r merged with
    | some merged2 =>
      simp only [mergeLoop, ha]
      exact mergeLoop_seeds W H d cap all rest merged2 seeds (absorbFirst_seeds hr.1 ha hf) hp hs
        hrest2
    | none =>
      simp only [mergeLoop, ha]
      split
      · obtain ⟨g1, g2, g3, g4, g5, g6⟩ := hr.1
        refine ⟨[r], ?_, List.pairwise_singleton _ _, ?_⟩
        · refine List.Forall₂.cons ⟨?_, g1, g4, g3, g6⟩ List.Forall₂.nil
          simp only [validRect]
          refine ⟨?_, ?_, ?_, ?_, ?_, ?_⟩ <;> omega
        · intro s hsm
          rw [List.mem_singleton] at hsm
          rw [hsm]
          exact hr.2
      · have hnone := absorbFirst_eq_none.mp ha
        have hfar : ∀ s ∈ seeds, overlap_or_close s r d = false := by
          intro s hsm
          obtain ⟨m, hm, hms⟩ := forall₂_exists_left hf s hsm
          exact not_close_of_contains hms.2 (hnone m hm)
        apply mergeLoop_seeds W H d cap all rest (merged ++ [r]) (seeds ++ [r])
        · exact List.rel_append hf (List.Forall₂.cons ⟨hr.1, rectContains_refl r⟩ List.Forall₂.nil)
        · rw [List.pairwise_append]
          refine ⟨hp, List.pairwise_singleton _ _, ?_⟩
          intro s hsm b hb
          rw [List.mem_singleton] at hb
          rw [hb]
          exact hfar s hsm
        · intro s hsm
          rcases List.mem_append.mp hsm with h | h
          · exact hs s h
          · rw [List.mem_singleton] at h
            rw [h]
            exact hr.2
        · exact hrest2

/-- C17, as amended. The greedy merge is a single pass: for every inflate margin `≥ 0`, merge
distance, cap and alignment grid and every list of non-empty in-bounds candidates, every
rectangle of the final list contains an inflated candidate of its own (the one that started
it, or any candidate when the cap collapsed the list), and these candidates are pairwise not
within `merge_dist` of each other.  The final rectangles themselves, once grown by absorbing
later candidates, are not compared again. -/
theorem C17_merge_seeds_amended (sort : List Rect → List Rect) (hs : IsStdSort sort)
    (W H inflate_px merge_dist max_rects align_px : Int) (cands : List Rect)
    (hinf : 0 ≤ inflate_px) (hc : ∀ c ∈ cands, validRect W H c) :
    (∃ seeds : List Rect,
      List.Forall₂ (fun r s => rectContains r s)
        (ComputeDirtyRects_stages sort cands W H inflate_px merge_dist max_rects align_px)
        seeds ∧
      (∀ s ∈ seeds, s ∈ cands.map (inflateRect W H inflate_px)) ∧
      seeds.Pairwise (fun a b => overlap_or_close a b merge_dist = false)) ∧
    (∀ G : Context, G.DirtyRects = cands →
      G.DirtyCfg = ⟨max_rects, inflate_px, merge_dist, align_px⟩ →
      ∃ seeds : List Rect,
        List.Forall₂ (fun r s => rectContains r s) (RenderDrawData_dirty sort G W H) seeds ∧
        (∀ s ∈ seeds, s ∈ cands.map (inflateRect W H inflate_px)) ∧
        seeds.Pairwise (fun a b => overlap_or_close a b merge_dist = false)) := by
  have main : ∃ seeds : List Rect,
      List.Forall₂ (fun r s => rectContains r s)
        (ComputeDirtyRects_stages sort cands W H inflate_px merge_dist max_rects align_px)
        seeds ∧
      (∀ s ∈ seeds, s ∈ cands.map (inflateRect W H inflate_px)) ∧
      seeds.Pairwise (fun a b => overlap_or_close a b merge_dist = false) := by
    cases hl : cands with
    | nil =>
      exact ⟨[], by rw [stages_nil]; exact List.Forall₂.nil, by simp, List.Pairwise.nil⟩
    | cons x t =>
      rw [stages_cons, ← hl]
      obtain ⟨hperm, _⟩ := hs (cands.map (inflateRect W H inflate_px))
      have hv : ∀ r ∈ sort (cands.map (inflateRect W H inflate_px)),
          validRect W H r ∧ r ∈ cands.map (inflateRect W H inflate_px) := by
        intro r hr
        have hr2 := hperm.subset hr
        obtain ⟨c2, hc2, rfl⟩ := List.mem_map.mp hr2
        exact ⟨(inflateRect_valid hinf (hc c2 hc2)).1, hr2⟩
      obtain ⟨seeds, hf, hp, hsub⟩ := mergeLoop_seeds W H merge_dist max_rects
        (cands.map (inflateRect W H inflate_px)) _ [] [] List.Forall₂.nil List.Pairwise.nil
        (by simp) hv
      refine ⟨seeds, ?_, hsub, hp⟩
      simp only [alignStage]
      rw [List.forall₂_map_left_iff]
      exact hf.imp (fun {m s} h =>
        rectContains_trans (alignRect_valid (le_max_left 1 align_px) h.1).2 h.2)
  refine ⟨main, ?_⟩
  intro G hG hcfg
  rw [RenderDrawData_dirty_eq_stages, hG, hcfg]
  exact main

/-- Witness of the amended C17 on three candidates in a 32 x 16 buffer. -/
theorem C17_merge_seeds_amended_witness :
    ∃ seeds : List Rect,
      List.Forall₂ (fun r s => rectContains r s)
        (ComputeDirtyRects_stages stdSort
          [⟨0, 0, 10, 10⟩, ⟨14, 0, 22, 10⟩, ⟨9, 0, 16, 5⟩] 32 16 0 2 12 1) seeds ∧
      (∀ s ∈ seeds, s ∈ ([⟨0, 0, 10, 10⟩, ⟨14, 0, 22, 10⟩, ⟨9, 0, 16, 5⟩] : List Rect).map
        (inflateRect 32 16 0)) ∧
      seeds.Pairwise (fun a b => overlap_or_close a b 2 = false) :=
  (C17_merge_seeds_amended stdSort stdSort_isStdSort 32 16 0 2 12 1
    [⟨0, 0, 10, 10⟩, ⟨14, 0, 22, 10⟩, ⟨9, 0, 16, 5⟩] (by decide)
    (by
      intro c hcm
      simp only [List.mem_cons, List.mem_singleton, List.not_mem_nil, or_false] at hcm
      rcases hcm with rfl | rfl | rfl <;> simp [validRect])).1

/-- C17, the claim as stated fails: with inflate margin 0, merge distance 2, cap 12 and grid 1
in a 32 x 16 buffer, the candidates `(0,0,10,10)`, `(14,0,22,10)` and `(9,0,16,5)` give the two
final rectangles `(0,0,16,10)` and `(14,0,22,10)`, which overlap: the third candidate was
absorbed into the first rectangle after the second one had been kept apart from it. -/
theorem C17_merge_seeds_counterexample :
    ComputeDirtyRects_stages stdSort [⟨0, 0, 10, 10⟩, ⟨14, 0, 22, 10⟩, ⟨9, 0, 16, 5⟩]
      32 16 0 2 12 1 = [⟨0, 0, 16, 10⟩, ⟨14, 0, 22, 10⟩] ∧
    RenderDrawData_dirty stdSort
      (blankContext 32 16 ⟨12, 0, 2, 1⟩ [⟨0, 0, 10, 10⟩, ⟨14, 0, 22, 10⟩, ⟨9, 0, 16, 5⟩])
      32 16 = [⟨0, 0, 16, 10⟩, ⟨14, 0, 22, 10⟩] ∧
    (⟨0, 0, 16, 10⟩ : Rect) ≠ ⟨14, 0, 22, 10⟩ ∧
    overlap_or_close ⟨0, 0, 16, 10⟩ ⟨14, 0, 22, 10⟩ 2 = true := by
  decide

/-! ## Texture sampling -/

/-- C13. `SampleTextureAlpha` on an unknown handle: for every context, every handle that is
neither the font handle with font pixels bound nor the id of a user texture with non-null
pixels, and every `(u, v)`, the result is exactly 1. -/
theorem C13_unknown_handle (G : Context) (tex_id : Nat) (u v : ℚ)
    (h : Unregistered G tex_id) : SampleTextureAlpha G tex_id u v = 1 :=
  SampleTextureAlpha_unregistered G tex_id u v h

/-- Witness of C13: the handle 9, whose entry has null pixels, and the handle 5, which has no
entry, in the context with a font atlas and a user texture. -/
theorem C13_unknown_handle_witness :
    SampleTextureAlpha texturedContext 9 (1 / 3) 5 = 1 ∧
    SampleTextureAlpha texturedContext 5 (-2) (3 / 4) = 1 :=
  ⟨C13_unknown_handle texturedContext 9 (1 / 3) 5 (by simp [Unregistered, texturedContext]),
   C13_unknown_handle texturedContext 5 (-2) (3 / 4) (by simp [Unregistered, texturedContext])⟩

theorem sampleUserTextures_eq_find (tex_id : Nat) (u v : ℚ) :
    ∀ (es : List Entry), sampleUserTextures es tex_id u v =
      match findUserTexture es tex_id with
      | some t => sampleTexel t.1 t.2.1 t.2.2.1 t.2.2.2 u v
      | none => 1
  | [] => rfl
  | e :: es => by
    have ih := sampleUserTextures_eq_find tex_id u v es
    unfold sampleUserTextures findUserTexture
    cases hp : e.pixels with
    | none => simpa using ih
    | some px =>
      by_cases hid : e.id = tex_id
      · simp [hid]
      · simpa [hid] using ih

/-- `SampleTextureAlpha` samples the texture the handle stands for, and returns 1 when there
is none. -/
theorem SampleTextureAlpha_eq_find (G : Context) (tex_id : Nat) (u v : ℚ) :
    SampleTextureAlpha G tex_id u v =
      match findTexture G tex_id with
      | some t => sampleTexel t.1 t.2.1 t.2.2.1 t.2.2.2 u v
      | none => 1 := by
  unfold SampleTextureAlpha findTexture
  cases hp : G.FontPixels with
  | none => simpa using sampleUserTextures_eq_find tex_id u v G.UserTextures
  | some px =>
    by_cases hid : tex_id = G.FontTextureID
    · simp [hid]
    · simpa [hid] using sampleUserTextures_eq_find tex_id u v G.UserTextures

theorem clampInt_eq {v hi : Int} (h : 0 ≤ hi) : clampInt v 0 hi = max 0 (min v hi) := by
  unfold clampInt
  split
  · omega
  · split <;> omega

/-- The alpha of a byte: the `float` quotient `b / 255.0f` is the rounded value of `b / 255`
and lies in `[0, 1]`. -/
theorem byte_alpha_range (b : Nat) (hb : b < 256) :
    fdiv (i2f (b : Int)) 255 = f32 ((b : ℚ) / 255) ∧
    0 ≤ fdiv (i2f (b : Int)) 255 ∧ fdiv (i2f (b : Int)) 255 ≤ 1 := by
  have hi : i2f (b : Int) = (b : ℚ) := by
    unfold i2f
    have := f32_intCast (b : Int) (by
      rw [abs_of_nonneg (Int.natCast_nonneg b)]
      omega)
    simpa using this
  have h1 : ((b : Nat) : ℚ) ≤ 255 := by exact_mod_cast (by omega : b ≤ 255)
  have h0 : (0 : ℚ) ≤ ((b : Nat) : ℚ) := Nat.cast_nonneg _
  unfold fdiv
  rw [hi]
  refine ⟨rfl, f32_nonneg (by positivity), f32_le_one ?_⟩
  rw [div_le_one (by norm_num)]
  exact h1

theorem sampleTexel_range (px : Mem) (w h bpp : Int) (u v : ℚ) (hb : ∀ a, px a < 256) :
    0 ≤ sampleTexel px w h bpp u v ∧ sampleTexel px w h bpp u v ≤ 1 := by
  unfold sampleTexel
  simp only []
  split
  · exact (byte_alpha_range _ (hb _)).2
  · exact (byte_alpha_range _ (hb _)).2

theorem findUserTexture_bytes (tex_id : Nat) :
    ∀ (es : List Entry) (t : Mem × Int × Int × Int),
      (∀ e ∈ es, ∀ px, e.pixels = some px → ∀ a, px a < 256) →
      findUserTexture es tex_id = some t → ∀ a, t.1 a < 256
  | [], t, _, h => by simp [findUserTexture] at h
  | e :: es, t, hb, h => by
    have ih := findUserTexture_bytes tex_id es t
      (fun e2 h2 => hb e2 (List.mem_cons_of_mem e h2))
    unfold findUserTexture at h
    cases hp : e.pixels with
    | none =>
      rw [hp] at h
      exact ih h
    | some px =>
      rw [hp] at h
      simp only at h
      by_cases hid : e.id = tex_id
      · rw [if_pos hid] at h
        cases h
        exact hb e (List.mem_cons_self e es) px hp
      · rw [if_neg hid] at h
        exact ih h

theorem findTexture_bytes (G : Context) (tex_id : Nat) (t : Mem × Int × Int × Int)
    (hb : TexturesAreBytes G) (h : findTexture G tex_id = some t) : ∀ a, t.1 a < 256 := by
  unfold findTexture at h
  cases hp : G.FontPixels with
  | none =>
    rw [hp] at h
    exact findUserTexture_bytes tex_id _ t hb.2 h
  | some px =>
    rw [hp] at h
    simp only at h
    by_cases hid : tex_id = G.FontTextureID
    · rw [if_pos hid] at h
      cases h
      exact hb.1 px hp
    · rw [if_neg hid] at h
      exact findUserTexture_bytes tex_id _ t hb.2 h

/-- The sampled alpha lies in `[0, 1]` when the texture memories hold bytes. -/
theorem SampleTextureAlpha_range (G : Context) (tex_id : Nat) (u v : ℚ)
    (hb : TexturesAreBytes G) :
    0 ≤ SampleTextureAlpha G tex_id u v ∧ SampleTextureAlpha G tex_id u v ≤ 1 := by
  rw [SampleTextureAlpha_eq_find]
  cases hf : findTexture G tex_id with
  | none => simp
  | some t => exact sampleTexel_range _ _ _ _ _ _ (findTexture_bytes G tex_id t hb hf)

theorem texturedContext_bytes : TexturesAreBytes texturedContext := by
  constructor
  · intro px hpx a
    simp only [texturedContext, Option.some.injEq] at hpx
    rw [← hpx]
    show (128 : Nat) < 256
    decide
  · intro e he px hpx a
    simp only [texturedContext, List.mem_cons, List.mem_singleton, List.not_mem_nil,
      or_false] at he
    rcases he with rfl | rfl
    · simp only [Option.some.injEq] at hpx
      rw [← hpx]
      show (200 : Nat) < 256
      decide
    · simp at hpx

/-- C19, as amended. Texture sampling is clamped nearest-neighbour on the `float` products:
for every registered texture `(pixels, w, h, bpp)` with `w ≥ 1`, `h ≥ 1` and byte-valued
pixels (`bpp` 1 or 4 included), and every `(u, v)`, also outside `[0,1]`, for which the floors
of the `float` products `u * w` and `v * h` are in the range of `int`, `SampleTextureAlpha`
reads the texel at column `clamp(floor(fl(u*w)), 0, w-1)` and row
`clamp(floor(fl(v*h)), 0, h-1)`, where `fl` is the rounding of the product to `float`; the
texel index `row*w + column` lies in `[0, w*h)`; and the result is that texel's alpha byte
(the single byte for `bpp` 1, else the 4th byte of the 4-byte texel) divided by 255 and
rounded to `float`, a value in `[0, 1]`. -/
theorem C19_clamped_nearest_amended (G : Context) (tex_id : Nat) (px : Mem) (w h bpp : Int)
    (u v : ℚ)
    (hfind : findTexture G tex_id = some (px, w, h, bpp)) (hw : 1 ≤ w) (hh : 1 ≤ h)
    (hbytes : ∀ a, px a < 256)
    (hu : -2 ^ 31 ≤ ⌊fmul u (i2f w)⌋ ∧ ⌊fmul u (i2f w)⌋ < 2 ^ 31)
    (hv : -2 ^ 31 ≤ ⌊fmul v (i2f h)⌋ ∧ ⌊fmul v (i2f h)⌋ < 2 ^ 31) :
    0 ≤ max 0 (min ⌊fmul v (i2f h)⌋ (h - 1)) * w + max 0 (min ⌊fmul u (i2f w)⌋ (w - 1)) ∧
    max 0 (min ⌊fmul v (i2f h)⌋ (h - 1)) * w + max 0 (min ⌊fmul u (i2f w)⌋ (w - 1)) < w * h ∧
    SampleTextureAlpha G tex_id u v =
      f32 ((if bpp = 1 then
        (px (max 0 (min ⌊fmul v (i2f h)⌋ (h - 1)) * w + max 0 (min ⌊fmul u (i2f w)⌋ (w - 1))) : ℚ)
      else
        (px ((max 0 (min ⌊fmul v (i2f h)⌋ (h - 1)) * w + max 0 (min ⌊fmul u (i2f w)⌋ (w - 1))) * 4
          + 3) : ℚ)) / 255) ∧
    0 ≤ SampleTextureAlpha G tex_id u v ∧ SampleTextureAlpha G tex_id u v ≤ 1 := by
  have _hu := hu
  have _hv := hv
  have hval : SampleTextureAlpha G tex_id u v =
      f32 ((if bpp = 1 then
        (px (max 0 (min ⌊fmul v (i2f h)⌋ (h - 1)) * w + max 0 (min ⌊fmul u (i2f w)⌋ (w - 1))) : ℚ)
      else
        (px ((max 0 (min ⌊fmul v (i2f h)⌋ (h - 1)) * w + max 0 (min ⌊fmul u (i2f w)⌋ (w - 1))) * 4
          + 3) : ℚ)) / 255) := by
    rw [SampleTextureAlpha_eq_find, hfind]
    simp only [sampleTexel, clampInt_eq (by omega : 0 ≤ w - 1),
      clampInt_eq (by omega : 0 ≤ h - 1)]
    split
    · exact (byte_alpha_range _ (hbytes _)).1
    · exact (byte_alpha_range _ (hbytes _)).1
  have hrange := sampleTexel_range px w h bpp u v hbytes
  have hs : SampleTextureAlpha G tex_id u v = sampleTexel px w h bpp u v := by
    rw [SampleTextureAlpha_eq_find, hfind]
  generalize hc : max 0 (min ⌊fmul u (i2f w)⌋ (w - 1)) = col at *
  generalize hr : max 0 (min ⌊fmul v (i2f h)⌋ (h - 1)) = row at *
  have c0 : 0 ≤ col ∧ col ≤ w - 1 := by omega
  have r0 : 0 ≤ row ∧ row ≤ h - 1 := by omega
  have hrw : row * w ≤ (h - 1) * w := Int.mul_le_mul_of_nonneg_right r0.2 (by omega)
  have hrw0 : 0 ≤ row * w := Int.mul_nonneg r0.1 (by omega)
  have e : (h - 1) * w = w * h - w := by ring
  refine ⟨by omega, by omega, hval, ?_, ?_⟩
  · rw [hs]
    exact hrange.1
  · rw [hs]
    exact hrange.2

/-- Witness of the amended C19: the user texture with handle 7, sampled outside the unit
square. -/
theorem C19_clamped_nearest_amended_witness :
    SampleTextureAlpha texturedContext 7 (5 / 2) (-1) ≤ 1 :=
  have f2 : f32 2 = 2 :=
    f32_exact_lit 1 1 (by norm_num) (by norm_num) (by norm_num) (by norm_num)
  have f5 : f32 5 = 5 :=
    f32_exact_lit 5 0 (by norm_num) (by norm_num) (by norm_num) (by norm_num)
  have e1 : fmul (5 / 2) (i2f 2) = 5 := by
    norm_num [fmul, i2f, f2, f5]
  have e2 : fmul (-1) (i2f 2) = -2 := by
    norm_num [fmul, i2f, f2, f32_neg]
  (C19_clamped_nearest_amended texturedContext 7 (fun _ => 200) 2 2 4 (5 / 2) (-1) rfl (by decide)
    (by decide) (fun _ => by show (200 : Nat) < 256; decide)
    (by rw [e1]; norm_num) (by rw [e2]; norm_num)).2.2.2.2

/-- C19, the claim as stated fails: the column is the floor of the `float` product, not of the
exact product.  In the context whose texture 7 is a strip of 10 x 1 one-byte texels with alpha
255 at the texel 7 and 0 elsewhere, at `u = 11744051 / 2 ^ 24` (the `float` nearest to 0.7)
and `v = 0`: the exact product `u * 10 = 6.99999988...` has floor 6, and the texel 6 has
alpha 0; the `float` product is 7, and `SampleTextureAlpha` returns the alpha of the texel 7,
which is 1. -/
theorem C19_clamped_nearest_counterexample :
    findTexture stripContext 7 = some ((fun a => if a = 7 then 255 else 0), 10, 1, 1) ∧
    f32 (11744051 / 16777216) = 11744051 / 16777216 ∧
    ⌊(11744051 / 16777216 : ℚ) * ((10 : Int) : ℚ)⌋ = 6 ∧
    (fun (a : Int) => if a = 7 then (255 : Nat) else 0)
      (max 0 (min ⌊(0 : ℚ) * ((1 : Int) : ℚ)⌋ (1 - 1)) * 10 +
        max 0 (min ⌊(11744051 / 16777216 : ℚ) * ((10 : Int) : ℚ)⌋ (10 - 1))) = 0 ∧
    fmul (11744051 / 16777216) (i2f 10) = 7 ∧
    SampleTextureAlpha stripContext 7 (11744051 / 16777216) 0 = 1 := by
  have f10 : f32 10 = 10 :=
    f32_exact_lit 5 1 (by norm_num) (by norm_num) (by norm_num) (by norm_num)
  have f1 : f32 1 = 1 := f32_one
  have f255 : f32 255 = 255 :=
    f32_exact_lit 255 0 (by norm_num) (by norm_num) (by norm_num) (by norm_num)
  have fu : f32 (11744051 / 16777216) = 11744051 / 16777216 :=
    f32_exact_lit 11744051 (-24) (by norm_num) (by norm_num) (by norm_num) (by norm_num)
  have fp : f32 (58720255 / 8388608) = 7 :=
    f32_eval_lit (-21) 14680064 (by norm_num) (by norm_num) (by norm_num) (by norm_num)
      (by norm_num) (by norm_num)
  have hprod : fmul (11744051 / 16777216) (i2f 10) = 7 := by
    norm_num [fmul, i2f, f10, fp]
  have hprod0 : fmul 0 (i2f 1) = 0 := by
    norm_num [fmul, i2f, f1, f32_zero]
  have hfl : ⌊(11744051 / 16777216 : ℚ) * ((10 : Int) : ℚ)⌋ = 6 := by
    rw [Int.floor_eq_iff]
    norm_num
  have hfl0 : ⌊(0 : ℚ) * ((1 : Int) : ℚ)⌋ = 0 := by
    norm_num
  refine ⟨rfl, fu, hfl, ?_, hprod, ?_⟩
  · rw [hfl, hfl0]
    decide
  · rw [SampleTextureAlpha_eq_find]
    have hf : findTexture stripContext 7 =
        some ((fun a => if a = 7 then 255 else 0), 10, 1, 1) := rfl
    rw [hf]
    simp only [sampleTexel, hprod, hprod0]
    have k7 : ⌊(7 : ℚ)⌋ = 7 := by simp
    have k0 : ⌊(0 : ℚ)⌋ = 0 := Int.floor_zero
    rw [k7, k0]
    norm_num [clampInt, fdiv, i2f, f255, f1]

/-! ## Frame driver: the rectangles it records -/

theorem RasterizeTriangle_dirty (G : Context) (sh : ColShifts) (v0 v1 v2 : ImDrawVert)
    (tex_id : Nat) (clip : ImVec4) (ox oy : ℚ) :
    (RasterizeTriangle G sh v0 v1 v2 tex_id clip ox oy).DirtyRects = G.DirtyRects ∧
    (RasterizeTriangle G sh v0 v1 v2 tex_id clip ox oy).DirtyCfg = G.DirtyCfg := by
  unfold RasterizeTriangle
  simp only []
  split
  · exact ⟨rfl, rfl⟩
  · split
    · exact ⟨rfl, rfl⟩
    · exact ⟨rfl, rfl⟩

theorem drawTriangles_dirty (sh : ColShifts) (cl : ImDrawList) (tex_id : Nat) (cr : ImVec4)
    (ox oy : ℚ) :
    ∀ (n : Nat) (s : FrameState),
      (drawTriangles sh cl tex_id cr ox oy n s).G.DirtyRects = s.G.DirtyRects ∧
      (drawTriangles sh cl tex_id cr ox oy n s).G.DirtyCfg = s.G.DirtyCfg
  | 0, _ => ⟨rfl, rfl⟩
  | n + 1, s => by
    unfold drawTriangles
    simp only []
    have ih := drawTriangles_dirty sh cl tex_id cr ox oy n
      { G := RasterizeTriangle s.G sh (cl.VtxBuffer (cl.IdxBuffer s.idx_buf))
          (cl.VtxBuffer (cl.IdxBuffer (s.idx_buf + 1)))
          (cl.VtxBuffer (cl.IdxBuffer (s.idx_buf + 2))) tex_id cr ox oy,
        idx_buf := s.idx_buf + 3,
        calls := s.calls ++ [⟨cl.VtxBuffer (cl.IdxBuffer s.idx_buf),
          cl.VtxBuffer (cl.IdxBuffer (s.idx_buf + 1)),
          cl.VtxBuffer (cl.IdxBuffer (s.idx_buf + 2)), tex_id, cr, ox, oy⟩] }
    rw [ih.1, ih.2]
    exact RasterizeTriangle_dirty _ _ _ _ _ _ _ _ _

/-- The rectangle, if any, that one command adds to `G->DirtyRects` in `RenderDrawData`. -/
theorem RenderCmd_dirty (sh : ColShifts) (clip_off clip_scale : ImVec2) (W H : Int)
    (cl : ImDrawList) (s : FrameState) (pcmd : ImDrawCmd) :
    (RenderCmd sh clip_off clip_scale W H cl s pcmd).G.DirtyCfg = s.G.DirtyCfg ∧
    (RenderCmd sh clip_off clip_scale W H cl s pcmd).G.DirtyRects =
      renderRecord clip_off clip_scale W H s.G.DirtyRects pcmd := by
  unfold RenderCmd renderRecord
  by_cases hcb : pcmd.UserCallback = true
  · simp [hcb]
  · simp only [hcb, Bool.false_eq_true, if_false, false_or]
    split
    · exact ⟨rfl, rfl⟩
    · constructor
      · rw [(drawTriangles_dirty _ _ _ _ _ _ _ _).2]
      · rw [(drawTriangles_dirty _ _ _ _ _ _ _ _).1]

/-- When the clamped clip rectangle of `RenderDrawData` is not empty, the rectangle it records
is the rectangle that `ComputeDirtyRects` builds, and that rectangle is not empty. -/
theorem computeRect_eq_of_nonempty (pcmd : ImDrawCmd) (clip_off clip_scale : ImVec2)
    (W H : Int) (hW : 0 < W) (hH : 0 < H)
    (hne : ¬ ((clampedClip pcmd clip_off clip_scale W H).x ≥
        (clampedClip pcmd clip_off clip_scale W H).z ∨
      (clampedClip pcmd clip_off clip_scale W H).y ≥
        (clampedClip pcmd clip_off clip_scale W H).w)) :
    computeRect pcmd clip_off clip_scale W H =
      ⟨⌊(clampedClip pcmd clip_off clip_scale W H).x⌋,
        ⌊(clampedClip pcmd clip_off clip_scale W H).y⌋,
        ⌈(clampedClip pcmd clip_off clip_scale W H).z⌉,
        ⌈(clampedClip pcmd clip_off clip_scale W H).w⌉⟩ ∧
    ¬ ((computeRect pcmd clip_off clip_scale W H).x2 ≤ (computeRect pcmd clip_off clip_scale W H).x1
      ∨ (computeRect pcmd clip_off clip_scale W H).y2 ≤
        (computeRect pcmd clip_off clip_scale W H).y1) := by
  have key : ∀ (x z : ℚ) (W : Int), 0 < W →
      ¬ ((if x < 0 then 0 else x) ≥ (if z > (W : ℚ) then (W : ℚ) else z)) →
      max 0 (min ⌊x⌋ W) = ⌊(if x < 0 then 0 else x)⌋ ∧
      max 0 (min ⌈z⌉ W) = ⌈(if z > (W : ℚ) then (W : ℚ) else z)⌉ ∧
      ⌊(if x < 0 then 0 else x)⌋ < ⌈(if z > (W : ℚ) then (W : ℚ) else z)⌉ := by
    intro x z W hW h
    rw [not_le] at h
    have hlt : ⌊(if x < 0 then 0 else x)⌋ < ⌈(if z > (W : ℚ) then (W : ℚ) else z)⌉ := by
      have h1 := Int.floor_le (if x < 0 then 0 else x)
      have h2 := Int.le_ceil (if z > (W : ℚ) then (W : ℚ) else z)
      have h3 : ((⌊(if x < 0 then 0 else x)⌋ : Int) : ℚ) <
          ((⌈(if z > (W : ℚ) then (W : ℚ) else z)⌉ : Int) : ℚ) := by linarith
      exact_mod_cast h3
    have hx' : (0 : ℚ) ≤ (if x < 0 then 0 else x) := by
      split
      · exact le_refl _
      · rename_i hx
        exact not_lt.mp hx
    have hz' : (if z > (W : ℚ) then (W : ℚ) else z) ≤ (W : ℚ) := by
      split
      · exact le_refl _
      · rename_i hz
        exact not_lt.mp hz
    refine ⟨?_, ?_, hlt⟩
    · by_cases hx : x < 0
      · rw [if_pos hx, Int.floor_zero]
        have : ⌊x⌋ < 0 := Int.floor_lt.mpr (by exact_mod_cast hx)
        omega
      · rw [if_neg hx] at h hx' ⊢
        have h0 : 0 ≤ ⌊x⌋ := Int.floor_nonneg.mpr hx'
        have h1 : ⌊x⌋ < W := Int.floor_lt.mpr (lt_of_lt_of_le h hz')
        omega
    · by_cases hz : z > (W : ℚ)
      · rw [if_pos hz, Int.ceil_intCast]
        have : W ≤ ⌈z⌉ := by
          have h2 := Int.le_ceil z
          have h3 : ((W : Int) : ℚ) < ((⌈z⌉ : Int) : ℚ) := lt_of_lt_of_le hz h2
          have h4 : W < ⌈z⌉ := by exact_mod_cast h3
          omega
        omega
      · rw [if_neg hz] at h hz' ⊢
        have h1 : ⌈z⌉ ≤ W := Int.ceil_le.mpr hz'
        have h0 : 0 < ⌈z⌉ := Int.ceil_pos.mpr (lt_of_le_of_lt hx' h)
        omega
  rw [not_or] at hne
  have kx := key ((pcmd.ClipRect.x - clip_off.x) * clip_scale.x)
    ((pcmd.ClipRect.z - clip_off.x) * clip_scale.x) W hW hne.1
  have ky := key ((pcmd.ClipRect.y - clip_off.y) * clip_scale.y)
    ((pcmd.ClipRect.w - clip_off.y) * clip_scale.y) H hH hne.2
  simp only [computeRect, clampedClip] at *
  rw [kx.1, kx.2.1, ky.1, ky.2.1]
  refine ⟨rfl, ?_⟩
  rw [not_or, not_le, not_le]
  exact ⟨kx.2.2, ky.2.2⟩

theorem foldl_RenderCmd_dirty (sh : ColShifts) (clip_off clip_scale : ImVec2) (W H : Int)
    (cl : ImDrawList) :
    ∀ (cmds : List ImDrawCmd) (s : FrameState),
      (cmds.foldl (RenderCmd sh clip_off clip_scale W H cl) s).G.DirtyCfg = s.G.DirtyCfg ∧
      (cmds.foldl (RenderCmd sh clip_off clip_scale W H cl) s).G.DirtyRects =
        cmds.foldl (renderRecord clip_off clip_scale W H) s.G.DirtyRects
  | [], _ => ⟨rfl, rfl⟩
  | c :: cmds, s => by
    have ih := foldl_RenderCmd_dirty sh clip_off clip_scale W H cl cmds
      (RenderCmd sh clip_off clip_scale W H cl s c)
    have hc := RenderCmd_dirty sh clip_off clip_scale W H cl s c
    simp only [List.foldl_cons]
    rw [ih.1, ih.2, hc.1, hc.2]
    exact ⟨rfl, rfl⟩

theorem foldl_lists_dirty (sh : ColShifts) (clip_off clip_scale : ImVec2) (W H : Int) :
    ∀ (lists : List ImDrawList) (s : FrameState),
      (lists.foldl (fun s cmd_list => cmd_list.CmdBuffer.foldl
          (RenderCmd sh clip_off clip_scale W H cmd_list) { s with idx_buf := 0 }) s).G.DirtyCfg
        = s.G.DirtyCfg ∧
      (lists.foldl (fun s cmd_list => cmd_list.CmdBuffer.foldl
          (RenderCmd sh clip_off clip_scale W H cmd_list) { s with idx_buf := 0 }) s).G.DirtyRects
        = lists.foldl (fun out cl => cl.CmdBuffer.foldl (renderRecord clip_off clip_scale W H)
            out) s.G.DirtyRects
  | [], _ => ⟨rfl, rfl⟩
  | cl :: lists, s => by
    have hc := foldl_RenderCmd_dirty sh clip_off clip_scale W H cl cl.CmdBuffer
      { s with idx_buf := 0 }
    have ih := foldl_lists_dirty sh clip_off clip_scale W H lists
      (cl.CmdBuffer.foldl (RenderCmd sh clip_off clip_scale W H cl) { s with idx_buf := 0 })
    simp only [List.foldl_cons]
    rw [ih.1, ih.2, hc.1, hc.2]
    exact ⟨rfl, rfl⟩

/-- The dirty rectangles that `RenderDrawData` leaves in the context, for a frame buffer of
positive size: the pipeline applied to the rectangles recorded command by command. -/
theorem RenderDrawData_dirtyRects (sort : List Rect → List Rect) (sh : ColShifts)
    (G : Context) (dd : ImDrawData) (W H : Int)
    (hW : castInt (dd.DisplaySize.x * dd.FramebufferScale.x) = W)
    (hH : castInt (dd.DisplaySize.y * dd.FramebufferScale.y) = H) (hWpos : 0 < W)
    (hHpos : 0 < H) :
    (RenderDrawData sort sh G dd).G.DirtyRects =
      ComputeDirtyRects_stages sort
        (dd.CmdLists.foldl (fun out cl => cl.CmdBuffer.foldl
          (renderRecord dd.DisplayPos dd.FramebufferScale W H) out) [])
        W H G.DirtyCfg.inflate_px G.DirtyCfg.merge_dist G.DirtyCfg.max_rects
        G.DirtyCfg.align_px := by
  unfold RenderDrawData
  simp only [hW, hH]
  rw [if_neg (by omega)]
  have h := foldl_lists_dirty sh dd.DisplayPos dd.FramebufferScale W H dd.CmdLists
    ⟨{ G with DirtyRects := [] }, 0, []⟩
  simp only [RenderDrawData_dirty_eq_stages]
  rw [h.1, h.2]

/-- On a command on which the collectors agree, `ComputeDirtyRects` records what
`RenderDrawData` records. -/
theorem ComputeCmd_eq_renderRecord (clip_off clip_scale : ImVec2) (W H : Int) (hW : 0 < W)
    (hH : 0 < H) (out : List Rect) (pcmd : ImDrawCmd)
    (hagree : CollectorsAgree pcmd clip_off clip_scale W H) :
    ComputeCmd clip_off clip_scale W H out pcmd = renderRecord clip_off clip_scale W H out pcmd
    := by
  obtain ⟨hcb, hclip⟩ := hagree
  unfold ComputeCmd renderRecord
  by_cases h0 : pcmd.ElemCount = 0
  · rw [if_pos h0, if_pos (Or.inl (hcb.mpr h0))]
  · rw [if_neg h0]
    have hncb : ¬ pcmd.UserCallback = true := fun h => h0 (hcb.mp h)
    by_cases hne : (clampedClip pcmd clip_off clip_scale W H).x ≥
        (clampedClip pcmd clip_off clip_scale W H).z ∨
        (clampedClip pcmd clip_off clip_scale W H).y ≥ (clampedClip pcmd clip_off clip_scale W H).w
    · rw [if_pos (Or.inr hne)]
      rcases hclip with h | h
      · exact absurd hne h
      · simp only []
        rw [if_pos h]
    · have hk := computeRect_eq_of_nonempty pcmd clip_off clip_scale W H hW hH hne
      simp only []
      rw [if_neg hk.2, if_neg (by rintro (h | h); exact hncb h; exact hne h), hk.1]

theorem foldl_ComputeCmd_eq (clip_off clip_scale : ImVec2) (W H : Int) (hW : 0 < W)
    (hH : 0 < H) :
    ∀ (cmds : List ImDrawCmd) (out : List Rect),
      (∀ pcmd ∈ cmds, CollectorsAgree pcmd clip_off clip_scale W H) →
      cmds.foldl (ComputeCmd clip_off clip_scale W H) out =
        cmds.foldl (renderRecord clip_off clip_scale W H) out
  | [], _, _ => rfl
  | c :: cmds, out, h => by
    simp only [List.foldl_cons]
    rw [ComputeCmd_eq_renderRecord clip_off clip_scale W H hW hH out c
      (h c (List.mem_cons_self c cmds))]
    exact foldl_ComputeCmd_eq clip_off clip_scale W H hW hH cmds _
      (fun p hp => h p (List.mem_cons_of_mem c hp))

theorem foldl_lists_ComputeCmd_eq (clip_off clip_scale : ImVec2) (W H : Int) (hW : 0 < W)
    (hH : 0 < H) :
    ∀ (lists : List ImDrawList) (out : List Rect),
      (∀ cl ∈ lists, ∀ pcmd ∈ cl.CmdBuffer, CollectorsAgree pcmd clip_off clip_scale W H) →
      lists.foldl (fun out dl => dl.CmdBuffer.foldl (ComputeCmd clip_off clip_scale W H) out) out
        = lists.foldl (fun out cl => cl.CmdBuffer.foldl (renderRecord clip_off clip_scale W H)
            out) out
  | [], _, _ => rfl
  | cl :: lists, out, h => by
    simp only [List.foldl_cons]
    rw [foldl_ComputeCmd_eq clip_off clip_scale W H hW hH cl.CmdBuffer out
      (h cl (List.mem_cons_self cl lists))]
    exact foldl_lists_ComputeCmd_eq clip_off clip_scale W H hW hH lists _
      (fun c hc => h c (List.mem_cons_of_mem cl hc))

/-- C11, as amended. The standalone `ComputeDirtyRects` agrees with the tracker inside
`RenderDrawData` on the frames on which their collectors agree: for every frame whose frame
buffer size `W x H` (display size times scale, truncated) is positive and in which every
command carries a callback exactly when its element count is 0 and has a clamped clip
rectangle that is non-empty or whose outward rounding is empty as well, and for every
configuration, `ComputeDirtyRects` called with `W`, `H` and that configuration produces
exactly the rectangle list that `RenderDrawData` leaves as the dirty rectangles of the
context. -/
theorem C11_standalone_amended (sort : List Rect → List Rect) (sh : ColShifts) (G : Context)
    (dd : ImDrawData) (W H : Int)
    (hW : castInt (dd.DisplaySize.x * dd.FramebufferScale.x) = W)
    (hH : castInt (dd.DisplaySize.y * dd.FramebufferScale.y) = H) (hWpos : 0 < W)
    (hHpos : 0 < H)
    (hagree : ∀ cl ∈ dd.CmdLists, ∀ pcmd ∈ cl.CmdBuffer,
      CollectorsAgree pcmd dd.DisplayPos dd.FramebufferScale W H) :
    ComputeDirtyRects sort dd W H G.DirtyCfg.inflate_px G.DirtyCfg.merge_dist
      G.DirtyCfg.max_rects G.DirtyCfg.align_px = (RenderDrawData sort sh G dd).G.DirtyRects := by
  rw [RenderDrawData_dirtyRects sort sh G dd W H hW hH hWpos hHpos]
  unfold ComputeDirtyRects
  simp only []
  rw [foldl_lists_ComputeCmd_eq dd.DisplayPos dd.FramebufferScale W H hWpos hHpos dd.CmdLists []
    hagree]

theorem plainFrame_size (cmds : List ImDrawCmd) :
    castInt ((plainFrame cmds).DisplaySize.x * (plainFrame cmds).FramebufferScale.x) = 16 ∧
    castInt ((plainFrame cmds).DisplaySize.y * (plainFrame cmds).FramebufferScale.y) = 16 := by
  have h : castInt ((16 : ℚ) * 1) = 16 := by
    have := castInt_intCast 16
    simpa using this
  exact ⟨h, h⟩

/-- The rectangles `RenderDrawData` records for a one-list frame of 16 x 16. -/
theorem plainFrame_render (sort : List Rect → List Rect) (sh : ColShifts) (G : Context)
    (cmds : List ImDrawCmd) :
    (RenderDrawData sort sh G (plainFrame cmds)).G.DirtyRects =
      ComputeDirtyRects_stages sort (cmds.foldl (renderRecord ⟨0, 0⟩ ⟨1, 1⟩ 16 16) [])
        16 16 G.DirtyCfg.inflate_px G.DirtyCfg.merge_dist G.DirtyCfg.max_rects
        G.DirtyCfg.align_px := by
  rw [RenderDrawData_dirtyRects sort sh G (plainFrame cmds) 16 16 (plainFrame_size cmds).1
    (plainFrame_size cmds).2 (by decide) (by decide)]
  rfl

theorem plainFrame_compute (sort : List Rect → List Rect) (cmds : List ImDrawCmd)
    (i d c a : Int) :
    ComputeDirtyRects sort (plainFrame cmds) 16 16 i d c a =
      ComputeDirtyRects_stages sort (cmds.foldl (ComputeCmd ⟨0, 0⟩ ⟨1, 1⟩ 16 16) []) 16 16 i d c a :=
  rfl

theorem floor_11_2 : ⌊(11 / 2 : ℚ)⌋ = 5 := by
  rw [Int.floor_eq_iff]
  norm_num

theorem ceil_11_2 : ⌈(11 / 2 : ℚ)⌉ = 6 := by
  rw [Int.ceil_eq_iff]
  norm_num

/-- C11, the claim as stated fails, on two frames of 16 x 16 with the default configuration.
A geometry command of 3 elements with the clip rectangle `(5.5, 0, 5.5, 10)`: `RenderDrawData`
finds the clamped rectangle empty and records nothing, `ComputeDirtyRects` rounds it outward
first and returns `(4,0,7,11)`.  A geometry command of 0 elements with the clip rectangle
`(0,0,8,8)`: `RenderDrawData` records it and ends with `(0,0,9,9)`, `ComputeDirtyRects` skips
it. -/
theorem C11_standalone_counterexample :
    (RenderDrawData stdSort defaultShifts (blankContext 16 16 ⟨12, 1, 2, 1⟩ [])
      (plainFrame [⟨⟨11 / 2, 0, 11 / 2, 10⟩, 0, 3, false⟩])).G.DirtyRects = [] ∧
    ComputeDirtyRects stdSort (plainFrame [⟨⟨11 / 2, 0, 11 / 2, 10⟩, 0, 3, false⟩])
      16 16 1 2 12 1 = [⟨4, 0, 7, 11⟩] ∧
    (RenderDrawData stdSort defaultShifts (blankContext 16 16 ⟨12, 1, 2, 1⟩ [])
      (plainFrame [⟨⟨0, 0, 8, 8⟩, 0, 0, false⟩])).G.DirtyRects = [⟨0, 0, 9, 9⟩] ∧
    ComputeDirtyRects stdSort (plainFrame [⟨⟨0, 0, 8, 8⟩, 0, 0, false⟩]) 16 16 1 2 12 1 = [] := by
  refine ⟨?_, ?_, ?_, ?_⟩
  · rw [plainFrame_render]
    have : [(⟨⟨11 / 2, 0, 11 / 2, 10⟩, 0, 3, false⟩ : ImDrawCmd)].foldl
        (renderRecord ⟨0, 0⟩ ⟨1, 1⟩ 16 16) [] = [] := by
      norm_num [renderRecord, clampedClip]
    rw [this]
    rfl
  · rw [plainFrame_compute]
    have : [(⟨⟨11 / 2, 0, 11 / 2, 10⟩, 0, 3, false⟩ : ImDrawCmd)].foldl
        (ComputeCmd ⟨0, 0⟩ ⟨1, 1⟩ 16 16) [] = [⟨5, 0, 6, 10⟩] := by
      norm_num [ComputeCmd, computeRect, floor_11_2, ceil_11_2]
    rw [this]
    decide
  · rw [plainFrame_render]
    have : [(⟨⟨0, 0, 8, 8⟩, 0, 0, false⟩ : ImDrawCmd)].foldl
        (renderRecord ⟨0, 0⟩ ⟨1, 1⟩ 16 16) [] = [⟨0, 0, 8, 8⟩] := by
      norm_num [renderRecord, clampedClip]
    rw [this]
    decide
  · rw [plainFrame_compute]
    have : [(⟨⟨0, 0, 8, 8⟩, 0, 0, false⟩ : ImDrawCmd)].foldl
        (ComputeCmd ⟨0, 0⟩ ⟨1, 1⟩ 16 16) [] = [] := by
      norm_num [ComputeCmd]
    rw [this]
    rfl

/-- Witness of the amended C11: a frame of 16 x 16 with a callback command of 0 elements and a
geometry command of 3 elements clipped to `(0, 0, 8, 8)`. -/
theorem C11_standalone_amended_witness :
    ComputeDirtyRects stdSort
      (plainFrame [⟨⟨0, 0, 0, 0⟩, 0, 0, true⟩, ⟨⟨0, 0, 8, 8⟩, 0, 3, false⟩]) 16 16
      (blankContext 16 16 ⟨12, 1, 2, 1⟩ []).DirtyCfg.inflate_px
      (blankContext 16 16 ⟨12, 1, 2, 1⟩ []).DirtyCfg.merge_dist
      (blankContext 16 16 ⟨12, 1, 2, 1⟩ []).DirtyCfg.max_rects
      (blankContext 16 16 ⟨12, 1, 2, 1⟩ []).DirtyCfg.align_px =
    (RenderDrawData stdSort defaultShifts (blankContext 16 16 ⟨12, 1, 2, 1⟩ [])
      (plainFrame [⟨⟨0, 0, 0, 0⟩, 0, 0, true⟩, ⟨⟨0, 0, 8, 8⟩, 0, 3, false⟩])).G.DirtyRects :=
  C11_standalone_amended stdSort defaultShifts (blankContext 16 16 ⟨12, 1, 2, 1⟩ [])
    (plainFrame [⟨⟨0, 0, 0, 0⟩, 0, 0, true⟩, ⟨⟨0, 0, 8, 8⟩, 0, 3, false⟩]) 16 16
    (plainFrame_size _).1 (plainFrame_size _).2 (by decide) (by decide)
    (by
      intro cl hcl pcmd hp
      simp only [plainFrame, List.mem_singleton] at hcl
      subst hcl
      simp only [plainList, List.mem_cons, List.mem_singleton, List.not_mem_nil, or_false] at hp
      rcases hp with rfl | rfl
      · refine ⟨by simp, Or.inr ?_⟩
        norm_num [computeRect, plainFrame]
      · refine ⟨by simp, Or.inl ?_⟩
        norm_num [clampedClip, plainFrame])

/-! ## Frame driver: the triangles it draws -/

/-- The triangle loop: `n` iterations log the triangles of the index triples that start at
`idx_buf`, and leave `idx_buf` advanced by `3 * n`. -/
theorem drawTriangles_calls (sh : ColShifts) (cl : ImDrawList) (tex_id : Nat) (cr : ImVec4)
    (ox oy : ℚ) :
    ∀ (n : Nat) (s : FrameState),
      (drawTriangles sh cl tex_id cr ox oy n s).idx_buf = s.idx_buf + 3 * n ∧
      (drawTriangles sh cl tex_id cr ox oy n s).calls =
        s.calls ++ (List.range n).map (fun k =>
          (⟨cl.VtxBuffer (cl.IdxBuffer (s.idx_buf + 3 * k)),
            cl.VtxBuffer (cl.IdxBuffer (s.idx_buf + 3 * k + 1)),
            cl.VtxBuffer (cl.IdxBuffer (s.idx_buf + 3 * k + 2)), tex_id, cr, ox, oy⟩ : RasterCall))
  | 0, s => by simp [drawTriangles]
  | n + 1, s => by
    unfold drawTriangles
    simp only []
    have ih := drawTriangles_calls sh cl tex_id cr ox oy n
      { G := RasterizeTriangle s.G sh (cl.VtxBuffer (cl.IdxBuffer s.idx_buf))
          (cl.VtxBuffer (cl.IdxBuffer (s.idx_buf + 1)))
          (cl.VtxBuffer (cl.IdxBuffer (s.idx_buf + 2))) tex_id cr ox oy,
        idx_buf := s.idx_buf + 3,
        calls := s.calls ++ [⟨cl.VtxBuffer (cl.IdxBuffer s.idx_buf),
          cl.VtxBuffer (cl.IdxBuffer (s.idx_buf + 1)),
          cl.VtxBuffer (cl.IdxBuffer (s.idx_buf + 2)), tex_id, cr, ox, oy⟩] }
    rw [ih.1, ih.2]
    constructor
    · simp only []
      omega
    · simp only [List.range_succ_eq_map, List.map_cons, List.map_map, List.append_assoc,
        List.singleton_append, Nat.mul_zero, Nat.add_zero]
      congr 2
      apply List.map_congr_left
      intro k _
      simp only [Function.comp]
      have e : s.idx_buf + 3 + 3 * k = s.idx_buf + 3 * (k + 1) := by omega
      rw [e]

/-- A command without callback whose clamped clip rectangle is empty leaves the whole state as
it is: no call is logged and `idx_buf` stays where it was. -/
theorem RenderCmd_skip (sh : ColShifts) (clip_off clip_scale : ImVec2) (W H : Int)
    (cl : ImDrawList) (s : FrameState) (pcmd : ImDrawCmd)
    (hempty : (clampedClip pcmd clip_off clip_scale W H).x ≥
        (clampedClip pcmd clip_off clip_scale W H).z ∨
      (clampedClip pcmd clip_off clip_scale W H).y ≥
        (clampedClip pcmd clip_off clip_scale W H).w) :
    RenderCmd sh clip_off clip_scale W H cl s pcmd = s := by
  unfold RenderCmd
  split
  · rfl
  · simp only []
    rw [if_pos hempty]

/-- A command without callback whose clamped clip rectangle is not empty logs the triangles of
the index triples that start at the current `idx_buf`. -/
theorem RenderCmd_draw (sh : ColShifts) (clip_off clip_scale : ImVec2) (W H : Int)
    (cl : ImDrawList) (s : FrameState) (pcmd : ImDrawCmd) (hcb : pcmd.UserCallback = false)
    (hne : ¬ ((clampedClip pcmd clip_off clip_scale W H).x ≥
        (clampedClip pcmd clip_off clip_scale W H).z ∨
      (clampedClip pcmd clip_off clip_scale W H).y ≥
        (clampedClip pcmd clip_off clip_scale W H).w)) :
    (RenderCmd sh clip_off clip_scale W H cl s pcmd).idx_buf =
      s.idx_buf + 3 * ((pcmd.ElemCount + 2) / 3) ∧
    (RenderCmd sh clip_off clip_scale W H cl s pcmd).calls =
      s.calls ++ (List.range ((pcmd.ElemCount + 2) / 3)).map (fun k =>
        (⟨cl.VtxBuffer (cl.IdxBuffer (s.idx_buf + 3 * k)),
          cl.VtxBuffer (cl.IdxBuffer (s.idx_buf + 3 * k + 1)),
          cl.VtxBuffer (cl.IdxBuffer (s.idx_buf + 3 * k + 2)), pcmd.TexID,
          clampedClip pcmd clip_off clip_scale W H, clip_off.x, clip_off.y⟩ : RasterCall)) := by
  unfold RenderCmd
  simp only [hcb, Bool.false_eq_true, if_false]
  rw [if_neg hne]
  exact drawTriangles_calls sh cl pcmd.TexID _ clip_off.x clip_off.y _ _

/-- The log of `RenderDrawData` for a one-list frame of 16 x 16. -/
theorem plainFrame_calls (sort : List Rect → List Rect) (sh : ColShifts) (G : Context)
    (cmds : List ImDrawCmd) :
    (RenderDrawData sort sh G (plainFrame cmds)).calls =
      (cmds.foldl (RenderCmd sh ⟨0, 0⟩ ⟨1, 1⟩ 16 16 (plainList cmds))
        ⟨{ G with DirtyRects := [] }, 0, []⟩).calls := by
  unfold RenderDrawData
  simp only [(plainFrame_size cmds).1, (plainFrame_size cmds).2]
  rw [if_neg (by decide)]
  rfl

/-- C12, the code at a failing input.  A frame of 16 x 16 with one command list whose index
`i` is `i` and whose vertex `i` is at `(i, 0)`, and two geometry commands of 3 elements: the
first with the clip rectangle `(20, 0, 30, 10)`, which is empty once clamped to the frame
buffer, the second with the clip rectangle `(0, 0, 8, 8)`.  The second command owns the
indices 3, 4, 5, yet the only `RasterizeTriangle` call is made on the vertices 0, 1, 2: the
skipped command has not advanced `idx_buf`. -/
theorem C12_skipped_batch_shifts_indices :
    (RenderDrawData stdSort defaultShifts (blankContext 16 16 ⟨12, 1, 2, 1⟩ [])
      (plainFrame [⟨⟨20, 0, 30, 10⟩, 0, 3, false⟩, ⟨⟨0, 0, 8, 8⟩, 0, 3, false⟩])).calls =
      [⟨whiteVertex 0 0, whiteVertex 1 0, whiteVertex 2 0, 0, ⟨0, 0, 8, 8⟩, 0, 0⟩] ∧
    (plainList [⟨⟨20, 0, 30, 10⟩, 0, 3, false⟩, ⟨⟨0, 0, 8, 8⟩, 0, 3, false⟩]).VtxBuffer
      ((plainList [⟨⟨20, 0, 30, 10⟩, 0, 3, false⟩, ⟨⟨0, 0, 8, 8⟩, 0, 3, false⟩]).IdxBuffer 3)
      = whiteVertex 3 0 ∧
    whiteVertex 0 0 ≠ whiteVertex 3 0 := by
  refine ⟨?_, ?_, ?_⟩
  · rw [plainFrame_calls]
    simp only [List.foldl_cons, List.foldl_nil]
    have hs := RenderCmd_skip defaultShifts ⟨0, 0⟩ ⟨1, 1⟩ 16 16
      (plainList [⟨⟨20, 0, 30, 10⟩, 0, 3, false⟩, ⟨⟨0, 0, 8, 8⟩, 0, 3, false⟩])
      ⟨{ (blankContext 16 16 ⟨12, 1, 2, 1⟩ []) with DirtyRects := [] }, 0, []⟩
      ⟨⟨20, 0, 30, 10⟩, 0, 3, false⟩ (Or.inl (by norm_num [clampedClip]))
    have hd := RenderCmd_draw defaultShifts ⟨0, 0⟩ ⟨1, 1⟩ 16 16
      (plainList [⟨⟨20, 0, 30, 10⟩, 0, 3, false⟩, ⟨⟨0, 0, 8, 8⟩, 0, 3, false⟩])
      ⟨{ (blankContext 16 16 ⟨12, 1, 2, 1⟩ []) with DirtyRects := [] }, 0, []⟩
      ⟨⟨0, 0, 8, 8⟩, 0, 3, false⟩ rfl (by norm_num [clampedClip])
    have hc : clampedClip ⟨⟨0, 0, 8, 8⟩, 0, 3, false⟩ ⟨0, 0⟩ ⟨1, 1⟩ 16 16 = ⟨0, 0, 8, 8⟩ := by
      norm_num [clampedClip]
    rw [hs, hd.2, hc]
    simp [plainList, List.range_succ]
  · simp [plainList]
  · intro h
    have h2 := congrArg (fun v => v.pos.x) h
    simp only [whiteVertex] at h2
    norm_num at h2

/-! ## Range of the blended values -/

/-- `BlendPixel` is `WriteDestPixel` applied to the values of `blendOut`. -/
theorem BlendPixel_eq_blendOut (m : Mem) (dst : Int) (fmt : PixelFormat) (sr sg sb sa : Int) :
    BlendPixel m dst fmt sr sg sb sa =
      WriteDestPixel m dst fmt (blendOut m dst fmt sr sg sb sa).r
        (blendOut m dst fmt sr sg sb sa).g (blendOut m dst fmt sr sg sb sa).b
        (blendOut m dst fmt sr sg sb sa).a := rfl

theorem expand5_range (x : Nat) : (x &&& 31) * 255 / 31 ≤ 255 := by
  rw [and_31]
  omega

theorem expand6_range (x : Nat) : (x &&& 63) * 255 / 63 ≤ 255 := by
  rw [and_63]
  omega

/-- Every channel that `ReadDestPixel` returns is in `0..255` when the bytes of the pixel are
bytes. -/
theorem ReadDestPixel_range (m : Mem) (dst : Int) (fmt : PixelFormat)
    (hpix : ∀ k : Int, 0 ≤ k → k < bytesPerPixel fmt → m (dst + k) < 256) :
    (0 ≤ (ReadDestPixel m dst fmt).r ∧ (ReadDestPixel m dst fmt).r ≤ 255) ∧
    (0 ≤ (ReadDestPixel m dst fmt).g ∧ (ReadDestPixel m dst fmt).g ≤ 255) ∧
    (0 ≤ (ReadDestPixel m dst fmt).b ∧ (ReadDestPixel m dst fmt).b ≤ 255) ∧
    (0 ≤ (ReadDestPixel m dst fmt).a ∧ (ReadDestPixel m dst fmt).a ≤ 255) := by
  cases fmt
  · have b0 := hpix 0 (by decide) (by decide)
    have b1 := hpix 1 (by decide) (by decide)
    have b2 := hpix 2 (by decide) (by decide)
    have b3 := hpix 3 (by decide) (by decide)
    simp only [add_zero] at b0
    simp only [ReadDestPixel]
    omega
  · have b0 := hpix 0 (by decide) (by decide)
    have b1 := hpix 1 (by decide) (by decide)
    have b2 := hpix 2 (by decide) (by decide)
    have b3 := hpix 3 (by decide) (by decide)
    simp only [add_zero] at b0
    simp only [ReadDestPixel]
    omega
  · simp only [ReadDestPixel]
    have h5a := expand5_range (castU16 ((m dst ||| (m (dst + 1) <<< 8) : Nat) : Int) >>> 11)
    have h6 := expand6_range (castU16 ((m dst ||| (m (dst + 1) <<< 8) : Nat) : Int) >>> 5)
    have h5b := expand5_range (castU16 ((m dst ||| (m (dst + 1) <<< 8) : Nat) : Int))
    refine ⟨⟨Int.natCast_nonneg _, by exact_mod_cast h5a⟩,
      ⟨Int.natCast_nonneg _, by exact_mod_cast h6⟩,
      ⟨Int.natCast_nonneg _, by exact_mod_cast h5b⟩, by decide, by decide⟩

/-- A blended colour channel `(int)(s * fa + d * inv + 0.5f)` is in `0..255` when the source
channel, the destination channel and the source alpha are. -/
theorem blend_channel_range {s d sa : Int} (hs : 0 ≤ s ∧ s ≤ 255) (hd : 0 ≤ d ∧ d ≤ 255)
    (ha : 0 ≤ sa ∧ sa ≤ 255) :
    0 ≤ castInt ((s : ℚ) * ((sa : ℚ) / 255) + (d : ℚ) * (1 - (sa : ℚ) / 255) + 1 / 2) ∧
    castInt ((s : ℚ) * ((sa : ℚ) / 255) + (d : ℚ) * (1 - (sa : ℚ) / 255) + 1 / 2) ≤ 255 := by
  have hs0 : (0 : ℚ) ≤ (s : ℚ) := by exact_mod_cast hs.1
  have hs1 : (s : ℚ) ≤ 255 := by exact_mod_cast hs.2
  have hd0 : (0 : ℚ) ≤ (d : ℚ) := by exact_mod_cast hd.1
  have hd1 : (d : ℚ) ≤ 255 := by exact_mod_cast hd.2
  have ha0 : (0 : ℚ) ≤ (sa : ℚ) := by exact_mod_cast ha.1
  have ha1 : (sa : ℚ) ≤ 255 := by exact_mod_cast ha.2
  have hf0 : (0 : ℚ) ≤ (sa : ℚ) / 255 := by positivity
  have hf1 : (sa : ℚ) / 255 ≤ 1 := by
    rw [div_le_one (by norm_num)]
    exact ha1
  have hi0 : (0 : ℚ) ≤ 1 - (sa : ℚ) / 255 := by linarith
  have hq0 : (0 : ℚ) ≤ (s : ℚ) * ((sa : ℚ) / 255) + (d : ℚ) * (1 - (sa : ℚ) / 255) :=
    add_nonneg (mul_nonneg hs0 hf0) (mul_nonneg hd0 hi0)
  have h1 : (s : ℚ) * ((sa : ℚ) / 255) ≤ 255 * ((sa : ℚ) / 255) :=
    mul_le_mul_of_nonneg_right hs1 hf0
  have h2 : (d : ℚ) * (1 - (sa : ℚ) / 255) ≤ 255 * (1 - (sa : ℚ) / 255) :=
    mul_le_mul_of_nonneg_right hd1 hi0
  have hq1 : (s : ℚ) * ((sa : ℚ) / 255) + (d : ℚ) * (1 - (sa : ℚ) / 255) ≤ 255 := by linarith
  obtain ⟨e, e0, e1⟩ := round_range hq0 hq1
  rw [e]
  exact ⟨e0, e1⟩

/-- The blended alpha `(int)(sa + da * inv + 0.5f)` is in `0..255` when the source alpha and
the destination alpha are: `sa + da * (1 - sa / 255) = 255 - (255 - sa) * (255 - da) / 255`. -/
theorem blend_alpha_range {sa da : Int} (ha : 0 ≤ sa ∧ sa ≤ 255) (hd : 0 ≤ da ∧ da ≤ 255) :
    0 ≤ castInt ((sa : ℚ) + (da : ℚ) * (1 - (sa : ℚ) / 255) + 1 / 2) ∧
    castInt ((sa : ℚ) + (da : ℚ) * (1 - (sa : ℚ) / 255) + 1 / 2) ≤ 255 := by
  have hd0 : (0 : ℚ) ≤ (da : ℚ) := by exact_mod_cast hd.1
  have hd1 : (da : ℚ) ≤ 255 := by exact_mod_cast hd.2
  have ha0 : (0 : ℚ) ≤ (sa : ℚ) := by exact_mod_cast ha.1
  have ha1 : (sa : ℚ) ≤ 255 := by exact_mod_cast ha.2
  have hf1 : (sa : ℚ) / 255 ≤ 1 := by
    rw [div_le_one (by norm_num)]
    exact ha1
  have hi0 : (0 : ℚ) ≤ 1 - (sa : ℚ) / 255 := by linarith
  have hq0 : (0 : ℚ) ≤ (sa : ℚ) + (da : ℚ) * (1 - (sa : ℚ) / 255) :=
    add_nonneg ha0 (mul_nonneg hd0 hi0)
  have h2 : (da : ℚ) * (1 - (sa : ℚ) / 255) ≤ 255 * (1 - (sa : ℚ) / 255) :=
    mul_le_mul_of_nonneg_right hd1 hi0
  have hq1 : (sa : ℚ) + (da : ℚ) * (1 - (sa : ℚ) / 255) ≤ 255 := by linarith
  obtain ⟨e, e0, e1⟩ := round_range hq0 hq1
  rw [e]
  exact ⟨e0, e1⟩

/-- The 5-bit and 6-bit quantisations of `WriteDestPixel` fit in a `uint16_t` for a channel
in `0..255`. -/
theorem castU16_quant {r : Int} (k : Int) (hk : 0 ≤ k ∧ k ≤ 63) (h0 : 0 ≤ r) (h1 : r ≤ 255) :
    (castU16 ((r * k + 127).tdiv 255) : Int) = (r * k + 127).tdiv 255 := by
  have hn : 0 ≤ r * k := mul_nonneg h0 hk.1
  have hu : r * k ≤ 255 * 63 := by nlinarith [hk.1, hk.2]
  rw [Int.tdiv_eq_ediv (by omega) (by omega)]
  unfold castU16
  have h2 : 0 ≤ (r * k + 127) / 255 ∧ (r * k + 127) / 255 < 65536 := by omega
  rw [Int.emod_eq_of_lt h2.1 h2.2]
  exact Int.toNat_of_nonneg h2.1

/-- C21. `BlendPixel` keeps channels in range, arithmetic taken as exact rationals: for every
pixel format, every memory whose bytes at the destination pixel are bytes (below 256) and
every source `(sr, sg, sb, sa)` with all components in `0..255`, `BlendPixel` is
`WriteDestPixel` on the four values of `blendOut` (blended red, green, blue and output
alpha), each of these lies in `0..255`, and no cast in `WriteDestPixel` truncates: the
`(uint8_t)` casts of the 32-bit formats return the four values themselves, and the
`(uint16_t)` casts of RGB565 return the quantised channels themselves. -/
theorem C21_blend_in_range (m : Mem) (dst : Int) (fmt : PixelFormat) (sr sg sb sa : Int)
    (hpix : ∀ k : Int, 0 ≤ k → k < bytesPerPixel fmt → m (dst + k) < 256)
    (hr : 0 ≤ sr ∧ sr ≤ 255) (hg : 0 ≤ sg ∧ sg ≤ 255) (hb : 0 ≤ sb ∧ sb ≤ 255)
    (ha : 0 ≤ sa ∧ sa ≤ 255) :
    BlendPixel m dst fmt sr sg sb sa =
      WriteDestPixel m dst fmt (blendOut m dst fmt sr sg sb sa).r
        (blendOut m dst fmt sr sg sb sa).g (blendOut m dst fmt sr sg sb sa).b
        (blendOut m dst fmt sr sg sb sa).a ∧
    ((0 ≤ (blendOut m dst fmt sr sg sb sa).r ∧ (blendOut m dst fmt sr sg sb sa).r ≤ 255) ∧
      (0 ≤ (blendOut m dst fmt sr sg sb sa).g ∧ (blendOut m dst fmt sr sg sb sa).g ≤ 255) ∧
      (0 ≤ (blendOut m dst fmt sr sg sb sa).b ∧ (blendOut m dst fmt sr sg sb sa).b ≤ 255) ∧
      (0 ≤ (blendOut m dst fmt sr sg sb sa).a ∧ (blendOut m dst fmt sr sg sb sa).a ≤ 255)) ∧
    ((castU8 (blendOut m dst fmt sr sg sb sa).r : Int) = (blendOut m dst fmt sr sg sb sa).r ∧
      (castU8 (blendOut m dst fmt sr sg sb sa).g : Int) = (blendOut m dst fmt sr sg sb sa).g ∧
      (castU8 (blendOut m dst fmt sr sg sb sa).b : Int) = (blendOut m dst fmt sr sg sb sa).b ∧
      (castU8 (blendOut m dst fmt sr sg sb sa).a : Int) = (blendOut m dst fmt sr sg sb sa).a) ∧
    ((castU16 (((blendOut m dst fmt sr sg sb sa).r * 31 + 127).tdiv 255) : Int) =
        ((blendOut m dst fmt sr sg sb sa).r * 31 + 127).tdiv 255 ∧
      (castU16 (((blendOut m dst fmt sr sg sb sa).g * 63 + 127).tdiv 255) : Int) =
        ((blendOut m dst fmt sr sg sb sa).g * 63 + 127).tdiv 255 ∧
      (castU16 (((blendOut m dst fmt sr sg sb sa).b * 31 + 127).tdiv 255) : Int) =
        ((blendOut m dst fmt sr sg sb sa).b * 31 + 127).tdiv 255) := by
  obtain ⟨dr, dg, db, da⟩ := ReadDestPixel_range m dst fmt hpix
  have or_ : 0 ≤ (blendOut m dst fmt sr sg sb sa).r ∧ (blendOut m dst fmt sr sg sb sa).r ≤ 255 :=
    blend_channel_range hr dr ha
  have og_ : 0 ≤ (blendOut m dst fmt sr sg sb sa).g ∧ (blendOut m dst fmt sr sg sb sa).g ≤ 255 :=
    blend_channel_range hg dg ha
  have ob_ : 0 ≤ (blendOut m dst fmt sr sg sb sa).b ∧ (blendOut m dst fmt sr sg sb sa).b ≤ 255 :=
    blend_channel_range hb db ha
  have oa_ : 0 ≤ (blendOut m dst fmt sr sg sb sa).a ∧ (blendOut m dst fmt sr sg sb sa).a ≤ 255 := by
    simp only [blendOut]
    split
    · exact ⟨by decide, by decide⟩
    · exact blend_alpha_range ha da
  refine ⟨rfl, ⟨or_, og_, ob_, oa_⟩,
    ⟨castU8_of_range or_.1 or_.2, castU8_of_range og_.1 og_.2, castU8_of_range ob_.1 ob_.2,
      castU8_of_range oa_.1 oa_.2⟩,
    castU16_quant 31 (by decide) or_.1 or_.2, castU16_quant 63 (by decide) og_.1 og_.2,
    castU16_quant 31 (by decide) ob_.1 ob_.2⟩

/-- Witness of C21: a BGRA32 pixel at offset 6 holding the bytes 52, 18, 18, 18, blended with
the source `(200, 100, 50, 128)`. -/
theorem C21_blend_in_range_witness :
    (0 ≤ (blendOut (fun p => if p = 6 then 52 else 18) 6 PixelFormat.BGRA32 200 100 50 128).r ∧
      (blendOut (fun p => if p = 6 then 52 else 18) 6 PixelFormat.BGRA32 200 100 50 128).r
        ≤ 255) ∧
    (0 ≤ (blendOut (fun p => if p = 6 then 52 else 18) 6 PixelFormat.BGRA32 200 100 50 128).g ∧
      (blendOut (fun p => if p = 6 then 52 else 18) 6 PixelFormat.BGRA32 200 100 50 128).g
        ≤ 255) ∧
    (0 ≤ (blendOut (fun p => if p = 6 then 52 else 18) 6 PixelFormat.BGRA32 200 100 50 128).b ∧
      (blendOut (fun p => if p = 6 then 52 else 18) 6 PixelFormat.BGRA32 200 100 50 128).b
        ≤ 255) ∧
    (0 ≤ (blendOut (fun p => if p = 6 then 52 else 18) 6 PixelFormat.BGRA32 200 100 50 128).a ∧
      (blendOut (fun p => if p = 6 then 52 else 18) 6 PixelFormat.BGRA32 200 100 50 128).a
        ≤ 255) :=
  (C21_blend_in_range (fun p => if p = 6 then 52 else 18) 6 PixelFormat.BGRA32 200 100 50 128
    (fun k _ _ => by
      show (if 6 + k = 6 then 52 else 18) < 256
      split <;> decide)
    (by decide) (by decide) (by decide) (by decide)).2.1

end ImGuiSW
